import Mathlib

/-!
# XMU_Dumper: USB mass-storage class driver (`src/src_xmu/msc_driver.c`)

A shallow embedding of the driver's device registry, probe / disconnect paths and
sector read / write command builders, followed by theorems about them.

Modelling conventions.

* Pointers are natural numbers, `0` is `NULL`.  Device records (`MSC_T`) live in an explicit
  record memory `World.mem`; the singly linked registry is the chain of `next` fields that
  starts at `World.g_msc_list`.  Following `next` through `NULL` is a fault.
* Everything the driver calls but does not define (the allocator, the transfer primitives, the
  command executor `run_scsi_command`, the tick counter, the notification callbacks) is an
  environment `Env`.  Each call appends an `Event` to `World.trace`, in program order, and the
  value a call returns is a function of the trace so far and of the call's arguments.
* Byte buffers handed to the transfer primitives are not part of `World.mem`: what the driver
  reads back from such a buffer is the byte sequence the primitive reports.  A buffer that
  comes straight from an unchecked `usbh_alloc_mem` call may be null; reading a byte through
  it is then a fault.
* The header constants (`usbh_lib.h`, `usbh_msc.h`, `usb.h`) are not among the sources; they
  are the fields of `Consts` and every theorem holds for every value of them.
* Machine integers are `Nat` / `Int`; stores into `uint8_t` fields go through `store8`, and the
  `int` product `sec_cnt * 512` goes through `wrap_int32`.
* The width of `size_t` is the constant `size_t_bits`; an `int` is 32 bits wide.
* `while` loops take a fuel argument; running out of fuel is reported as `Fault.out_of_fuel`.
-/

namespace XMU

/-! ## Data model -/

/-- A pointer: an address, `0` being `NULL`. -/
abbrev Ptr := Nat

/-- The null pointer. -/
def NULL : Ptr := 0

/-- Constants of the missing headers that the driver code refers to by name. -/
structure Consts where
  READ_10 : Nat
  WRITE_10 : Nat
  REQUEST_SENSE : Nat
  READ_CAPACITY : Nat
  USBH_OK : Int
  USBH_ERR_MEMORY_OUT : Int
  USBH_ERR_NOT_MATCHED : Int
  USBH_ERR_NOT_SUPPORTED : Int
  USBH_ERR_NOT_EXPECTED : Int
  USBH_ERR_STALL : Int
  UMAS_ERR_IO : Int
  UMAS_ERR_DRIVE_NOT_FOUND : Int
  USB_CLASS_MASS_STORAGE : Nat
  MSC_SCLASS_SCSI : Nat
  MSC_SCLASS_8070 : Nat
  MSC_SCLASS_RBC : Nat
  MSC_SPROTO_BULK : Nat
  EP_ATTR_TT_MASK : Nat
  EP_ATTR_TT_BULK : Nat
  EP_ADDR_DIR_MASK : Nat
  EP_ADDR_DIR_IN : Nat
  REQ_TYPE_IN : Nat
  REQ_TYPE_CLASS_DEV : Nat
  REQ_TYPE_TO_IFACE : Nat
  SCSI_BUFF_LEN : Nat
  sizeof_MSC_T : Nat
  REQ_TYPE_OUT : Nat
  size_t_bits : Nat

/-- Modelled from the spec: the command block wrapper `struct bulk_cb_wrap`, whose declaration
is in the missing header `usbh_msc.h`: signature, transfer tag, expected data length,
direction flag, target lun, CDB length and the 16 CDB bytes. -/
structure bulk_cb_wrap where
  Signature : Nat
  Tag : Nat
  DataTransferLength : Nat
  Flags : Nat
  Lun : Nat
  Length : Nat
  CDB : List Nat
deriving DecidableEq, Repr

/-- The wrapper after `memset(cmd_blk, 0, sizeof(*cmd_blk))`. -/
def bulk_cb_wrap.zero : bulk_cb_wrap :=
  { Signature := 0, Tag := 0, DataTransferLength := 0, Flags := 0, Lun := 0, Length := 0,
    CDB := List.replicate 16 0 }

/-- A reference `&aif->ep[idx]` to an endpoint descriptor of the interface at `iface`. -/
structure EP_REF where
  iface : Ptr
  idx : Nat
deriving DecidableEq, Repr

/-- The device record `MSC_T` (fields the sources use); a null endpoint
reference is `none`. -/
structure MSC_T where
  iface : Ptr
  uid : Nat
  ep_bulk_in : Option EP_REF
  ep_bulk_out : Option EP_REF
  max_lun : Nat
  lun : Nat
  uTotalSectorN : Nat
  nSectorSize : Nat
  scsi_buff : Ptr
  cmd_blk : bulk_cb_wrap
  next : Ptr
deriving DecidableEq, Repr

/-- An endpoint descriptor `EP_INFO_T` (fields the sources use). -/
structure EP_INFO_T where
  bEndpointAddress : Nat
  bmAttributes : Nat
deriving DecidableEq, Repr

/-- The interface descriptor `DESC_IF_T` (fields the sources use). -/
structure DESC_IF_T where
  bNumEndpoints : Nat
  bInterfaceClass : Nat
  bInterfaceSubClass : Nat
  bInterfaceProtocol : Nat
deriving DecidableEq, Repr

/-- An alternate interface `ALT_IFACE_T`: its descriptor and its endpoint array. -/
structure ALT_IFACE_T where
  ifd : DESC_IF_T
  ep : Nat → EP_INFO_T

/-- An interface `IFACE_T`: the active alternate setting, the owning device, its number. -/
structure IFACE_T where
  aif : ALT_IFACE_T
  udev : Ptr
  if_num : Nat

/-- The arguments of one `run_scsi_command` call, with the command block as it is in the
device record at the moment of the call. -/
structure ScsiCall where
  msc : Ptr
  cmd_blk : bulk_cb_wrap
  buff : Ptr
  data_len : Int
  bIsDataIn : Int
  timeout_ticks : Int
deriving DecidableEq, Repr

/-- The arguments of one `usbh_ctrl_xfer` call. -/
structure CtrlReq where
  udev : Ptr
  bmRequestType : Nat
  bRequest : Nat
  wValue : Nat
  wIndex : Nat
  wLength : Nat
  buff : Ptr
  timeout : Nat
deriving DecidableEq, Repr

/-- One call from the driver into its environment. -/
inductive Event where
  | alloc (size : Nat) (p : Ptr)
  | free (p : Ptr) (size : Nat)
  | ticks (t : Nat)
  | ctrl_xfer (r : CtrlReq) (ret : Int)
  | clear_halt (udev : Ptr) (ep_addr : Nat)
  | quit_xfer (ep : EP_REF)
  | conn (fn : Ptr) (msc : Ptr) (status : Int)
  | disconn (fn : Ptr) (msc : Ptr) (status : Int)
  | scsi (c : ScsiCall) (ret : Int)
deriving DecidableEq, Repr

/-- The environment: header constants, interface memory (never written by the driver) and
the results of the external calls as functions of the trace so far. -/
structure Env where
  K : Consts
  ifmem : Ptr → IFACE_T
  usbh_alloc_mem : List Event → Nat → Ptr
  usbh_ctrl_xfer : List Event → CtrlReq → Int × List Nat
  get_ticks : List Event → Nat
  run_scsi_command : List Event → ScsiCall → Int × List Nat

/-- The driver's globals, the record memory and the trace of external calls. -/
structure World where
  g_msc_list : Ptr
  g_msc_conn_func : Ptr
  g_msc_disconn_func : Ptr
  mem : Ptr → MSC_T
  trace : List Event

/-- Ways a run can fail to return: a read or write through a null pointer, a failed
`assert`, or a loop that outlives its fuel. -/
inductive Fault where
  | null_deref
  | out_of_fuel
  | assert_failed
deriving DecidableEq, Repr

/-! ## Machine arithmetic -/

/-- A store into a `uint8_t`. -/
def store8 (x : Nat) : Nat := x % 256

/-- Conversion of an `int` value to `uint8_t`. -/
def store8_int (x : Int) : Nat := (x % 256).toNat

/-- Reduction of an integer to the range of a 32-bit two's complement `int`. -/
def wrap_int32 (x : Int) : Int := (x + 2 ^ 31) % 2 ^ 32 - 2 ^ 31

/-! ## World primitives -/

/-- Write the record at address `p`. -/
def World.store (w : World) (p : Ptr) (m : MSC_T) : World :=
  { w with mem := fun q => if q = p then m else w.mem q }

/-- Append an event to the trace. -/
def World.emit (w : World) (e : Event) : World :=
  { w with trace := w.trace ++ [e] }

/-- The call `usbh_alloc_mem(size)`. -/
def usbh_alloc_mem (E : Env) (w : World) (size : Nat) : Ptr × World :=
  let p := E.usbh_alloc_mem w.trace size
  (p, w.emit (Event.alloc size p))

/-- The call `usbh_free_mem(p, size)`. -/
def usbh_free_mem (w : World) (p : Ptr) (size : Nat) : World :=
  w.emit (Event.free p size)

/-- The call `run_scsi_command(msc, buff, data_len, bIsDataIn, timeout_ticks)`: the status
and the bytes left in the data buffer.  The function is not among the sources; what it
writes into the device record is not modelled. -/
def run_scsi_command (E : Env) (w : World) (msc : Ptr) (buff : Ptr) (data_len : Int)
    (bIsDataIn : Int) (timeout_ticks : Int) : (Int × List Nat) × World :=
  let c : ScsiCall := { msc := msc, cmd_blk := (w.mem msc).cmd_blk, buff := buff,
                        data_len := data_len, bIsDataIn := bIsDataIn,
                        timeout_ticks := timeout_ticks }
  let r := E.run_scsi_command w.trace c
  (r, w.emit (Event.scsi c r.1))

/-! ## Sector read / write (`usbh_umas_read`, `usbh_umas_write`) -/

/-- The CDB bytes 1..8 shared by READ(10) and WRITE(10), written over `cdb`. -/
def rw10_fields (cdb : List Nat) (lun : Nat) (sec_no : Nat) (sec_cnt : Int) : List Nat :=
  let cdb := cdb.set 1 (store8 (lun <<< 5))
  let cdb := cdb.set 2 (store8 ((sec_no >>> 24) &&& 0xFF))
  let cdb := cdb.set 3 (store8 ((sec_no >>> 16) &&& 0xFF))
  let cdb := cdb.set 4 (store8 ((sec_no >>> 8) &&& 0xFF))
  let cdb := cdb.set 5 (store8 (sec_no &&& 0xFF))
  let cdb := cdb.set 7 (store8_int (Int.land (Int.shiftRight sec_cnt 8) 0xFF))
  cdb.set 8 (store8_int (Int.land sec_cnt 0xFF))

/-- The command block `usbh_umas_read` builds in the device record. -/
def read_cmd_blk (K : Consts) (lun : Nat) (sec_no : Nat) (sec_cnt : Int) : bulk_cb_wrap :=
  let c := bulk_cb_wrap.zero
  let c := { c with Flags := 0x80 }
  let c := { c with Length := 10 }
  let c := { c with CDB := c.CDB.set 0 (store8 K.READ_10) }
  { c with CDB := rw10_fields c.CDB lun sec_no sec_cnt }

/-- The command block `usbh_umas_write` builds in the device record. -/
def write_cmd_blk (K : Consts) (lun : Nat) (sec_no : Nat) (sec_cnt : Int) : bulk_cb_wrap :=
  let c := bulk_cb_wrap.zero
  let c := { c with Flags := 0 }
  let c := { c with Length := 10 }
  let c := { c with CDB := c.CDB.set 0 (store8 K.WRITE_10) }
  { c with CDB := rw10_fields c.CDB lun sec_no sec_cnt }

/-- The function `usbh_umas_read(msc, sec_no, sec_cnt, buff)`. -/
def usbh_umas_read (E : Env) (w : World) (msc : Ptr) (sec_no : Nat) (sec_cnt : Int)
    (buff : Ptr) : Int × World :=
  if msc = NULL then
    ( E.K.UMAS_ERR_DRIVE_NOT_FOUND, w)
  else
    let m := w.mem msc
    let w := w.store msc { m with cmd_blk := read_cmd_blk E.K m.lun sec_no sec_cnt }
    let (r, w) := run_scsi_command E w msc buff (wrap_int32 (sec_cnt * 512)) 1 500
    if r.1 ≠ 0 then (r.1, w) else (0, w)

/-- The function `usbh_umas_write(msc, sec_no, sec_cnt, buff)`. -/
def usbh_umas_write (E : Env) (w : World) (msc : Ptr) (sec_no : Nat) (sec_cnt : Int)
    (buff : Ptr) : Int × World :=
  if msc = NULL then
    ( E.K.UMAS_ERR_DRIVE_NOT_FOUND, w)
  else
    let m := w.mem msc
    let w := w.store msc { m with cmd_blk := write_cmd_blk E.K m.lun sec_no sec_cnt }
    let (r, w) := run_scsi_command E w msc buff (wrap_int32 (sec_cnt * 512)) 0 500
    if r.1 < 0 then ( E.K.UMAS_ERR_IO, w) else (0, w)

/-- The `run_scsi_command` calls recorded in a trace, oldest first. -/
def scsi_calls : List Event → List ScsiCall
  | [] => []
  | Event.scsi c _ :: t => c :: scsi_calls t
  | _ :: t => scsi_calls t

/-! ## Device registry (`msc_list_add`, `msc_list_remove`) -/

/-- The function `msc_list_add(msc)`. -/
def msc_list_add (w : World) (msc : Ptr) : World :=
  if w.g_msc_list = NULL then
    let w := w.store msc { w.mem msc with next := NULL }
    { w with g_msc_list := msc }
  else
    let w := w.store msc { w.mem msc with next := w.g_msc_list }
    { w with g_msc_list := msc }

/-- The scan `while ((p->next != msc) && (p->next != NULL)) p = p->next;` of
`msc_list_remove`, started at `p`: the value of `p` when the loop exits. -/
def msc_list_remove_scan (w : World) (msc : Ptr) : Nat → Ptr → Except Fault Ptr
  | 0, _ => .error .out_of_fuel
  | fuel + 1, p =>
    if p = NULL then .error .null_deref
    else if (w.mem p).next ≠ msc ∧ (w.mem p).next ≠ NULL then
      msc_list_remove_scan w msc fuel (w.mem p).next
    else .ok p

/-- The function `msc_list_remove(msc)`. -/
def msc_list_remove (fuel : Nat) (w : World) (msc : Ptr) : Except Fault World :=
  if w.g_msc_list = msc then
    if msc = NULL then .error .null_deref
    else .ok { w with g_msc_list := (w.mem msc).next }
  else
    match msc_list_remove_scan w msc fuel w.g_msc_list with
    | .error f => .error f
    | .ok p =>
      if (w.mem p).next = msc then
        if msc = NULL then .error .null_deref
        else .ok (w.store p { w.mem p with next := (w.mem msc).next })
      else .ok w

/-- The function `usbh_msc_get_device_list()`. -/
def usbh_msc_get_device_list (w : World) : Ptr := w.g_msc_list

/-- The chain of `next` fields starting at `p` visits exactly the records `l`, in that
order, and ends in `NULL`. -/
def is_chain (w : World) : Ptr → List Ptr → Prop
  | p, [] => p = NULL
  | p, a :: l => p = a ∧ a ≠ NULL ∧ is_chain w (w.mem a).next l

instance is_chain.decide (w : World) : (p : Ptr) → (l : List Ptr) → Decidable (is_chain w p l)
  | p, [] => inferInstanceAs (Decidable (p = NULL))
  | p, a :: l =>
    have := is_chain.decide w (w.mem a).next l
    inferInstanceAs (Decidable (p = a ∧ a ≠ NULL ∧ is_chain w (w.mem a).next l))

/-- The Registry of `w` is the sequence `l` of device records: the list a caller obtains by
traversing from `usbh_msc_get_device_list()` along the `next` members. -/
def registry (w : World) (l : List Ptr) : Prop := is_chain w (usbh_msc_get_device_list w) l

instance registry.decide (w : World) (l : List Ptr) : Decidable (registry w l) :=
  inferInstanceAs (Decidable (is_chain w (usbh_msc_get_device_list w) l))

/-! ## Probe (`get_max_lun`, `umas_init_device`, `msc_probe`) -/

/-- The call `usbh_ctrl_xfer(...)`: the status and the bytes left in the buffer. -/
def usbh_ctrl_xfer (E : Env) (w : World) (r : CtrlReq) : (Int × List Nat) × World :=
  let res := E.usbh_ctrl_xfer w.trace r
  (res, w.emit (Event.ctrl_xfer r res.1))

/-- The call `usbh_clear_halt(udev, ep_addr)`. -/
def usbh_clear_halt (w : World) (udev : Ptr) (ep_addr : Nat) : World :=
  w.emit (Event.clear_halt udev ep_addr)

/-- The call `get_ticks()`. -/
def get_ticks (E : Env) (w : World) : Nat × World :=
  let t := E.get_ticks w.trace
  (t, w.emit (Event.ticks t))

/-- The function `get_max_lun(msc)`.  The result of `usbh_alloc_mem(2)` is not checked:
when the transfer succeeds, `nbuff[0]` is read, which is a fault for a null `nbuff`. -/
def get_max_lun (E : Env) (w : World) (msc : Ptr) : Except Fault World :=
  let udev := (E.ifmem (w.mem msc).iface).udev
  let w := w.store msc { w.mem msc with max_lun := 0 }
  let (nbuff, w) := usbh_alloc_mem E w 2
  let (res, w) := usbh_ctrl_xfer E w
    { udev := udev,
      bmRequestType := E.K.REQ_TYPE_IN ||| E.K.REQ_TYPE_CLASS_DEV ||| E.K.REQ_TYPE_TO_IFACE,
      bRequest := 0xFE, wValue := 0, wIndex := 0, wLength := 1, buff := nbuff, timeout := 200 }
  if res.1 < 0 then
    let w := w.store msc { w.mem msc with max_lun := 0 }
    .ok (if res.1 = E.K.USBH_ERR_STALL then usbh_clear_halt w udev 0 else w)
  else if nbuff = NULL then .error .null_deref
  else
    let w := w.store msc { w.mem msc with max_lun := store8 (res.2.getD 0 0) }
    .ok (usbh_free_mem w nbuff 2)

/-- The function `umas_init_device(msc)`. -/
def umas_init_device (E : Env) (w : World) (msc : Ptr) : Int × World :=
  let w := msc_list_add w msc
  let w := if w.g_msc_conn_func ≠ NULL then w.emit (Event.conn w.g_msc_conn_func msc 0) else w
  ( E.K.USBH_OK, w)

/-- One iteration of the endpoint loop of `msc_probe`, on the record value `m`. -/
def probe_scan_step (K : Consts) (iface : Ptr) (aif : ALT_IFACE_T) (m : MSC_T) (i : Nat) :
    MSC_T :=
  if (aif.ep i).bmAttributes &&& K.EP_ATTR_TT_MASK = K.EP_ATTR_TT_BULK then
    if (aif.ep i).bEndpointAddress &&& K.EP_ADDR_DIR_MASK = K.EP_ADDR_DIR_IN then
      { m with ep_bulk_in := some { iface := iface, idx := i } }
    else
      { m with ep_bulk_out := some { iface := iface, idx := i } }
  else m

/-- The loop `for (i = 0; i < aif->ifd->bNumEndpoints; i++)` of `msc_probe`. -/
def probe_scan (K : Consts) (iface : Ptr) (aif : ALT_IFACE_T) (m : MSC_T) : MSC_T :=
  (List.range aif.ifd.bNumEndpoints).foldl (probe_scan_step K iface aif) m

/-- The function `msc_probe(iface)`: the status it returns and the world it leaves, or the
fault of `get_max_lun`. -/
def msc_probe (E : Env) (w : World) (iface : Ptr) : Except Fault (Int × World) :=
  let aif := (E.ifmem iface).aif
  let ifd := aif.ifd
  if ifd.bInterfaceClass ≠ E.K.USB_CLASS_MASS_STORAGE then
    .ok ( E.K.USBH_ERR_NOT_MATCHED, w)
  else if ifd.bInterfaceSubClass ≠ E.K.MSC_SCLASS_SCSI ∧
      ifd.bInterfaceSubClass ≠ E.K.MSC_SCLASS_8070 ∧
      ifd.bInterfaceSubClass ≠ E.K.MSC_SCLASS_RBC ∧ ifd.bInterfaceSubClass ≠ 0x42 then
    .ok ( E.K.USBH_ERR_NOT_SUPPORTED, w)
  else if ifd.bInterfaceProtocol ≠ E.K.MSC_SPROTO_BULK then
    .ok ( E.K.USBH_ERR_NOT_SUPPORTED, w)
  else
    let (msc, w) := usbh_alloc_mem E w E.K.sizeof_MSC_T
    if msc = NULL then
      .ok ( E.K.USBH_ERR_MEMORY_OUT, w)
    else
      let (sb, w) := usbh_alloc_mem E w E.K.SCSI_BUFF_LEN
      let w := w.store msc { w.mem msc with scsi_buff := sb }
      if (w.mem msc).scsi_buff = NULL then
        .ok ( E.K.USBH_ERR_MEMORY_OUT, w)
      else
        let (t, w) := get_ticks E w
        let w := w.store msc { w.mem msc with uid := t }
        let w := w.store msc (probe_scan E.K iface aif (w.mem msc))
        if (w.mem msc).ep_bulk_in = none ∨ (w.mem msc).ep_bulk_out = none then
          let w := usbh_free_mem w (w.mem msc).scsi_buff E.K.SCSI_BUFF_LEN
          let w := usbh_free_mem w msc E.K.sizeof_MSC_T
          .ok ( E.K.USBH_ERR_NOT_EXPECTED, w)
        else
          let w := w.store msc { w.mem msc with iface := iface }
          match get_max_lun E w msc with
          | .error f => .error f
          | .ok w => .ok (umas_init_device E w msc)

/-! ## Disconnect (`msc_disconnect`) -/

/-- The loop of `msc_disconnect` that calls `quit_xfer` on each endpoint. -/
def quit_xfer_all (w : World) (iface : Ptr) (n : Nat) : World :=
  (List.range n).foldl (fun w i => w.emit (Event.quit_xfer { iface := iface, idx := i })) w

/-- The loop `while (msc != NULL)` of `msc_disconnect`, with `msc` the loop variable;
`inner` is the fuel handed to each `msc_list_remove`. -/
def msc_disconnect_loop (E : Env) (iface : Ptr) (inner : Nat) :
    Nat → World → Ptr → Except Fault World
  | 0, _, _ => .error .out_of_fuel
  | fuel + 1, w, msc =>
    if msc = NULL then .ok w
    else
      let msc_p := (w.mem msc).next
      if (w.mem msc).iface = iface then
        let w := if w.g_msc_disconn_func ≠ NULL then
            w.emit (Event.disconn w.g_msc_disconn_func msc 0) else w
        match msc_list_remove inner w msc with
        | .error f => .error f
        | .ok w =>
          let w := if (w.mem msc).scsi_buff ≠ NULL then
              usbh_free_mem w (w.mem msc).scsi_buff E.K.SCSI_BUFF_LEN else w
          let w := usbh_free_mem w msc E.K.sizeof_MSC_T
          msc_disconnect_loop E iface inner fuel w msc_p
      else msc_disconnect_loop E iface inner fuel w msc_p

/-- The function `msc_disconnect(iface)`. -/
def msc_disconnect (E : Env) (fuel : Nat) (w : World) (iface : Ptr) : Except Fault World :=
  let w := quit_xfer_all w iface (E.ifmem iface).aif.ifd.bNumEndpoints
  msc_disconnect_loop E iface fuel fuel w w.g_msc_list

/-! ## Initialisation and callbacks -/

/-- The function `usbh_install_msc_conn_callback(conn_func, disconn_func)`. -/
def usbh_install_msc_conn_callback (w : World) (conn_func disconn_func : Ptr) : World :=
  { w with g_msc_conn_func := conn_func, g_msc_disconn_func := disconn_func }

/-- The function `usbh_umas_init()`: its effect on the driver's globals (the status of
`usbh_register_driver` is not modelled). -/
def usbh_umas_init (w : World) : World :=
  { w with g_msc_list := NULL, g_msc_conn_func := NULL, g_msc_disconn_func := NULL }

/-! ## Request sense and reset (`msc_request_sense`, `msc_reset`) -/

/-- The read `buff[i]` of a `uint8_t` buffer holding the bytes `data`. -/
def byte_at (data : List Nat) (i : Nat) : Nat := (data.getD i 0) % 256

/-- The function `msc_reset(msc)`; dereferencing a null endpoint reference is a fault. -/
def msc_reset (E : Env) (w : World) (msc : Ptr) : Except Fault World :=
  let udev := (E.ifmem (w.mem msc).iface).udev
  let (_, w) := usbh_ctrl_xfer E w
    { udev := udev,
      bmRequestType := E.K.REQ_TYPE_OUT ||| E.K.REQ_TYPE_CLASS_DEV ||| E.K.REQ_TYPE_TO_IFACE,
      bRequest := 0xFF, wValue := 0, wIndex := (E.ifmem (w.mem msc).iface).if_num,
      wLength := 0, buff := NULL, timeout := 100 }
  match (w.mem msc).ep_bulk_out with
  | none => .error .null_deref
  | some eo =>
    let w := usbh_clear_halt w udev ((E.ifmem eo.iface).aif.ep eo.idx).bEndpointAddress
    match (w.mem msc).ep_bulk_in with
    | none => .error .null_deref
    | some ei =>
      .ok (usbh_clear_halt w udev ((E.ifmem ei.iface).aif.ep ei.idx).bEndpointAddress)

/-- The command block `msc_request_sense` builds in the device record. -/
def request_sense_cmd_blk (K : Consts) (lun : Nat) : bulk_cb_wrap :=
  let c := bulk_cb_wrap.zero
  let c := { c with Flags := 0x80 }
  let c := { c with Length := 6 }
  let c := { c with CDB := c.CDB.set 0 (store8 K.REQUEST_SENSE) }
  let c := { c with CDB := c.CDB.set 1 (store8 (lun <<< 5)) }
  { c with CDB := c.CDB.set 4 (store8 18) }

/-- The function `msc_request_sense(msc)`. -/
def msc_request_sense (E : Env) (w : World) (msc : Ptr) : Except Fault (Int × World) :=
  let m := w.mem msc
  let w := w.store msc { m with cmd_blk := request_sense_cmd_blk E.K m.lun }
  let scsi_buff := (w.mem msc).scsi_buff
  let (r, w) := run_scsi_command E w msc scsi_buff 18 1 100
  if r.1 < 0 then
    if r.1 = E.K.USBH_ERR_STALL then
      match msc_reset E w msc with
      | .error f => .error f
      | .ok w => .ok (r.1, w)
    else .ok (r.1, w)
  else if byte_at r.2 2 ≠ 0x6 then .ok (-1, w)
  else .ok (r.1, w)

/-! ## Capacity query (`msc_connection_callback` in `src/main.c`) -/

/-- The value, converted to `uint32_t`, of the `int` expression
`(b0 << 24) | (b1 << 16) | (b2 << 8) | b3` on bytes: an `int` is represented by its 32-bit
two's complement pattern, on which the shifts and the bitwise or act, and the conversion
keeps the pattern. -/
def be32_pattern (b0 b1 b2 b3 : Nat) : Nat :=
  ((b0 <<< 24) % 2 ^ 32 ||| (b1 <<< 16) % 2 ^ 32 ||| (b2 <<< 8) % 2 ^ 32 ||| b3) % 2 ^ 32

/-- The command block `msc_connection_callback` builds in the device record. -/
def capacity_cmd_blk (K : Consts) : bulk_cb_wrap :=
  let c := bulk_cb_wrap.zero
  let c := { c with Flags := 0x80 }
  let c := { c with Length := 8 }
  { c with CDB := c.CDB.set 0 (store8 K.READ_CAPACITY) }

/-- The locals `num_sectors`, `capacity` and `sector_size` of `msc_connection_callback`. -/
structure CapacityLocals where
  num_sectors : Nat
  capacity : Nat
  sector_size : Nat
deriving DecidableEq, Repr

/-- The function `msc_connection_callback(msc_dev, status)` up to and including
`usbh_free_mem(scsi_buff, 8)`: the capacity query.  A failed `assert(ret == USBH_OK)` is
the fault `assert_failed`.  The result of `usbh_alloc_mem(8)` is not checked: reading
`scsi_buff[0]` through a null `scsi_buff` is a fault.  The file dump that follows is not
modelled. -/
def msc_connection_callback_query (E : Env) (w : World) (msc_dev : Ptr) (_status : Int) :
    Except Fault (CapacityLocals × World) :=
  let (scsi_buff, w) := usbh_alloc_mem E w 8
  let w := w.store msc_dev { w.mem msc_dev with cmd_blk := capacity_cmd_blk E.K }
  let (r, w) := run_scsi_command E w msc_dev scsi_buff (w.mem msc_dev).cmd_blk.Length 1 100
  if r.1 ≠ E.K.USBH_OK then .error .assert_failed
  else
    let w := w.store msc_dev { w.mem msc_dev with lun := 0 }
    if scsi_buff = NULL then .error .null_deref
    else
      let w := w.store msc_dev { w.mem msc_dev with
        uTotalSectorN := be32_pattern (byte_at r.2 0) (byte_at r.2 1) (byte_at r.2 2)
          (byte_at r.2 3) }
      let w := w.store msc_dev { w.mem msc_dev with
        nSectorSize := be32_pattern (byte_at r.2 4) (byte_at r.2 5) (byte_at r.2 6)
          (byte_at r.2 7) }
      let num_sectors := (w.mem msc_dev).uTotalSectorN % 2 ^ E.K.size_t_bits
      let capacity := (num_sectors * 512) % 2 ^ E.K.size_t_bits / 1024
      let sector_size := (w.mem msc_dev).nSectorSize % 2 ^ E.K.size_t_bits
      let w := usbh_free_mem w scsi_buff 8
      .ok ({ num_sectors := num_sectors, capacity := capacity, sector_size := sector_size }, w)

/-! ## Trace observations -/

/-- The pointers passed to `usbh_free_mem` in a trace, oldest first. -/
def freed : List Event → List Ptr
  | [] => []
  | Event.free p _ :: t => p :: freed t
  | _ :: t => freed t

/-- The non-null pointers returned by `usbh_alloc_mem` in a trace, oldest first. -/
def allocated : List Event → List Ptr
  | [] => []
  | Event.alloc _ p :: t => if p = NULL then allocated t else p :: allocated t
  | _ :: t => allocated t

/-- The `usbh_ctrl_xfer` requests in a trace, oldest first. -/
def ctrl_requests : List Event → List CtrlReq
  | [] => []
  | Event.ctrl_xfer r _ :: t => r :: ctrl_requests t
  | _ :: t => ctrl_requests t

/-- The attach-callback invocations in a trace, oldest first: callee, record, status. -/
def conn_calls : List Event → List (Ptr × Ptr × Int)
  | [] => []
  | Event.conn f m s :: t => (f, m, s) :: conn_calls t
  | _ :: t => conn_calls t

/-! ## Predicates used in the statements -/

/-- The endpoint descriptor has transfer type bulk, as `msc_probe` tests it. -/
abbrev is_bulk (K : Consts) (e : EP_INFO_T) : Prop :=
  e.bmAttributes &&& K.EP_ATTR_TT_MASK = K.EP_ATTR_TT_BULK

/-- A bulk endpoint whose direction bits are `EP_ADDR_DIR_IN`. -/
abbrev is_bulk_in (K : Consts) (e : EP_INFO_T) : Prop :=
  is_bulk K e ∧ e.bEndpointAddress &&& K.EP_ADDR_DIR_MASK = K.EP_ADDR_DIR_IN

/-- A bulk endpoint of the other direction: its direction bits are not `EP_ADDR_DIR_IN`. -/
abbrev is_bulk_out (K : Consts) (e : EP_INFO_T) : Prop :=
  is_bulk K e ∧ e.bEndpointAddress &&& K.EP_ADDR_DIR_MASK ≠ K.EP_ADDR_DIR_IN

/-- The interface passes the class, subclass and protocol checks of `msc_probe`. -/
abbrev passes_checks (K : Consts) (ifd : DESC_IF_T) : Prop :=
  ifd.bInterfaceClass = K.USB_CLASS_MASS_STORAGE ∧
  (ifd.bInterfaceSubClass = K.MSC_SCLASS_SCSI ∨ ifd.bInterfaceSubClass = K.MSC_SCLASS_8070 ∨
    ifd.bInterfaceSubClass = K.MSC_SCLASS_RBC ∨ ifd.bInterfaceSubClass = 0x42) ∧
  ifd.bInterfaceProtocol = K.MSC_SPROTO_BULK

/-- The address `usbh_alloc_mem` returns to `msc_probe`, started in `w`, for the device
record (its first allocation). -/
def probe_msc (E : Env) (w : World) : Ptr := (usbh_alloc_mem E w E.K.sizeof_MSC_T).1

/-- The address `usbh_alloc_mem` returns to `msc_probe`, started in `w`, for the working
buffer (its second allocation). -/
def probe_scsi_buff (E : Env) (w : World) : Ptr :=
  (usbh_alloc_mem E (usbh_alloc_mem E w E.K.sizeof_MSC_T).2 E.K.SCSI_BUFF_LEN).1

/-- The value `get_ticks` returns to `msc_probe`, started in `w`, after both allocations. -/
def probe_ticks (E : Env) (w : World) : Nat :=
  (get_ticks E (usbh_alloc_mem E (usbh_alloc_mem E w E.K.sizeof_MSC_T).2 E.K.SCSI_BUFF_LEN).2).1

/-- The world at the point where `msc_probe`, started in `w` on an interface that passed
the descriptor checks and with both allocations successful, tests the endpoint references:
after the two allocations, the `scsi_buff` and `uid` stores and the endpoint loop. -/
def probe_scanned (E : Env) (w : World) (iface : Ptr) : World :=
  let (msc, w) := usbh_alloc_mem E w E.K.sizeof_MSC_T
  let (sb, w) := usbh_alloc_mem E w E.K.SCSI_BUFF_LEN
  let w := w.store msc { w.mem msc with scsi_buff := sb }
  let (t, w) := get_ticks E w
  let w := w.store msc { w.mem msc with uid := t }
  w.store msc (probe_scan E.K iface (E.ifmem iface).aif (w.mem msc))

/-- The GET MAX LUN request that `get_max_lun(msc)` issues in world `w`. -/
def max_lun_request (E : Env) (w : World) (msc : Ptr) : CtrlReq :=
  { udev := (E.ifmem (w.mem msc).iface).udev,
    bmRequestType := E.K.REQ_TYPE_IN ||| E.K.REQ_TYPE_CLASS_DEV ||| E.K.REQ_TYPE_TO_IFACE,
    bRequest := 0xFE, wValue := 0, wIndex := 0, wLength := 1,
    buff := E.usbh_alloc_mem w.trace 2, timeout := 200 }

/-- The status and data the environment reports for the GET MAX LUN request that
`get_max_lun(msc)` issues in world `w`. -/
def max_lun_result (E : Env) (w : World) (msc : Ptr) : Int × List Nat :=
  E.usbh_ctrl_xfer (w.trace ++ [Event.alloc 2 (E.usbh_alloc_mem w.trace 2)])
    (max_lun_request E w msc)

/-- The external calls `get_max_lun(msc)` makes in world `w`, in order. -/
def get_max_lun_events (E : Env) (w : World) (msc : Ptr) : List Event :=
  [Event.alloc 2 (E.usbh_alloc_mem w.trace 2),
   Event.ctrl_xfer (max_lun_request E w msc) (max_lun_result E w msc).1] ++
  (if (max_lun_result E w msc).1 < 0 then
    (if (max_lun_result E w msc).1 = E.K.USBH_ERR_STALL then
      [Event.clear_halt (E.ifmem (w.mem msc).iface).udev 0] else [])
   else [Event.free (E.usbh_alloc_mem w.trace 2) 2])

/-- The call `get_max_lun(msc)` made in world `w` reads no byte through a null pointer: the
GET MAX LUN transfer fails, or its 2-byte buffer has been allocated. -/
def max_lun_buffer_ok (E : Env) (w : World) (msc : Ptr) : Prop :=
  (max_lun_result E w msc).1 < 0 ∨ E.usbh_alloc_mem w.trace 2 ≠ NULL

instance max_lun_buffer_ok.decide (E : Env) (w : World) (msc : Ptr) :
    Decidable (max_lun_buffer_ok E w msc) :=
  inferInstanceAs
    (Decidable ((max_lun_result E w msc).1 < 0 ∨ E.usbh_alloc_mem w.trace 2 ≠ NULL))

/-- The world in which `msc_probe`, started in `w`, calls `get_max_lun`: the scanned world
with the record's `iface` member set. -/
def probe_ready (E : Env) (w : World) (iface : Ptr) : World :=
  (probe_scanned E w iface).store (probe_msc E w)
    { (probe_scanned E w iface).mem (probe_msc E w) with iface := iface }

/-- The contents of a device record apart from its registry linkage. -/
def MSC_T.data (m : MSC_T) : MSC_T := { m with next := NULL }

/-- The external calls `msc_disconnect` makes for one record `r` it removes, read off the
world `w` it starts in: the detach callback if one is installed, the free of the working
buffer if the record has one, the free of the record. -/
def disconnect_events (E : Env) (w : World) (r : Ptr) : List Event :=
  (if w.g_msc_disconn_func ≠ NULL then [Event.disconn w.g_msc_disconn_func r 0] else []) ++
  (if (w.mem r).scsi_buff ≠ NULL then [Event.free (w.mem r).scsi_buff E.K.SCSI_BUFF_LEN]
   else []) ++
  [Event.free r E.K.sizeof_MSC_T]

/-- The pointers `msc_disconnect` frees for one record `r` it removes. -/
def disconnect_frees (w : World) (r : Ptr) : List Ptr :=
  (if (w.mem r).scsi_buff ≠ NULL then [(w.mem r).scsi_buff] else []) ++ [r]

/-! ## Sequences of driver calls -/

/-- A call into the driver made after `usbh_umas_init`. -/
inductive Call where
  | probe (iface : Ptr)
  | disconnect (iface : Ptr)
  | install (conn_func disconn_func : Ptr)
deriving DecidableEq, Repr

/-- What a call did, as seen by its caller: for `msc_probe` the interface, the status it
returned and the head of the device list right after the call (the record it registered,
when the status is `USBH_OK`); for `msc_disconnect` the interface. -/
inductive LogEntry where
  | probed (iface : Ptr) (status : Int) (record : Ptr)
  | disconnected (iface : Ptr)
  | installed (conn_func disconn_func : Ptr)
deriving DecidableEq, Repr

/-- The call a log entry records. -/
def LogEntry.call : LogEntry → Call
  | LogEntry.probed i _ _ => Call.probe i
  | LogEntry.disconnected i => Call.disconnect i
  | LogEntry.installed c d => Call.install c d

/-- Make the calls in order, starting in `w`: the final world and the log of the calls. -/
def run_calls (E : Env) (fuel : Nat) : List Call → World → Except Fault (World × List LogEntry)
  | [], w => .ok (w, [])
  | Call.probe i :: cs, w =>
    match msc_probe E w i with
    | .error f => .error f
    | .ok (status, w1) =>
      match run_calls E fuel cs w1 with
      | .error f => .error f
      | .ok (w', log) =>
        .ok (w', LogEntry.probed i status (usbh_msc_get_device_list w1) :: log)
  | Call.disconnect i :: cs, w =>
    match msc_disconnect E fuel w i with
    | .error f => .error f
    | .ok w1 =>
      match run_calls E fuel cs w1 with
      | .error f => .error f
      | .ok (w', log) => .ok (w', LogEntry.disconnected i :: log)
  | Call.install c d :: cs, w =>
    match run_calls E fuel cs (usbh_install_msc_conn_callback w c d) with
    | .error f => .error f
    | .ok (w', log) => .ok (w', LogEntry.installed c d :: log)

/-- The effect of one logged call on the list of attached (record, interface) pairs, most
recent first. -/
def attach_step (K : Consts) (A : List (Ptr × Ptr)) : LogEntry → List (Ptr × Ptr)
  | LogEntry.probed i s r => if s = K.USBH_OK then (r, i) :: A else A
  | LogEntry.disconnected i => A.filter (fun x => decide (x.2 ≠ i))
  | LogEntry.installed _ _ => A

/-- The effect of one allocator event on the list of outstanding blocks. -/
def outstanding_step (acc : List Ptr) : Event → List Ptr
  | Event.alloc _ p => if p = NULL then acc else p :: acc
  | Event.free p _ => acc.filter (fun x => decide (x ≠ p))
  | _ => acc

/-- The blocks handed out by `usbh_alloc_mem` and not passed to `usbh_free_mem` since. -/
def outstanding (t : List Event) : List Ptr := t.foldl outstanding_step []

/-- The allocator contract: a successful allocation returns a block that is not
outstanding. -/
def alloc_sane (E : Env) : Prop :=
  ∀ t size, E.usbh_alloc_mem t size = NULL ∨ E.usbh_alloc_mem t size ∉ outstanding t

/-- The status `USBH_OK` is none of the error statuses `msc_probe` returns. -/
def ok_distinct (K : Consts) : Prop :=
  K.USBH_OK ≠ K.USBH_ERR_NOT_MATCHED ∧ K.USBH_OK ≠ K.USBH_ERR_NOT_SUPPORTED ∧
  K.USBH_OK ≠ K.USBH_ERR_MEMORY_OUT ∧ K.USBH_OK ≠ K.USBH_ERR_NOT_EXPECTED

/-- The registry invariant kept by every call: the Registry is the list of attached records,
each owned by the interface it was attached for; the registered records and their working
buffers are pairwise distinct outstanding blocks. -/
def attached_inv (w : World) (A : List (Ptr × Ptr)) : Prop :=
  registry w (A.map Prod.fst) ∧
  (∀ x, x ∈ A → (w.mem x.1).iface = x.2) ∧
  (A.map Prod.fst ++ (A.map Prod.fst).map (fun r => (w.mem r).scsi_buff)).Nodup ∧
  (∀ x, x ∈ A.map Prod.fst ++ (A.map Prod.fst).map (fun r => (w.mem r).scsi_buff) →
    x ∈ outstanding w.trace)

/-- The `usbh_clear_halt` calls in a trace, oldest first: device and endpoint address. -/
def clear_halts : List Event → List (Ptr × Nat)
  | [] => []
  | Event.clear_halt u a :: t => (u, a) :: clear_halts t
  | _ :: t => clear_halts t

/-- The arguments with which the capacity query of `msc_connection_callback` calls the
executor from the world `w`. -/
def capacity_call (E : Env) (w : World) (msc_dev : Ptr) : ScsiCall :=
  { msc := msc_dev, cmd_blk := capacity_cmd_blk E.K, buff := (usbh_alloc_mem E w 8).1,
    data_len := 8, bIsDataIn := 1, timeout_ticks := 100 }

/-- The status and the response bytes the executor reports to that call. -/
def capacity_response (E : Env) (w : World) (msc_dev : Ptr) : Int × List Nat :=
  E.run_scsi_command (usbh_alloc_mem E w 8).2.trace (capacity_call E w msc_dev)

/-! ## Disconnect with the moments of its external calls -/

/-- One moment of a run: an external call together with the world in which it is made. -/
structure Moment where
  event : Event
  before : World

/-- The loop `while (msc != NULL)` of `msc_disconnect`, as `msc_disconnect_loop`, which also
returns the moment of every external call it makes, in program order. -/
def msc_disconnect_loop_moments (E : Env) (iface : Ptr) (inner : Nat) :
    Nat → World → Ptr → Except Fault (List Moment × World)
  | 0, _, _ => .error .out_of_fuel
  | fuel + 1, w, msc =>
    if msc = NULL then .ok ([], w)
    else
      let msc_p := (w.mem msc).next
      if (w.mem msc).iface = iface then
        let m1 : List Moment := if w.g_msc_disconn_func ≠ NULL then
            [{ event := Event.disconn w.g_msc_disconn_func msc 0, before := w }] else []
        let w1 := if w.g_msc_disconn_func ≠ NULL then
            w.emit (Event.disconn w.g_msc_disconn_func msc 0) else w
        match msc_list_remove inner w1 msc with
        | .error f => .error f
        | .ok w2 =>
          let m2 : List Moment := if (w2.mem msc).scsi_buff ≠ NULL then
              [{ event := Event.free (w2.mem msc).scsi_buff E.K.SCSI_BUFF_LEN, before := w2 }]
            else []
          let w3 := if (w2.mem msc).scsi_buff ≠ NULL then
              usbh_free_mem w2 (w2.mem msc).scsi_buff E.K.SCSI_BUFF_LEN else w2
          let m3 : List Moment := [{ event := Event.free msc E.K.sizeof_MSC_T, before := w3 }]
          let w4 := usbh_free_mem w3 msc E.K.sizeof_MSC_T
          match msc_disconnect_loop_moments E iface inner fuel w4 msc_p with
          | .error f => .error f
          | .ok (ms, w') => .ok (m1 ++ m2 ++ m3 ++ ms, w')
      else msc_disconnect_loop_moments E iface inner fuel w msc_p

/-- The function `msc_disconnect(iface)`, as `msc_disconnect`, with the moments of the
external calls of its `while` loop. -/
def msc_disconnect_moments (E : Env) (fuel : Nat) (w : World) (iface : Ptr) :
    Except Fault (List Moment × World) :=
  let w := quit_xfer_all w iface (E.ifmem iface).aif.ifd.bNumEndpoints
  msc_disconnect_loop_moments E iface fuel fuel w w.g_msc_list

/-- The moments `ms` are consecutive calls of a run whose trace so far is `t`: each call is
made in a world whose trace holds exactly the calls before it. -/
def moments_from : List Event → List Moment → Prop
  | _, [] => True
  | t, mo :: ms => mo.before.trace = t ∧ moments_from (t ++ [mo.event]) ms

/-- The world in which `msc_list_remove(r)` is called: `wa` after the detach
notification for `r`. -/
def after_notify (wa : World) (r : Ptr) : World :=
  if wa.g_msc_disconn_func ≠ NULL then wa.emit (Event.disconn wa.g_msc_disconn_func r 0)
  else wa

/-- The world in which the record `r` is freed: `wb` after the free of its buffer. -/
def after_buffer_free (E : Env) (wb : World) (r : Ptr) : World :=
  if (wb.mem r).scsi_buff ≠ NULL then usbh_free_mem wb (wb.mem r).scsi_buff E.K.SCSI_BUFF_LEN
  else wb

/-- The external calls `msc_disconnect` makes for one record `r` of the disconnecting
interface: the detach notification in the world `wa`, the free of the working buffer in the
world `wb`, the free of the record right after it. -/
def record_moments (E : Env) (wa wb : World) (r : Ptr) : List Moment :=
  (if wa.g_msc_disconn_func ≠ NULL then
      [{ event := Event.disconn wa.g_msc_disconn_func r 0, before := wa }] else []) ++
  (if (wb.mem r).scsi_buff ≠ NULL then
      [{ event := Event.free (wb.mem r).scsi_buff E.K.SCSI_BUFF_LEN, before := wb }] else []) ++
  [{ event := Event.free r E.K.sizeof_MSC_T, before := after_buffer_free E wb r }]

/-! ## Example environments -/

/-- An example assignment of the header constants. -/
def example_consts : Consts :=
  { READ_10 := 0x28, WRITE_10 := 0x2A, REQUEST_SENSE := 0x03, READ_CAPACITY := 0x25,
    USBH_OK := 0, USBH_ERR_MEMORY_OUT := -10, USBH_ERR_NOT_MATCHED := -101,
    USBH_ERR_NOT_SUPPORTED := -103, USBH_ERR_NOT_EXPECTED := -102, USBH_ERR_STALL := -258,
    UMAS_ERR_IO := -1033, UMAS_ERR_DRIVE_NOT_FOUND := -1039,
    USB_CLASS_MASS_STORAGE := 0x08, MSC_SCLASS_SCSI := 0x06, MSC_SCLASS_8070 := 0x05,
    MSC_SCLASS_RBC := 0x01, MSC_SPROTO_BULK := 0x50,
    EP_ATTR_TT_MASK := 0x03, EP_ATTR_TT_BULK := 0x02,
    EP_ADDR_DIR_MASK := 0x80, EP_ADDR_DIR_IN := 0x80,
    REQ_TYPE_IN := 0x80, REQ_TYPE_CLASS_DEV := 0x20, REQ_TYPE_TO_IFACE := 0x01,
    SCSI_BUFF_LEN := 36, sizeof_MSC_T := 96, REQ_TYPE_OUT := 0x00, size_t_bits := 32 }

/-- An all-zero device record. -/
def MSC_T.zero : MSC_T :=
  { iface := NULL, uid := 0, ep_bulk_in := none, ep_bulk_out := none, max_lun := 0, lun := 0,
    uTotalSectorN := 0, nSectorSize := 0, scsi_buff := NULL, cmd_blk := bulk_cb_wrap.zero,
    next := NULL }

/-- An example interface with the given class triple and endpoint descriptors. -/
def example_iface (cls sub proto : Nat) (eps : List EP_INFO_T) : IFACE_T :=
  { aif := { ifd := { bNumEndpoints := eps.length, bInterfaceClass := cls,
                      bInterfaceSubClass := sub, bInterfaceProtocol := proto },
             ep := fun i => eps.getD i { bEndpointAddress := 0, bmAttributes := 0 } },
    udev := 7, if_num := 0 }

/-- The number of `usbh_alloc_mem` calls in a trace. -/
def alloc_count : List Event → Nat
  | [] => 0
  | Event.alloc _ _ :: t => alloc_count t + 1
  | _ :: t => alloc_count t

/-- An example allocator: the first `n` requests succeed with distinct addresses
`16, 32, ...`, every later request fails. -/
def example_alloc (n : Nat) (t : List Event) (_size : Nat) : Ptr :=
  if alloc_count t < n then 16 * (alloc_count t + 1) else NULL

/-- An example environment: every interface address holds `ifc`, the allocator is
`example_alloc n`, control transfers report `ctrl` and the executor reports `scsi`. -/
def example_env (ifc : IFACE_T) (n : Nat) (ctrl scsi : Int × List Nat) : Env :=
  { K := example_consts, ifmem := fun _ => ifc, usbh_alloc_mem := example_alloc n,
    usbh_ctrl_xfer := fun _ _ => ctrl, get_ticks := fun t => t.length,
    run_scsi_command := fun _ _ => scsi }

/-- An example world: empty registry, no callbacks, zeroed record memory, empty trace. -/
def example_world : World :=
  { g_msc_list := NULL, g_msc_conn_func := NULL, g_msc_disconn_func := NULL,
    mem := fun _ => MSC_T.zero, trace := [] }

/-- The example world with a device record at address 16 whose `nSectorSize` is 1024. -/
def example_world_1024 : World :=
  example_world.store 16 { MSC_T.zero with nSectorSize := 1024 }

/-- An example world with callbacks installed (attach `9`, detach `10`) and one registered
device: the record at address 48, owned by interface 200, with its buffer at address 64. -/
def example_world_attached : World :=
  { g_msc_list := 48, g_msc_conn_func := 9, g_msc_disconn_func := 10,
    mem := fun q => if q = 48 then { MSC_T.zero with iface := 200, scsi_buff := 64 }
                    else MSC_T.zero,
    trace := [] }

/-- An example world with three registered devices, most recent first: record 16 (interface
100, buffer 32), record 48 (interface 200, buffer 64), record 80 (interface 100, buffer 96);
the detach callback is `10`. -/
def example_world_three : World :=
  { g_msc_list := 16, g_msc_conn_func := 9, g_msc_disconn_func := 10,
    mem := fun q =>
      if q = 16 then { MSC_T.zero with iface := 100, scsi_buff := 32, next := 48 }
      else if q = 48 then { MSC_T.zero with iface := 200, scsi_buff := 64, next := 80 }
      else if q = 80 then { MSC_T.zero with iface := 100, scsi_buff := 96, next := NULL }
      else MSC_T.zero,
    trace := [] }

/-- An example mass-storage interface: SCSI subclass, bulk-only protocol, one bulk-IN
endpoint (address `0x81`) and one bulk-OUT endpoint (address `0x02`). -/
def example_msc_iface : IFACE_T :=
  example_iface 0x08 0x06 0x50
    [{ bEndpointAddress := 0x81, bmAttributes := 0x02 },
     { bEndpointAddress := 0x02, bmAttributes := 0x02 }]

/-- An example allocator that satisfies the allocator contract: it returns an address above
every address it has returned so far. -/
def example_fresh_alloc (t : List Event) (_size : Nat) : Ptr := (allocated t).sum + 1

/-- The example environment with the allocator `example_fresh_alloc`. -/
def example_env_fresh : Env :=
  { K := example_consts, ifmem := fun _ => example_msc_iface,
    usbh_alloc_mem := example_fresh_alloc,
    usbh_ctrl_xfer := fun _ _ => (0, [0]), get_ticks := fun t => t.length,
    run_scsi_command := fun _ _ => (0, []) }

/-- An example mass-storage interface with five endpoints: bulk-IN `0x81`, bulk-OUT `0x02`,
interrupt-IN `0x83`, bulk-IN `0x84`, bulk-OUT `0x05`. -/
def example_multi_iface : IFACE_T :=
  example_iface 0x08 0x06 0x50
    [{ bEndpointAddress := 0x81, bmAttributes := 0x02 },
     { bEndpointAddress := 0x02, bmAttributes := 0x02 },
     { bEndpointAddress := 0x83, bmAttributes := 0x03 },
     { bEndpointAddress := 0x84, bmAttributes := 0x02 },
     { bEndpointAddress := 0x05, bmAttributes := 0x02 }]

/-- The example world with a usable device record at address 48: interface 200, lun 1,
working buffer 64, bulk-IN reference `ep[0]` and bulk-OUT reference `ep[1]`. -/
def example_world_ready : World :=
  { g_msc_list := 48, g_msc_conn_func := 9, g_msc_disconn_func := 10,
    mem := fun q => if q = 48 then
        { MSC_T.zero with iface := 200, scsi_buff := 64, lun := 1,
                          ep_bulk_in := some { iface := 200, idx := 0 },
                          ep_bulk_out := some { iface := 200, idx := 1 } }
      else MSC_T.zero,
    trace := [] }

/-- An example world in which a device was attached, detached and attached again at the
same addresses: the Registry is `[16]`, record 16 (interface 100) and its working buffer 32
have been allocated, freed and allocated again. -/
def example_world_reattached : World :=
  { g_msc_list := 16, g_msc_conn_func := 9, g_msc_disconn_func := 10,
    mem := fun q => if q = 16 then { MSC_T.zero with iface := 100, scsi_buff := 32 }
                    else MSC_T.zero,
    trace := [Event.alloc 96 16, Event.alloc 36 32, Event.free 32 36, Event.free 16 96,
              Event.alloc 96 16, Event.alloc 36 32] }

/-- The example world `example_world_three` after the allocations of its six blocks. -/
def example_world_three_live : World :=
  { example_world_three with
    trace := [Event.alloc 96 80, Event.alloc 36 96, Event.alloc 96 48, Event.alloc 36 64,
              Event.alloc 96 16, Event.alloc 36 32] }

/-! ## Arithmetic lemmas -/

theorem and_0xFF (x : Nat) : x &&& 0xFF = x % 256 := by
  have h := Nat.and_pow_two_sub_one_eq_mod x 8
  simpa using h

theorem int_land_0xFF_ofNat (n : Nat) : Int.land (n : Int) 0xFF = ((n % 256 : Nat) : Int) := by
  show ((n &&& 255 : Nat) : Int) = _
  rw [and_0xFF]

theorem int_shiftRight_ofNat (n k : Nat) :
    Int.shiftRight (n : Int) k = ((n >>> k : Nat) : Int) := rfl

theorem store8_int_ofNat (n : Nat) : store8_int (n : Int) = n % 256 := by
  unfold store8_int
  omega

/-! ## World primitives: projections -/

@[simp] theorem World.store_mem_self (w : World) (p : Ptr) (m : MSC_T) :
    (w.store p m).mem p = m := by
  simp [World.store]

theorem World.store_mem_of_ne (w : World) (p q : Ptr) (m : MSC_T) (h : q ≠ p) :
    (w.store p m).mem q = w.mem q := by
  simp [World.store, h]

theorem World.store_mem (w : World) (p q : Ptr) (m : MSC_T) :
    (w.store p m).mem q = if q = p then m else w.mem q := rfl

@[simp] theorem World.store_trace (w : World) (p : Ptr) (m : MSC_T) :
    (w.store p m).trace = w.trace := rfl

@[simp] theorem World.store_g_msc_list (w : World) (p : Ptr) (m : MSC_T) :
    (w.store p m).g_msc_list = w.g_msc_list := rfl

@[simp] theorem World.store_g_msc_conn_func (w : World) (p : Ptr) (m : MSC_T) :
    (w.store p m).g_msc_conn_func = w.g_msc_conn_func := rfl

@[simp] theorem World.store_g_msc_disconn_func (w : World) (p : Ptr) (m : MSC_T) :
    (w.store p m).g_msc_disconn_func = w.g_msc_disconn_func := rfl

@[simp] theorem World.emit_mem (w : World) (e : Event) : (w.emit e).mem = w.mem := rfl

@[simp] theorem World.emit_trace (w : World) (e : Event) :
    (w.emit e).trace = w.trace ++ [e] := rfl

@[simp] theorem World.emit_g_msc_list (w : World) (e : Event) :
    (w.emit e).g_msc_list = w.g_msc_list := rfl

@[simp] theorem World.emit_g_msc_conn_func (w : World) (e : Event) :
    (w.emit e).g_msc_conn_func = w.g_msc_conn_func := rfl

@[simp] theorem World.emit_g_msc_disconn_func (w : World) (e : Event) :
    (w.emit e).g_msc_disconn_func = w.g_msc_disconn_func := rfl

theorem scsi_calls_append (t u : List Event) :
    scsi_calls (t ++ u) = scsi_calls t ++ scsi_calls u := by
  induction t with
  | nil => rfl
  | cons e t ih => cases e <;> simp [scsi_calls, ih]

/-- The trace effect and the result of `usbh_umas_read` on a non-null record. -/
theorem usbh_umas_read_eq (E : Env) (w : World) (msc : Ptr) (sec_no : Nat) (sec_cnt : Int)
    (buff : Ptr) (hmsc : msc ≠ NULL) :
    (usbh_umas_read E w msc sec_no sec_cnt buff).2.trace
        = w.trace ++ [Event.scsi
            { msc := msc, cmd_blk := read_cmd_blk E.K (w.mem msc).lun sec_no sec_cnt,
              buff := buff, data_len := wrap_int32 (sec_cnt * 512), bIsDataIn := 1,
              timeout_ticks := 500 }
            (E.run_scsi_command w.trace
              { msc := msc, cmd_blk := read_cmd_blk E.K (w.mem msc).lun sec_no sec_cnt,
                buff := buff, data_len := wrap_int32 (sec_cnt * 512), bIsDataIn := 1,
                timeout_ticks := 500 }).1] ∧
    (usbh_umas_read E w msc sec_no sec_cnt buff).1
        = (E.run_scsi_command w.trace
              { msc := msc, cmd_blk := read_cmd_blk E.K (w.mem msc).lun sec_no sec_cnt,
                buff := buff, data_len := wrap_int32 (sec_cnt * 512), bIsDataIn := 1,
                timeout_ticks := 500 }).1 := by
  simp only [usbh_umas_read, if_neg hmsc, run_scsi_command, World.store_mem_self,
    World.store_trace, World.emit_trace]
  constructor
  · split <;> rfl
  · split
    · rfl
    · rename_i h
      simp only [ne_eq, Decidable.not_not] at h
      exact h.symm

/-- The trace effect and the result of `usbh_umas_write` on a non-null record. -/
theorem usbh_umas_write_eq (E : Env) (w : World) (msc : Ptr) (sec_no : Nat) (sec_cnt : Int)
    (buff : Ptr) (hmsc : msc ≠ NULL) :
    (usbh_umas_write E w msc sec_no sec_cnt buff).2.trace
        = w.trace ++ [Event.scsi
            { msc := msc, cmd_blk := write_cmd_blk E.K (w.mem msc).lun sec_no sec_cnt,
              buff := buff, data_len := wrap_int32 (sec_cnt * 512), bIsDataIn := 0,
              timeout_ticks := 500 }
            (E.run_scsi_command w.trace
              { msc := msc, cmd_blk := write_cmd_blk E.K (w.mem msc).lun sec_no sec_cnt,
                buff := buff, data_len := wrap_int32 (sec_cnt * 512), bIsDataIn := 0,
                timeout_ticks := 500 }).1] ∧
    (usbh_umas_write E w msc sec_no sec_cnt buff).1
        = if (E.run_scsi_command w.trace
              { msc := msc, cmd_blk := write_cmd_blk E.K (w.mem msc).lun sec_no sec_cnt,
                buff := buff, data_len := wrap_int32 (sec_cnt * 512), bIsDataIn := 0,
                timeout_ticks := 500 }).1 < 0 then E.K.UMAS_ERR_IO else 0 := by
  simp only [usbh_umas_write, if_neg hmsc, run_scsi_command, World.store_mem_self,
    World.store_trace, World.emit_trace]
  constructor
  · split <;> rfl
  · split <;> rfl

/-- The CDB that `usbh_umas_read` builds, byte by byte, for a count in `0 .. 65535`. -/
theorem read_cmd_blk_CDB (K : Consts) (lun sec_no n : Nat) (hop : K.READ_10 < 256) :
    (read_cmd_blk K lun sec_no (n : Int)).CDB
      = [K.READ_10, (lun <<< 5) % 256, sec_no / 2 ^ 24 % 256, sec_no / 2 ^ 16 % 256,
         sec_no / 2 ^ 8 % 256, sec_no % 256, 0, n / 256 % 256, n % 256,
         0, 0, 0, 0, 0, 0, 0] := by
  have h0 : store8 K.READ_10 = K.READ_10 := Nat.mod_eq_of_lt hop
  simp only [read_cmd_blk, rw10_fields, bulk_cb_wrap.zero, List.replicate, List.set, h0,
    int_shiftRight_ofNat, int_land_0xFF_ofNat, store8_int_ofNat, and_0xFF,
    Nat.shiftRight_eq_div_pow]
  simp only [store8, Nat.mod_mod]

/-- C1: for a non-null device record, a 32-bit `start_lba` and a count in `0 .. 65535`,
`usbh_umas_read` invokes the Executor exactly once, with a command block whose CDB is
`READ_10`, `(lun << 5)` truncated to 8 bits, the four big-endian bytes of `start_lba`, `0`,
the two big-endian bytes of the count and seven zero bytes, with direction flag `0x80` and
CDB length 10; decoding CDB[2..5] and CDB[7..8] as big-endian integers gives back
`start_lba` and the count. -/
theorem usbh_umas_read_command_block (E : Env) (w : World) (msc : Ptr) (sec_no : Nat)
    (sec_cnt : Int) (buff : Ptr) (hmsc : msc ≠ NULL) (hop : E.K.READ_10 < 256)
    (hlba : sec_no < 2 ^ 32) (h0 : 0 ≤ sec_cnt) (h1 : sec_cnt ≤ 65535) :
    ∃ c : ScsiCall,
      scsi_calls (usbh_umas_read E w msc sec_no sec_cnt buff).2.trace
        = scsi_calls w.trace ++ [c] ∧
      c.cmd_blk.CDB
        = [E.K.READ_10, ((w.mem msc).lun <<< 5) % 256,
           sec_no / 2 ^ 24 % 256, sec_no / 2 ^ 16 % 256, sec_no / 2 ^ 8 % 256, sec_no % 256,
           0, sec_cnt.toNat / 256 % 256, sec_cnt.toNat % 256, 0, 0, 0, 0, 0, 0, 0] ∧
      c.cmd_blk.Flags = 0x80 ∧ c.cmd_blk.Length = 10 ∧
      c.cmd_blk.CDB.getD 2 0 * 2 ^ 24 + c.cmd_blk.CDB.getD 3 0 * 2 ^ 16
        + c.cmd_blk.CDB.getD 4 0 * 2 ^ 8 + c.cmd_blk.CDB.getD 5 0 = sec_no ∧
      ((c.cmd_blk.CDB.getD 7 0 * 2 ^ 8 + c.cmd_blk.CDB.getD 8 0 : Nat) : Int) = sec_cnt := by
  obtain ⟨n, rfl⟩ := Int.eq_ofNat_of_zero_le h0
  have hn : n ≤ 65535 := by omega
  refine ⟨{ msc := msc, cmd_blk := read_cmd_blk E.K (w.mem msc).lun sec_no n, buff := buff,
             data_len := wrap_int32 ((n : Int) * 512), bIsDataIn := 1, timeout_ticks := 500 },
          ?_, ?_, rfl, rfl, ?_, ?_⟩
  · rw [(usbh_umas_read_eq E w msc sec_no n buff hmsc).1, scsi_calls_append]
    rfl
  · simpa using read_cmd_blk_CDB E.K (w.mem msc).lun sec_no n hop
  · rw [read_cmd_blk_CDB E.K (w.mem msc).lun sec_no n hop]
    simp only [List.getD_cons_succ, List.getD_cons_zero]
    omega
  · rw [read_cmd_blk_CDB E.K (w.mem msc).lun sec_no n hop]
    simp only [List.getD_cons_succ, List.getD_cons_zero]
    omega

/-- C1, at the spec's example: `start_lba = 0x01020304`, `count = 2` give
CDB[2..5] = `01 02 03 04` and CDB[7..8] = `00 02`. -/
theorem usbh_umas_read_command_block_witness :
    ∃ c : ScsiCall,
      scsi_calls (usbh_umas_read (example_env example_msc_iface 0 (0, []) (0, []))
          example_world 16 0x01020304 2 0).2.trace = [c] ∧
      c.cmd_blk.CDB = [0x28, 0, 0x01, 0x02, 0x03, 0x04, 0, 0x00, 0x02, 0, 0, 0, 0, 0, 0, 0] ∧
      c.cmd_blk.Flags = 0x80 ∧ c.cmd_blk.Length = 10 := by
  obtain ⟨c, h1, h2, h3, h4, _, _⟩ :=
    usbh_umas_read_command_block (example_env example_msc_iface 0 (0, []) (0, []))
      example_world 16 0x01020304 2 0 (by decide) (by decide) (by norm_num) (by norm_num)
      (by norm_num)
  refine ⟨c, ?_, ?_, h3, h4⟩
  · simpa [example_world, scsi_calls] using h1
  · rw [h2]
    simp [example_env, example_consts, example_world, MSC_T.zero]

/-- C2 as stated fails: with `nSectorSize = 1024` in the device record, reading and writing
one sector both request 512 bytes from the Executor, not `1 * 1024`. -/
theorem data_len_ignores_nSectorSize :
    (example_world_1024.mem 16).nSectorSize = 1024 ∧
    (scsi_calls (usbh_umas_read (example_env example_msc_iface 0 (0, []) (0, []))
        example_world_1024 16 0 1 0).2.trace).map (fun c => c.data_len) = [512] ∧
    (scsi_calls (usbh_umas_write (example_env example_msc_iface 0 (0, []) (0, []))
        example_world_1024 16 0 1 0).2.trace).map (fun c => c.data_len) = [512] ∧
    (512 : Int) ≠ 1 * ((example_world_1024.mem 16).nSectorSize : Int) := by
  refine ⟨rfl, ?_, ?_, by decide⟩
  · rw [(usbh_umas_read_eq _ _ 16 0 1 0 (by decide)).1]
    simp [example_world_1024, example_world, scsi_calls, wrap_int32]
  · rw [(usbh_umas_write_eq _ _ 16 0 1 0 (by decide)).1]
    simp [example_world_1024, example_world, scsi_calls, wrap_int32]

/-- C2, amended: for a non-null device record and every sector count, `usbh_umas_read` and
`usbh_umas_write` each invoke the Executor exactly once, with data length `count * 512`
as a 32-bit `int` (exactly `count * 512` when `-2^22 ≤ count < 2^22`), whatever the
record's `nSectorSize`, and with timeout argument 500. -/
theorem usbh_umas_data_len_timeout (E : Env) (w : World) (msc : Ptr) (sec_no : Nat)
    (sec_cnt : Int) (buff : Ptr) (hmsc : msc ≠ NULL) :
    ∃ cr cw : ScsiCall,
      scsi_calls (usbh_umas_read E w msc sec_no sec_cnt buff).2.trace
        = scsi_calls w.trace ++ [cr] ∧
      scsi_calls (usbh_umas_write E w msc sec_no sec_cnt buff).2.trace
        = scsi_calls w.trace ++ [cw] ∧
      cr.data_len = wrap_int32 (sec_cnt * 512) ∧ cw.data_len = wrap_int32 (sec_cnt * 512) ∧
      (-(2 ^ 22) ≤ sec_cnt → sec_cnt < 2 ^ 22 →
        cr.data_len = sec_cnt * 512 ∧ cw.data_len = sec_cnt * 512) ∧
      cr.timeout_ticks = 500 ∧ cw.timeout_ticks = 500 := by
  refine ⟨{ msc := msc, cmd_blk := read_cmd_blk E.K (w.mem msc).lun sec_no sec_cnt,
            buff := buff, data_len := wrap_int32 (sec_cnt * 512), bIsDataIn := 1,
            timeout_ticks := 500 },
          { msc := msc, cmd_blk := write_cmd_blk E.K (w.mem msc).lun sec_no sec_cnt,
            buff := buff, data_len := wrap_int32 (sec_cnt * 512), bIsDataIn := 0,
            timeout_ticks := 500 }, ?_, ?_, rfl, rfl, ?_, rfl, rfl⟩
  · rw [(usbh_umas_read_eq E w msc sec_no sec_cnt buff hmsc).1, scsi_calls_append]
    rfl
  · rw [(usbh_umas_write_eq E w msc sec_no sec_cnt buff hmsc).1, scsi_calls_append]
    rfl
  · intro hlo hhi
    simp only [wrap_int32]
    omega

/-- C2, amended, at a record with `nSectorSize = 1024` and count 3: 1536 bytes are
requested by both functions. -/
theorem usbh_umas_data_len_timeout_witness :
    ∃ cr cw : ScsiCall,
      scsi_calls (usbh_umas_read (example_env example_msc_iface 0 (0, []) (0, []))
        example_world_1024 16 0 3 0).2.trace
        = [cr] ∧
      scsi_calls (usbh_umas_write (example_env example_msc_iface 0 (0, []) (0, []))
        example_world_1024 16 0 3 0).2.trace
        = [cw] ∧
      cr.data_len = 1536 ∧ cw.data_len = 1536 ∧
      cr.timeout_ticks = 500 ∧ cw.timeout_ticks = 500 := by
  obtain ⟨cr, cw, h1, h2, _, _, h5, h6, h7⟩ :=
    usbh_umas_data_len_timeout (example_env example_msc_iface 0 (0, []) (0, []))
      example_world_1024 16 0 3 0 (by decide)
  obtain ⟨h8, h9⟩ := h5 (by norm_num) (by norm_num)
  refine ⟨cr, cw, ?_, ?_, ?_, ?_, h6, h7⟩
  · simpa [example_world_1024, example_world, scsi_calls] using h1
  · simpa [example_world_1024, example_world, scsi_calls] using h2
  · rw [h8]; norm_num
  · rw [h9]; norm_num

/-- With a null device argument both functions return `UMAS_ERR_DRIVE_NOT_FOUND` and leave
the world, hence the trace, as it is: the Executor is not invoked. -/
theorem usbh_umas_null_device (E : Env) (w : World) (sec_no : Nat) (sec_cnt : Int)
    (buff : Ptr) :
    usbh_umas_read E w NULL sec_no sec_cnt buff = ( E.K.UMAS_ERR_DRIVE_NOT_FOUND, w) ∧
    usbh_umas_write E w NULL sec_no sec_cnt buff = ( E.K.UMAS_ERR_DRIVE_NOT_FOUND, w) := by
  simp [usbh_umas_read, usbh_umas_write]

/-- C3, the failing input: the Executor reports `USBH_ERR_STALL` on a non-null device.
`usbh_umas_read` returns that status unchanged, which is not `UMAS_ERR_IO`, while
`usbh_umas_write` on the same input returns `UMAS_ERR_IO`. -/
theorem usbh_umas_read_returns_raw_status :
    (usbh_umas_read (example_env example_msc_iface 0 (0, []) ( example_consts.USBH_ERR_STALL, []))
      example_world 16 0 1 0).1 = example_consts.USBH_ERR_STALL ∧
    example_consts.USBH_ERR_STALL ≠ example_consts.UMAS_ERR_IO ∧
    (usbh_umas_write (example_env example_msc_iface 0 (0, []) ( example_consts.USBH_ERR_STALL, []))
      example_world 16 0 1 0).1 = example_consts.UMAS_ERR_IO := by
  refine ⟨?_, by decide, ?_⟩
  · rw [(usbh_umas_read_eq _ _ 16 0 1 0 (by decide)).2]
    rfl
  · rw [(usbh_umas_write_eq _ _ 16 0 1 0 (by decide)).2]
    rfl

/-- C4: for a non-null device record, the Executor call made by `usbh_umas_write` differs
from the one made by `usbh_umas_read` on the same arguments in exactly this: CDB[0] is
`WRITE_10` instead of `READ_10`, the direction flag is `0x00` instead of `0x80`, and
`bIsDataIn` is 0 instead of 1; every other command-block field, the record, the buffer,
the data length and the timeout 500 are the same. -/
theorem usbh_umas_write_differs_from_read (E : Env) (w : World) (msc : Ptr) (sec_no : Nat)
    (sec_cnt : Int) (buff : Ptr) (hmsc : msc ≠ NULL) (hr : E.K.READ_10 < 256)
    (hw : E.K.WRITE_10 < 256) :
    ∃ cr cw : ScsiCall,
      scsi_calls (usbh_umas_read E w msc sec_no sec_cnt buff).2.trace
        = scsi_calls w.trace ++ [cr] ∧
      scsi_calls (usbh_umas_write E w msc sec_no sec_cnt buff).2.trace
        = scsi_calls w.trace ++ [cw] ∧
      cw.cmd_blk = { cr.cmd_blk with Flags := 0x00, CDB := cr.cmd_blk.CDB.set 0 E.K.WRITE_10 } ∧
      cr.cmd_blk.Flags = 0x80 ∧ cw.cmd_blk.Flags = 0x00 ∧
      cr.cmd_blk.CDB.getD 0 0 = E.K.READ_10 ∧ cw.cmd_blk.CDB.getD 0 0 = E.K.WRITE_10 ∧
      cw.msc = cr.msc ∧ cw.buff = cr.buff ∧ cw.data_len = cr.data_len ∧
      cr.timeout_ticks = 500 ∧ cw.timeout_ticks = 500 ∧
      cr.bIsDataIn = 1 ∧ cw.bIsDataIn = 0 := by
  have h0 : store8 E.K.READ_10 = E.K.READ_10 := Nat.mod_eq_of_lt hr
  have h1 : store8 E.K.WRITE_10 = E.K.WRITE_10 := Nat.mod_eq_of_lt hw
  refine ⟨{ msc := msc, cmd_blk := read_cmd_blk E.K (w.mem msc).lun sec_no sec_cnt,
            buff := buff, data_len := wrap_int32 (sec_cnt * 512), bIsDataIn := 1,
            timeout_ticks := 500 },
          { msc := msc, cmd_blk := write_cmd_blk E.K (w.mem msc).lun sec_no sec_cnt,
            buff := buff, data_len := wrap_int32 (sec_cnt * 512), bIsDataIn := 0,
            timeout_ticks := 500 },
          ?_, ?_, ?_, rfl, rfl, ?_, ?_, rfl, rfl, rfl, rfl, rfl, rfl, rfl⟩
  · rw [(usbh_umas_read_eq E w msc sec_no sec_cnt buff hmsc).1, scsi_calls_append]
    rfl
  · rw [(usbh_umas_write_eq E w msc sec_no sec_cnt buff hmsc).1, scsi_calls_append]
    rfl
  · simp [read_cmd_blk, write_cmd_blk, rw10_fields, bulk_cb_wrap.zero, List.replicate,
      List.set, h0, h1]
  · simp [read_cmd_blk, rw10_fields, bulk_cb_wrap.zero, List.replicate, List.set, h0]
  · simp [write_cmd_blk, rw10_fields, bulk_cb_wrap.zero, List.replicate, List.set, h1]

/-- C4 on the example device: for `start_lba = 5`, `count = 1` the two command blocks are
`28 00 00 00 00 05 00 00 01 ..` with flag `0x80` and `2A 00 00 00 00 05 00 00 01 ..` with
flag `0x00`. -/
theorem usbh_umas_write_differs_from_read_witness :
    ∃ cr cw : ScsiCall,
      scsi_calls (usbh_umas_read (example_env example_msc_iface 0 (0, []) (0, []))
        example_world 16 5 1 0).2.trace = [cr] ∧
      scsi_calls (usbh_umas_write (example_env example_msc_iface 0 (0, []) (0, []))
        example_world 16 5 1 0).2.trace = [cw] ∧
      cw.cmd_blk = { cr.cmd_blk with Flags := 0x00, CDB := cr.cmd_blk.CDB.set 0 0x2A } ∧
      cr.cmd_blk.Flags = 0x80 ∧ cr.cmd_blk.CDB.getD 0 0 = 0x28 ∧
      cw.data_len = cr.data_len ∧ cr.bIsDataIn = 1 ∧ cw.bIsDataIn = 0 := by
  obtain ⟨cr, cw, h1, h2, h3, h4, _, h6, _, _, _, h10, _, _, h13, h14⟩ :=
    usbh_umas_write_differs_from_read (example_env example_msc_iface 0 (0, []) (0, []))
      example_world 16 5 1 0 (by decide) (by decide) (by decide)
  refine ⟨cr, cw, ?_, ?_, h3, h4, h6, h10, h13, h14⟩
  · simpa [example_world, scsi_calls] using h1
  · simpa [example_world, scsi_calls] using h2

/-! ## Probe: rejection paths -/

/-- An interface that fails a descriptor check is rejected with the world untouched. -/
theorem msc_probe_of_failed_checks (E : Env) (w : World) (iface : Ptr)
    (h : ¬ passes_checks E.K (E.ifmem iface).aif.ifd) :
    msc_probe E w iface
      = .ok ((if (E.ifmem iface).aif.ifd.bInterfaceClass ≠ E.K.USB_CLASS_MASS_STORAGE
         then E.K.USBH_ERR_NOT_MATCHED else E.K.USBH_ERR_NOT_SUPPORTED), w) := by
  simp only [msc_probe]
  by_cases hc : (E.ifmem iface).aif.ifd.bInterfaceClass = E.K.USB_CLASS_MASS_STORAGE
  · rw [if_neg (not_not.mpr hc), if_neg (not_not.mpr hc)]
    by_cases hs : (E.ifmem iface).aif.ifd.bInterfaceSubClass ≠ E.K.MSC_SCLASS_SCSI ∧
        (E.ifmem iface).aif.ifd.bInterfaceSubClass ≠ E.K.MSC_SCLASS_8070 ∧
        (E.ifmem iface).aif.ifd.bInterfaceSubClass ≠ E.K.MSC_SCLASS_RBC ∧
        (E.ifmem iface).aif.ifd.bInterfaceSubClass ≠ 0x42
    · rw [if_pos hs]
    · have hp : (E.ifmem iface).aif.ifd.bInterfaceProtocol ≠ E.K.MSC_SPROTO_BULK := by
        intro hp
        apply h
        refine ⟨hc, ?_, hp⟩
        by_contra hcon
        apply hs
        simp only [not_or] at hcon
        exact hcon
      rw [if_neg hs, if_pos hp]
  · rw [if_pos hc, if_pos hc]

/-- C8: an interface whose class is not mass-storage is rejected with
`USBH_ERR_NOT_MATCHED`, and a mass-storage interface whose subclass is none of SCSI, 8070,
RBC, `0x42` or whose protocol is not bulk-only is rejected with `USBH_ERR_NOT_SUPPORTED`;
in both cases `msc_probe` returns and the world is returned as it was: nothing is allocated,
the Registry is unchanged and the attach callback is not invoked. -/
theorem msc_probe_rejects (E : Env) (w : World) (iface : Ptr)
    (h : ¬ passes_checks E.K (E.ifmem iface).aif.ifd) :
    ∃ res, msc_probe E w iface = .ok res ∧
      ((E.ifmem iface).aif.ifd.bInterfaceClass ≠ E.K.USB_CLASS_MASS_STORAGE →
        res.1 = E.K.USBH_ERR_NOT_MATCHED) ∧
      ((E.ifmem iface).aif.ifd.bInterfaceClass = E.K.USB_CLASS_MASS_STORAGE →
        res.1 = E.K.USBH_ERR_NOT_SUPPORTED) ∧
      res.2 = w ∧
      res.2.trace = w.trace ∧
      allocated res.2.trace = allocated w.trace ∧
      conn_calls res.2.trace = conn_calls w.trace ∧
      (∀ l, registry res.2 l ↔ registry w l) := by
  refine ⟨_, msc_probe_of_failed_checks E w iface h, fun hc => ?_, fun hc => ?_, rfl, rfl, rfl,
    rfl, fun _ => Iff.rfl⟩
  · exact if_pos hc
  · exact if_neg (not_not.mpr hc)

/-- C8 on two examples: a HID-class interface (class 3) is not matched, and a mass-storage
SCSI interface with protocol `0x00` instead of bulk-only is not supported; neither call
allocates anything. -/
theorem msc_probe_rejects_witness :
    (∃ res, msc_probe (example_env (example_iface 0x03 0x06 0x50 []) 2 (0, []) (0, []))
        example_world 100 = .ok res ∧ res.1 = example_consts.USBH_ERR_NOT_MATCHED ∧
        allocated res.2.trace = []) ∧
    (∃ res, msc_probe (example_env (example_iface 0x08 0x06 0x00 []) 2 (0, []) (0, []))
        example_world 100 = .ok res ∧ res.1 = example_consts.USBH_ERR_NOT_SUPPORTED ∧
        allocated res.2.trace = []) := by
  obtain ⟨r1, e1, a1, _, _, _, c1, _⟩ :=
    msc_probe_rejects (example_env (example_iface 0x03 0x06 0x50 []) 2 (0, []) (0, []))
      example_world 100 (by decide)
  obtain ⟨r2, e2, _, b2, _, _, c2, _⟩ :=
    msc_probe_rejects (example_env (example_iface 0x08 0x06 0x00 []) 2 (0, []) (0, []))
      example_world 100 (by decide)
  exact ⟨⟨r1, e1, a1 (by decide), c1⟩, ⟨r2, e2, b2 (by decide), c2⟩⟩

/-! ## Probe: the endpoint scan -/

theorem probe_scan_step_fields (K : Consts) (iface : Ptr) (aif : ALT_IFACE_T) (m : MSC_T)
    (i : Nat) :
    (probe_scan_step K iface aif m i).iface = m.iface ∧
    (probe_scan_step K iface aif m i).uid = m.uid ∧
    (probe_scan_step K iface aif m i).max_lun = m.max_lun ∧
    (probe_scan_step K iface aif m i).lun = m.lun ∧
    (probe_scan_step K iface aif m i).uTotalSectorN = m.uTotalSectorN ∧
    (probe_scan_step K iface aif m i).nSectorSize = m.nSectorSize ∧
    (probe_scan_step K iface aif m i).scsi_buff = m.scsi_buff ∧
    (probe_scan_step K iface aif m i).cmd_blk = m.cmd_blk ∧
    (probe_scan_step K iface aif m i).next = m.next := by
  unfold probe_scan_step
  split
  · split <;> exact ⟨rfl, rfl, rfl, rfl, rfl, rfl, rfl, rfl, rfl⟩
  · exact ⟨rfl, rfl, rfl, rfl, rfl, rfl, rfl, rfl, rfl⟩

/-- The endpoint scan over the first `n` endpoints. -/
theorem probe_scan_upto_fields (K : Consts) (iface : Ptr) (aif : ALT_IFACE_T) (m : MSC_T)
    (n : Nat) :
    ((List.range n).foldl (probe_scan_step K iface aif) m).iface = m.iface ∧
    ((List.range n).foldl (probe_scan_step K iface aif) m).uid = m.uid ∧
    ((List.range n).foldl (probe_scan_step K iface aif) m).max_lun = m.max_lun ∧
    ((List.range n).foldl (probe_scan_step K iface aif) m).lun = m.lun ∧
    ((List.range n).foldl (probe_scan_step K iface aif) m).uTotalSectorN = m.uTotalSectorN ∧
    ((List.range n).foldl (probe_scan_step K iface aif) m).nSectorSize = m.nSectorSize ∧
    ((List.range n).foldl (probe_scan_step K iface aif) m).scsi_buff = m.scsi_buff ∧
    ((List.range n).foldl (probe_scan_step K iface aif) m).cmd_blk = m.cmd_blk ∧
    ((List.range n).foldl (probe_scan_step K iface aif) m).next = m.next := by
  induction n with
  | zero => exact ⟨rfl, rfl, rfl, rfl, rfl, rfl, rfl, rfl, rfl⟩
  | succ n ih =>
    rw [List.range_succ, List.foldl_append]
    simp only [List.foldl_cons, List.foldl_nil]
    obtain ⟨h1, h2, h3, h4, h5, h6, h7, h8, h9⟩ :=
      probe_scan_step_fields K iface aif ((List.range n).foldl (probe_scan_step K iface aif) m) n
    obtain ⟨i1, i2, i3, i4, i5, i6, i7, i8, i9⟩ := ih
    exact ⟨h1.trans i1, h2.trans i2, h3.trans i3, h4.trans i4, h5.trans i5, h6.trans i6,
      h7.trans i7, h8.trans i8, h9.trans i9⟩

/-- After scanning the first `n` endpoints, `ep_bulk_in` is untouched when none of them is
bulk-IN, and otherwise refers to the bulk-IN endpoint of highest index. -/
theorem probe_scan_upto_in (K : Consts) (iface : Ptr) (aif : ALT_IFACE_T) (m : MSC_T)
    (n : Nat) :
    (((List.range n).foldl (probe_scan_step K iface aif) m).ep_bulk_in = m.ep_bulk_in ∧
        ∀ i, i < n → ¬ is_bulk_in K (aif.ep i)) ∨
    (∃ j, j < n ∧ is_bulk_in K (aif.ep j) ∧
        ((List.range n).foldl (probe_scan_step K iface aif) m).ep_bulk_in
          = some { iface := iface, idx := j } ∧
        ∀ k, j < k → k < n → ¬ is_bulk_in K (aif.ep k)) := by
  induction n with
  | zero => exact Or.inl ⟨rfl, fun i hi => absurd hi (Nat.not_lt_zero i)⟩
  | succ n ih =>
    rw [List.range_succ, List.foldl_append]
    simp only [List.foldl_cons, List.foldl_nil]
    by_cases hb : is_bulk_in K (aif.ep n)
    · right
      refine ⟨n, Nat.lt_succ_self n, hb, ?_, fun k hk hk2 => absurd hk2 (by omega)⟩
      unfold probe_scan_step
      rw [if_pos hb.1, if_pos hb.2]
    · have hkeep : (probe_scan_step K iface aif
          ((List.range n).foldl (probe_scan_step K iface aif) m) n).ep_bulk_in
          = ((List.range n).foldl (probe_scan_step K iface aif) m).ep_bulk_in := by
        unfold probe_scan_step
        split
        · rename_i h1
          split
          · rename_i h2
            exact absurd ⟨h1, h2⟩ hb
          · rfl
        · rfl
      rw [hkeep]
      rcases ih with ⟨h1, h2⟩ | ⟨j, hj, hbj, h1, h2⟩
      · left
        refine ⟨h1, fun i hi => ?_⟩
        rcases Nat.lt_succ_iff_lt_or_eq.mp hi with h | h
        · exact h2 i h
        · rw [h]; exact hb
      · right
        refine ⟨j, Nat.lt_succ_of_lt hj, hbj, h1, fun k hk hk2 => ?_⟩
        rcases Nat.lt_succ_iff_lt_or_eq.mp hk2 with h | h
        · exact h2 k hk h
        · rw [h]; exact hb

/-- After scanning the first `n` endpoints, `ep_bulk_out` is untouched when none of them is
bulk-OUT, and otherwise refers to the bulk-OUT endpoint of highest index. -/
theorem probe_scan_upto_out (K : Consts) (iface : Ptr) (aif : ALT_IFACE_T) (m : MSC_T)
    (n : Nat) :
    (((List.range n).foldl (probe_scan_step K iface aif) m).ep_bulk_out = m.ep_bulk_out ∧
        ∀ i, i < n → ¬ is_bulk_out K (aif.ep i)) ∨
    (∃ j, j < n ∧ is_bulk_out K (aif.ep j) ∧
        ((List.range n).foldl (probe_scan_step K iface aif) m).ep_bulk_out
          = some { iface := iface, idx := j } ∧
        ∀ k, j < k → k < n → ¬ is_bulk_out K (aif.ep k)) := by
  induction n with
  | zero => exact Or.inl ⟨rfl, fun i hi => absurd hi (Nat.not_lt_zero i)⟩
  | succ n ih =>
    rw [List.range_succ, List.foldl_append]
    simp only [List.foldl_cons, List.foldl_nil]
    by_cases hb : is_bulk_out K (aif.ep n)
    · right
      refine ⟨n, Nat.lt_succ_self n, hb, ?_, fun k hk hk2 => absurd hk2 (by omega)⟩
      unfold probe_scan_step
      rw [if_pos hb.1, if_neg hb.2]
    · have hkeep : (probe_scan_step K iface aif
          ((List.range n).foldl (probe_scan_step K iface aif) m) n).ep_bulk_out
          = ((List.range n).foldl (probe_scan_step K iface aif) m).ep_bulk_out := by
        unfold probe_scan_step
        split
        · rename_i h1
          split
          · rfl
          · rename_i h2
            exact absurd ⟨h1, h2⟩ hb
        · rfl
      rw [hkeep]
      rcases ih with ⟨h1, h2⟩ | ⟨j, hj, hbj, h1, h2⟩
      · left
        refine ⟨h1, fun i hi => ?_⟩
        rcases Nat.lt_succ_iff_lt_or_eq.mp hi with h | h
        · exact h2 i h
        · rw [h]; exact hb
      · right
        refine ⟨j, Nat.lt_succ_of_lt hj, hbj, h1, fun k hk hk2 => ?_⟩
        rcases Nat.lt_succ_iff_lt_or_eq.mp hk2 with h | h
        · exact h2 k hk h
        · rw [h]; exact hb

/-! ## Probe: the accepted path -/

/-- Once the descriptor checks pass and both allocations succeed, `msc_probe` is decided by
the endpoint references found by the scan. -/
theorem msc_probe_of_allocated (E : Env) (w : World) (iface : Ptr)
    (hchk : passes_checks E.K (E.ifmem iface).aif.ifd)
    (h1 : probe_msc E w ≠ NULL) (h2 : probe_scsi_buff E w ≠ NULL) :
    msc_probe E w iface =
      if ((probe_scanned E w iface).mem (probe_msc E w)).ep_bulk_in = none ∨
          ((probe_scanned E w iface).mem (probe_msc E w)).ep_bulk_out = none then
        .ok ( E.K.USBH_ERR_NOT_EXPECTED,
          usbh_free_mem (usbh_free_mem (probe_scanned E w iface)
            ((probe_scanned E w iface).mem (probe_msc E w)).scsi_buff E.K.SCSI_BUFF_LEN)
            (probe_msc E w) E.K.sizeof_MSC_T)
      else
        match get_max_lun E (probe_ready E w iface) (probe_msc E w) with
        | .error f => .error f
        | .ok w2 => .ok (umas_init_device E w2 (probe_msc E w)) := by
  obtain ⟨hc, hs, hp⟩ := hchk
  have hs' : ¬ ((E.ifmem iface).aif.ifd.bInterfaceSubClass ≠ E.K.MSC_SCLASS_SCSI ∧
      (E.ifmem iface).aif.ifd.bInterfaceSubClass ≠ E.K.MSC_SCLASS_8070 ∧
      (E.ifmem iface).aif.ifd.bInterfaceSubClass ≠ E.K.MSC_SCLASS_RBC ∧
      (E.ifmem iface).aif.ifd.bInterfaceSubClass ≠ 0x42) := by
    rintro ⟨a, b, c, d⟩
    rcases hs with h | h | h | h
    · exact a h
    · exact b h
    · exact c h
    · exact d h
  simp only [msc_probe]
  rw [if_neg (not_not.mpr hc), if_neg hs', if_neg (not_not.mpr hp)]
  have h1' : ¬ (usbh_alloc_mem E w E.K.sizeof_MSC_T).1 = NULL := h1
  rw [if_neg h1']
  split
  · rename_i h
    rw [World.store_mem_self] at h
    exact absurd h h2
  · rfl

theorem probe_scanned_trace (E : Env) (w : World) (iface : Ptr) :
    (probe_scanned E w iface).trace
      = w.trace ++ [Event.alloc E.K.sizeof_MSC_T (probe_msc E w),
                    Event.alloc E.K.SCSI_BUFF_LEN (probe_scsi_buff E w),
                    Event.ticks (probe_ticks E w)] := by
  simp [probe_scanned, probe_msc, probe_scsi_buff, probe_ticks, usbh_alloc_mem, get_ticks]

theorem probe_scanned_globals (E : Env) (w : World) (iface : Ptr) :
    (probe_scanned E w iface).g_msc_list = w.g_msc_list ∧
    (probe_scanned E w iface).g_msc_conn_func = w.g_msc_conn_func ∧
    (probe_scanned E w iface).g_msc_disconn_func = w.g_msc_disconn_func :=
  ⟨rfl, rfl, rfl⟩

theorem probe_scanned_mem_of_ne (E : Env) (w : World) (iface : Ptr) (q : Ptr)
    (h : q ≠ probe_msc E w) : (probe_scanned E w iface).mem q = w.mem q := by
  have h' : ¬ q = E.usbh_alloc_mem w.trace E.K.sizeof_MSC_T := h
  simp [probe_scanned, World.store_mem, h', usbh_alloc_mem, get_ticks]

theorem probe_scanned_mem_self (E : Env) (w : World) (iface : Ptr) :
    (probe_scanned E w iface).mem (probe_msc E w)
      = probe_scan E.K iface (E.ifmem iface).aif
          { w.mem (probe_msc E w) with
            scsi_buff := probe_scsi_buff E w, uid := probe_ticks E w } := by
  simp [probe_scanned, probe_msc, probe_scsi_buff, probe_ticks, usbh_alloc_mem, get_ticks]

theorem probe_scanned_next (E : Env) (w : World) (iface : Ptr) (q : Ptr) :
    ((probe_scanned E w iface).mem q).next = (w.mem q).next := by
  by_cases h : q = probe_msc E w
  · rw [h, probe_scanned_mem_self]
    exact (probe_scan_upto_fields E.K iface (E.ifmem iface).aif _ _).2.2.2.2.2.2.2.2
  · rw [probe_scanned_mem_of_ne E w iface q h]

theorem probe_scanned_scsi_buff (E : Env) (w : World) (iface : Ptr) :
    ((probe_scanned E w iface).mem (probe_msc E w)).scsi_buff = probe_scsi_buff E w := by
  rw [probe_scanned_mem_self]
  exact (probe_scan_upto_fields E.K iface (E.ifmem iface).aif _ _).2.2.2.2.2.2.1

/-- Chains only depend on the `next` fields. -/
theorem is_chain_congr (w w' : World) (h : ∀ q, (w'.mem q).next = (w.mem q).next)
    (p : Ptr) (l : List Ptr) : is_chain w' p l ↔ is_chain w p l := by
  induction l generalizing p with
  | nil => exact Iff.rfl
  | cons a l ih =>
    simp only [is_chain]
    rw [h a, ih]

theorem freed_append (t u : List Event) : freed (t ++ u) = freed t ++ freed u := by
  induction t with
  | nil => rfl
  | cons e t ih => cases e <;> simp [freed, ih]

theorem allocated_append (t u : List Event) :
    allocated (t ++ u) = allocated t ++ allocated u := by
  induction t with
  | nil => rfl
  | cons e t ih =>
    cases e <;> simp [allocated, ih]
    split <;> simp

theorem ctrl_requests_append (t u : List Event) :
    ctrl_requests (t ++ u) = ctrl_requests t ++ ctrl_requests u := by
  induction t with
  | nil => rfl
  | cons e t ih => cases e <;> simp [ctrl_requests, ih]

theorem conn_calls_append (t u : List Event) :
    conn_calls (t ++ u) = conn_calls t ++ conn_calls u := by
  induction t with
  | nil => rfl
  | cons e t ih => cases e <;> simp [conn_calls, ih]

/-- The rejection for missing endpoint references, in full: the calls made, and what is
left untouched. -/
theorem msc_probe_refs_missing (E : Env) (w : World) (iface : Ptr)
    (hchk : passes_checks E.K (E.ifmem iface).aif.ifd)
    (h1 : probe_msc E w ≠ NULL) (h2 : probe_scsi_buff E w ≠ NULL)
    (hnone : ((probe_scanned E w iface).mem (probe_msc E w)).ep_bulk_in = none ∨
      ((probe_scanned E w iface).mem (probe_msc E w)).ep_bulk_out = none) :
    ∃ res, msc_probe E w iface = .ok res ∧
      res.1 = E.K.USBH_ERR_NOT_EXPECTED ∧
      res.2.trace
        = w.trace ++ [Event.alloc E.K.sizeof_MSC_T (probe_msc E w),
                      Event.alloc E.K.SCSI_BUFF_LEN (probe_scsi_buff E w),
                      Event.ticks (probe_ticks E w),
                      Event.free (probe_scsi_buff E w) E.K.SCSI_BUFF_LEN,
                      Event.free (probe_msc E w) E.K.sizeof_MSC_T] ∧
      res.2.g_msc_list = w.g_msc_list ∧
      (∀ q, (res.2.mem q).next = (w.mem q).next) ∧
      (∀ q, q ≠ probe_msc E w → res.2.mem q = w.mem q) := by
  rw [msc_probe_of_allocated E w iface hchk h1 h2, if_pos hnone]
  have htr := probe_scanned_trace E w iface
  have hsb := probe_scanned_scsi_buff E w iface
  have hnext := probe_scanned_next E w iface
  have hmem := probe_scanned_mem_of_ne E w iface
  have hg := (probe_scanned_globals E w iface).1
  generalize probe_scanned E w iface = W at htr hsb hnext hmem hg
  refine ⟨_, rfl, rfl, ?_, hg, hnext, hmem⟩
  simp [usbh_free_mem, htr, hsb]

/-- C10: for an interface that passes the descriptor checks and has no bulk-IN endpoint or
no bulk-OUT endpoint among its `bNumEndpoints` endpoints (none at all included), with both
allocations successful and the fresh record's endpoint references null, `msc_probe` returns
`USBH_ERR_NOT_EXPECTED`; its external calls are the two allocations, `get_ticks`, one free of
the working buffer and one free of the record, in that order, so no control request is
issued and the attach callback is not invoked; the Registry is unchanged and no other
record is written. -/
theorem msc_probe_missing_endpoint (E : Env) (w : World) (iface : Ptr)
    (hchk : passes_checks E.K (E.ifmem iface).aif.ifd)
    (h1 : probe_msc E w ≠ NULL) (h2 : probe_scsi_buff E w ≠ NULL)
    (hin : (w.mem (probe_msc E w)).ep_bulk_in = none)
    (hout : (w.mem (probe_msc E w)).ep_bulk_out = none)
    (hep : (∀ i, i < (E.ifmem iface).aif.ifd.bNumEndpoints →
              ¬ is_bulk_in E.K ((E.ifmem iface).aif.ep i)) ∨
           (∀ i, i < (E.ifmem iface).aif.ifd.bNumEndpoints →
              ¬ is_bulk_out E.K ((E.ifmem iface).aif.ep i))) :
    ∃ res, msc_probe E w iface = .ok res ∧
      res.1 = E.K.USBH_ERR_NOT_EXPECTED ∧
      res.2.trace
        = w.trace ++ [Event.alloc E.K.sizeof_MSC_T (probe_msc E w),
                      Event.alloc E.K.SCSI_BUFF_LEN (probe_scsi_buff E w),
                      Event.ticks (probe_ticks E w),
                      Event.free (probe_scsi_buff E w) E.K.SCSI_BUFF_LEN,
                      Event.free (probe_msc E w) E.K.sizeof_MSC_T] ∧
      freed res.2.trace = freed w.trace ++ [probe_scsi_buff E w, probe_msc E w] ∧
      ctrl_requests res.2.trace = ctrl_requests w.trace ∧
      conn_calls res.2.trace = conn_calls w.trace ∧
      res.2.g_msc_list = w.g_msc_list ∧
      (∀ l, registry res.2 l ↔ registry w l) ∧
      (∀ q, q ≠ probe_msc E w → res.2.mem q = w.mem q) := by
  have hnone : ((probe_scanned E w iface).mem (probe_msc E w)).ep_bulk_in = none ∨
      ((probe_scanned E w iface).mem (probe_msc E w)).ep_bulk_out = none := by
    rw [probe_scanned_mem_self]
    rcases hep with hno | hno
    · left
      rcases probe_scan_upto_in E.K iface (E.ifmem iface).aif
          { w.mem (probe_msc E w) with
            scsi_buff := probe_scsi_buff E w, uid := probe_ticks E w }
          (E.ifmem iface).aif.ifd.bNumEndpoints with ⟨h, _⟩ | ⟨j, hj, hb, _, _⟩
      · exact h.trans hin
      · exact absurd hb (hno j hj)
    · right
      rcases probe_scan_upto_out E.K iface (E.ifmem iface).aif
          { w.mem (probe_msc E w) with
            scsi_buff := probe_scsi_buff E w, uid := probe_ticks E w }
          (E.ifmem iface).aif.ifd.bNumEndpoints with ⟨h, _⟩ | ⟨j, hj, hb, _, _⟩
      · exact h.trans hout
      · exact absurd hb (hno j hj)
  obtain ⟨res, hrun, hst, htr, hg, hnext, hmem⟩ :=
    msc_probe_refs_missing E w iface hchk h1 h2 hnone
  refine ⟨res, hrun, hst, htr, ?_, ?_, ?_, hg, ?_, hmem⟩
  · simp only [htr, freed_append]
    rfl
  · simp only [htr, ctrl_requests_append]
    simp [ctrl_requests]
  · simp only [htr, conn_calls_append]
    simp [conn_calls]
  · intro l
    unfold registry usbh_msc_get_device_list
    rw [hg]
    exact is_chain_congr w res.2 hnext w.g_msc_list l

/-- C10 on an example: a mass-storage interface with a single bulk-IN endpoint and no
bulk-OUT endpoint is rejected with `USBH_ERR_NOT_EXPECTED`; the buffer (address 32) and
the record (address 16) are freed once each and no control request is issued. -/
theorem msc_probe_missing_endpoint_witness :
    ∃ res, msc_probe (example_env (example_iface 0x08 0x06 0x50
        [{ bEndpointAddress := 0x81, bmAttributes := 0x02 }]) 2 (0, []) (0, []))
      example_world 100 = .ok res ∧
      res.1 = example_consts.USBH_ERR_NOT_EXPECTED ∧
      freed res.2.trace = [32, 16] ∧
      ctrl_requests res.2.trace = [] := by
  obtain ⟨res, hrun, h1, _, h3, h4, _⟩ :=
    msc_probe_missing_endpoint (example_env (example_iface 0x08 0x06 0x50
        [{ bEndpointAddress := 0x81, bmAttributes := 0x02 }]) 2 (0, []) (0, []))
      example_world 100 (by decide) (by decide) (by decide) rfl rfl
      (Or.inr (by
        intro i hi
        have hi' : i < 1 := hi
        have h0 : i = 0 := by omega
        subst h0
        decide))
  exact ⟨res, hrun, h1, h3, h4⟩

/-! ## Probe: allocation failures -/

theorem passes_checks_not_subclass (K : Consts) (ifd : DESC_IF_T) (h : passes_checks K ifd) :
    ¬ (ifd.bInterfaceSubClass ≠ K.MSC_SCLASS_SCSI ∧ ifd.bInterfaceSubClass ≠ K.MSC_SCLASS_8070 ∧
      ifd.bInterfaceSubClass ≠ K.MSC_SCLASS_RBC ∧ ifd.bInterfaceSubClass ≠ 0x42) := by
  rintro ⟨a, b, c, d⟩
  rcases h.2.1 with h | h | h | h
  · exact a h
  · exact b h
  · exact c h
  · exact d h

/-- When the record allocation fails, `msc_probe` returns `USBH_ERR_MEMORY_OUT` after that
single call; no block is outstanding and the Registry is unchanged. -/
theorem msc_probe_record_alloc_fails (E : Env) (w : World) (iface : Ptr)
    (hchk : passes_checks E.K (E.ifmem iface).aif.ifd) (h1 : probe_msc E w = NULL) :
    msc_probe E w iface
      = .ok ( E.K.USBH_ERR_MEMORY_OUT, w.emit (Event.alloc E.K.sizeof_MSC_T NULL)) := by
  have h1' : (usbh_alloc_mem E w E.K.sizeof_MSC_T).1 = NULL := h1
  simp only [msc_probe]
  rw [if_neg (not_not.mpr hchk.1), if_neg (passes_checks_not_subclass _ _ hchk),
    if_neg (not_not.mpr hchk.2.2), if_pos h1']
  have h2 : E.usbh_alloc_mem w.trace E.K.sizeof_MSC_T = NULL := h1
  simp only [usbh_alloc_mem, h2]

/-- When the record allocation succeeds and the working-buffer allocation fails,
`msc_probe` returns `USBH_ERR_MEMORY_OUT` right after the second allocation: its only
external calls are the two allocations, so the record is not freed. -/
theorem msc_probe_buffer_alloc_fails (E : Env) (w : World) (iface : Ptr)
    (hchk : passes_checks E.K (E.ifmem iface).aif.ifd)
    (h1 : probe_msc E w ≠ NULL) (h2 : probe_scsi_buff E w = NULL) :
    ∃ res, msc_probe E w iface = .ok res ∧
      res.1 = E.K.USBH_ERR_MEMORY_OUT ∧
      res.2.trace
        = w.trace ++ [Event.alloc E.K.sizeof_MSC_T (probe_msc E w),
                      Event.alloc E.K.SCSI_BUFF_LEN NULL] ∧
      res.2.g_msc_list = w.g_msc_list ∧
      (∀ q, q ≠ probe_msc E w → res.2.mem q = w.mem q) := by
  have h1' : ¬ (usbh_alloc_mem E w E.K.sizeof_MSC_T).1 = NULL := h1
  simp only [msc_probe]
  rw [if_neg (not_not.mpr hchk.1), if_neg (passes_checks_not_subclass _ _ hchk),
    if_neg (not_not.mpr hchk.2.2), if_neg h1']
  split
  · refine ⟨_, rfl, rfl, ?_, rfl, ?_⟩
    · have h3 : E.usbh_alloc_mem (w.trace ++ [Event.alloc E.K.sizeof_MSC_T
          (E.usbh_alloc_mem w.trace E.K.sizeof_MSC_T)]) E.K.SCSI_BUFF_LEN = NULL := h2
      simp [usbh_alloc_mem, probe_msc, h3]
    · intro q hq
      have hq' : q ≠ (usbh_alloc_mem E w E.K.sizeof_MSC_T).1 := hq
      rw [World.store_mem_of_ne _ _ _ _ hq']
      rfl
  · rename_i h
    rw [World.store_mem_self] at h
    exact absurd h2 h

/-- C9, the failing input: the interface passes the checks, the record allocation returns
address 16 and the working-buffer allocation fails.  `msc_probe` returns
`USBH_ERR_MEMORY_OUT` with the record allocated and nothing freed. -/
theorem msc_probe_leaks_record :
    ∃ res, msc_probe (example_env example_msc_iface 1 (0, []) (0, [])) example_world 100
        = .ok res ∧
      res.1 = example_consts.USBH_ERR_MEMORY_OUT ∧
      allocated res.2.trace = [16] ∧
      freed res.2.trace = [] := by
  obtain ⟨res, hrun, h1, h2, _⟩ :=
    msc_probe_buffer_alloc_fails (example_env example_msc_iface 1 (0, []) (0, []))
      example_world 100 (by decide) (by decide) (by decide)
  refine ⟨res, hrun, h1, ?_, ?_⟩
  · rw [h2]; decide
  · rw [h2]; decide

/-! ## Probe: `get_max_lun` and registration -/

/-- What `get_max_lun` does when it reads no byte through a null pointer, in full: it
returns, writes only `max_lun` of the record, leaves the globals alone and makes the calls
listed. -/
theorem get_max_lun_eq (E : Env) (w : World) (msc : Ptr) (hbuf : max_lun_buffer_ok E w msc) :
    ∃ w', get_max_lun E w msc = .ok w' ∧
      w'.trace = w.trace ++ get_max_lun_events E w msc ∧
      w'.mem msc
        = { w.mem msc with
            max_lun := if (max_lun_result E w msc).1 < 0 then 0
                       else store8 ((max_lun_result E w msc).2.getD 0 0) } ∧
      (∀ q, q ≠ msc → w'.mem q = w.mem q) ∧
      w'.g_msc_list = w.g_msc_list ∧
      w'.g_msc_conn_func = w.g_msc_conn_func ∧
      w'.g_msc_disconn_func = w.g_msc_disconn_func := by
  simp only [get_max_lun, get_max_lun_events, usbh_alloc_mem, usbh_ctrl_xfer,
    World.store_mem_self, World.store_trace, World.emit_trace, World.emit_mem]
  by_cases hneg : (max_lun_result E w msc).1 < 0
  · have hneg' : (E.usbh_ctrl_xfer (w.trace ++ [Event.alloc 2 (E.usbh_alloc_mem w.trace 2)])
        { udev := (E.ifmem (w.mem msc).iface).udev,
          bmRequestType := E.K.REQ_TYPE_IN ||| E.K.REQ_TYPE_CLASS_DEV ||| E.K.REQ_TYPE_TO_IFACE,
          bRequest := 0xFE, wValue := 0, wIndex := 0, wLength := 1,
          buff := E.usbh_alloc_mem w.trace 2, timeout := 200 }).1 < 0 := hneg
    rw [if_pos hneg', if_pos hneg]
    by_cases hst : (max_lun_result E w msc).1 = E.K.USBH_ERR_STALL
    · have hst' : (E.usbh_ctrl_xfer
          (w.trace ++ [Event.alloc 2 (E.usbh_alloc_mem w.trace 2)])
          { udev := (E.ifmem (w.mem msc).iface).udev,
            bmRequestType :=
              E.K.REQ_TYPE_IN ||| E.K.REQ_TYPE_CLASS_DEV ||| E.K.REQ_TYPE_TO_IFACE,
            bRequest := 0xFE, wValue := 0, wIndex := 0, wLength := 1,
            buff := E.usbh_alloc_mem w.trace 2, timeout := 200 }).1 = E.K.USBH_ERR_STALL := hst
      rw [if_pos hst', if_pos hst]
      refine ⟨_, rfl, ?_, ?_, ?_, rfl, rfl, rfl⟩
      · simp [usbh_clear_halt, max_lun_request, max_lun_result]
      · simp [usbh_clear_halt, hneg]
      · intro q hq
        simp [usbh_clear_halt, World.store_mem, hq]
    · have hst' : ¬ (E.usbh_ctrl_xfer
          (w.trace ++ [Event.alloc 2 (E.usbh_alloc_mem w.trace 2)])
          { udev := (E.ifmem (w.mem msc).iface).udev,
            bmRequestType :=
              E.K.REQ_TYPE_IN ||| E.K.REQ_TYPE_CLASS_DEV ||| E.K.REQ_TYPE_TO_IFACE,
            bRequest := 0xFE, wValue := 0, wIndex := 0, wLength := 1,
            buff := E.usbh_alloc_mem w.trace 2, timeout := 200 }).1 = E.K.USBH_ERR_STALL := hst
      rw [if_neg hst', if_neg hst]
      refine ⟨_, rfl, ?_, ?_, ?_, rfl, rfl, rfl⟩
      · simp [max_lun_request, max_lun_result]
      · simp [hneg]
      · intro q hq
        simp [World.store_mem, hq]
  · have hneg' : ¬ (E.usbh_ctrl_xfer
        (w.trace ++ [Event.alloc 2 (E.usbh_alloc_mem w.trace 2)])
        { udev := (E.ifmem (w.mem msc).iface).udev,
          bmRequestType := E.K.REQ_TYPE_IN ||| E.K.REQ_TYPE_CLASS_DEV ||| E.K.REQ_TYPE_TO_IFACE,
          bRequest := 0xFE, wValue := 0, wIndex := 0, wLength := 1,
          buff := E.usbh_alloc_mem w.trace 2, timeout := 200 }).1 < 0 := hneg
    have hnb : ¬ E.usbh_alloc_mem w.trace 2 = NULL := by
      rcases hbuf with h | h
      · exact absurd h hneg
      · exact h
    rw [if_neg hneg', if_neg hneg, if_neg hnb]
    refine ⟨_, rfl, ?_, ?_, ?_, rfl, rfl, rfl⟩
    · simp [usbh_free_mem, max_lun_request, max_lun_result]
    · simp [usbh_free_mem, hneg', max_lun_request, max_lun_result]
    · intro q hq
      simp [usbh_free_mem, World.store_mem, hq]

/-- When the GET MAX LUN transfer succeeds and the 2-byte allocation has failed,
`get_max_lun` reads `nbuff[0]` through the null pointer. -/
theorem get_max_lun_null_buffer (E : Env) (w : World) (msc : Ptr)
    (hbuf : ¬ max_lun_buffer_ok E w msc) : get_max_lun E w msc = .error .null_deref := by
  have hneg : ¬ (E.usbh_ctrl_xfer
      (w.trace ++ [Event.alloc 2 (E.usbh_alloc_mem w.trace 2)])
      { udev := (E.ifmem (w.mem msc).iface).udev,
        bmRequestType := E.K.REQ_TYPE_IN ||| E.K.REQ_TYPE_CLASS_DEV ||| E.K.REQ_TYPE_TO_IFACE,
        bRequest := 0xFE, wValue := 0, wIndex := 0, wLength := 1,
        buff := E.usbh_alloc_mem w.trace 2, timeout := 200 }).1 < 0 :=
    fun h => hbuf (Or.inl h)
  have hnb : E.usbh_alloc_mem w.trace 2 = NULL := by
    by_contra h
    exact hbuf (Or.inr h)
  simp only [get_max_lun, usbh_alloc_mem, usbh_ctrl_xfer, World.store_mem_self,
    World.store_trace, World.emit_trace, World.emit_mem]
  rw [if_neg hneg, if_pos hnb]

/-- The call `get_max_lun` returns exactly when it reads no byte through a null pointer. -/
theorem get_max_lun_ok_iff (E : Env) (w : World) (msc : Ptr) :
    (∃ w', get_max_lun E w msc = .ok w') ↔ max_lun_buffer_ok E w msc := by
  constructor
  · rintro ⟨w', h⟩
    by_contra hb
    rw [get_max_lun_null_buffer E w msc hb] at h
    cases h
  · intro hb
    obtain ⟨w', h, _⟩ := get_max_lun_eq E w msc hb
    exact ⟨w', h⟩

/-- Chains only depend on the `next` fields of the records they visit. -/
theorem is_chain_congr_on (w w' : World) (l : List Ptr)
    (h : ∀ q, q ∈ l → (w'.mem q).next = (w.mem q).next) (p : Ptr) :
    is_chain w' p l ↔ is_chain w p l := by
  induction l generalizing p with
  | nil => exact Iff.rfl
  | cons a l ih =>
    simp only [is_chain]
    rw [h a (List.mem_cons_self a l), ih (fun q hq => h q (List.mem_cons_of_mem a hq))]

/-- What `msc_list_add` does: the record becomes the head and its `next` is the old head. -/
theorem msc_list_add_eq (w : World) (msc : Ptr) :
    (msc_list_add w msc).g_msc_list = msc ∧
    (msc_list_add w msc).mem msc = { w.mem msc with next := w.g_msc_list } ∧
    (∀ q, q ≠ msc → (msc_list_add w msc).mem q = w.mem q) ∧
    (msc_list_add w msc).trace = w.trace ∧
    (msc_list_add w msc).g_msc_conn_func = w.g_msc_conn_func ∧
    (msc_list_add w msc).g_msc_disconn_func = w.g_msc_disconn_func := by
  unfold msc_list_add
  split
  · rename_i h
    refine ⟨rfl, ?_, ?_, rfl, rfl, rfl⟩
    · simp [h]
    · intro q hq
      simp [World.store_mem, hq]
  · refine ⟨rfl, ?_, ?_, rfl, rfl, rfl⟩
    · simp
    · intro q hq
      simp [World.store_mem, hq]

/-- What `umas_init_device` does. -/
theorem umas_init_device_eq (E : Env) (w : World) (msc : Ptr) :
    (umas_init_device E w msc).1 = E.K.USBH_OK ∧
    (umas_init_device E w msc).2.g_msc_list = msc ∧
    (umas_init_device E w msc).2.mem = (msc_list_add w msc).mem ∧
    (umas_init_device E w msc).2.trace
      = w.trace ++ (if w.g_msc_conn_func ≠ NULL then [Event.conn w.g_msc_conn_func msc 0]
                    else []) ∧
    (umas_init_device E w msc).2.g_msc_conn_func = w.g_msc_conn_func ∧
    (umas_init_device E w msc).2.g_msc_disconn_func = w.g_msc_disconn_func := by
  obtain ⟨hg, _, _, ht, hc, hd⟩ := msc_list_add_eq w msc
  by_cases h : w.g_msc_conn_func = NULL
  · simp [umas_init_device, h, hc, hg, ht, hd]
  · simp [umas_init_device, h, hc, hg, ht, hd]

/-- With both kinds of bulk endpoint present, the scan leaves both references non-null. -/
theorem probe_scanned_endpoints (E : Env) (w : World) (iface : Ptr)
    (hin : ∃ i, i < (E.ifmem iface).aif.ifd.bNumEndpoints ∧
      is_bulk_in E.K ((E.ifmem iface).aif.ep i))
    (hout : ∃ i, i < (E.ifmem iface).aif.ifd.bNumEndpoints ∧
      is_bulk_out E.K ((E.ifmem iface).aif.ep i)) :
    ¬ (((probe_scanned E w iface).mem (probe_msc E w)).ep_bulk_in = none ∨
       ((probe_scanned E w iface).mem (probe_msc E w)).ep_bulk_out = none) := by
  rw [probe_scanned_mem_self]
  obtain ⟨i, hi, hbi⟩ := hin
  obtain ⟨o, ho, hbo⟩ := hout
  rintro (h | h)
  · rcases probe_scan_upto_in E.K iface (E.ifmem iface).aif
        { w.mem (probe_msc E w) with
          scsi_buff := probe_scsi_buff E w, uid := probe_ticks E w }
        (E.ifmem iface).aif.ifd.bNumEndpoints with ⟨_, hno⟩ | ⟨j, _, _, hj, _⟩
    · exact hno i hi hbi
    · unfold probe_scan at h
      rw [hj] at h
      exact Option.noConfusion h
  · rcases probe_scan_upto_out E.K iface (E.ifmem iface).aif
        { w.mem (probe_msc E w) with
          scsi_buff := probe_scsi_buff E w, uid := probe_ticks E w }
        (E.ifmem iface).aif.ifd.bNumEndpoints with ⟨_, hno⟩ | ⟨j, _, _, hj, _⟩
    · exact hno o ho hbo
    · unfold probe_scan at h
      rw [hj] at h
      exact Option.noConfusion h

theorem probe_ready_eq (E : Env) (w : World) (iface : Ptr) :
    (probe_ready E w iface).trace = (probe_scanned E w iface).trace ∧
    (probe_ready E w iface).g_msc_list = w.g_msc_list ∧
    (probe_ready E w iface).g_msc_conn_func = w.g_msc_conn_func ∧
    (probe_ready E w iface).g_msc_disconn_func = w.g_msc_disconn_func ∧
    (∀ q, q ≠ probe_msc E w → (probe_ready E w iface).mem q = w.mem q) ∧
    (probe_ready E w iface).mem (probe_msc E w)
      = { (probe_scanned E w iface).mem (probe_msc E w) with iface := iface } := by
  refine ⟨rfl, rfl, rfl, rfl, ?_, ?_⟩
  · intro q hq
    unfold probe_ready
    rw [World.store_mem_of_ne _ _ _ _ hq, probe_scanned_mem_of_ne E w iface q hq]
  · unfold probe_ready
    rw [World.store_mem_self]

/-- A world whose head is a new non-null record linked to the old head, all other records
being as before, has the old Registry with the new record in front. -/
theorem registry_cons_of (w w' : World) (p : Ptr) (l : List Ptr) (hreg : registry w l)
    (hne : p ≠ NULL) (hfresh : p ∉ l) (hg : w'.g_msc_list = p)
    (hn : (w'.mem p).next = w.g_msc_list) (hq : ∀ q, q ≠ p → w'.mem q = w.mem q) :
    registry w' (p :: l) := by
  unfold registry usbh_msc_get_device_list
  rw [hg]
  refine ⟨rfl, hne, ?_⟩
  rw [hn]
  refine (is_chain_congr_on w w' l (fun q hql => ?_) w.g_msc_list).mpr hreg
  rw [hq q (fun h => hfresh (h ▸ hql))]

/-- The accepted path, in full: once the checks pass, both allocations succeed, the scan
has left both endpoint references non-null and `get_max_lun` reads no byte through a null
pointer, `msc_probe` returns `USBH_OK`; the calls made, the new head, the fields of the new
record and what is left untouched. -/
theorem msc_probe_refs_found (E : Env) (w : World) (iface : Ptr)
    (hchk : passes_checks E.K (E.ifmem iface).aif.ifd)
    (h1 : probe_msc E w ≠ NULL) (h2 : probe_scsi_buff E w ≠ NULL)
    (hrefs : ¬ (((probe_scanned E w iface).mem (probe_msc E w)).ep_bulk_in = none ∨
      ((probe_scanned E w iface).mem (probe_msc E w)).ep_bulk_out = none))
    (hbuf : max_lun_buffer_ok E (probe_ready E w iface) (probe_msc E w)) :
    ∃ res, msc_probe E w iface = .ok res ∧
      res.1 = E.K.USBH_OK ∧
      res.2.g_msc_list = probe_msc E w ∧
      res.2.trace
        = w.trace ++ [Event.alloc E.K.sizeof_MSC_T (probe_msc E w),
                      Event.alloc E.K.SCSI_BUFF_LEN (probe_scsi_buff E w),
                      Event.ticks (probe_ticks E w)]
            ++ get_max_lun_events E (probe_ready E w iface) (probe_msc E w)
            ++ (if w.g_msc_conn_func ≠ NULL then
                  [Event.conn w.g_msc_conn_func (probe_msc E w) 0] else []) ∧
      (∀ q, q ≠ probe_msc E w → res.2.mem q = w.mem q) ∧
      (res.2.mem (probe_msc E w)).next = w.g_msc_list ∧
      (res.2.mem (probe_msc E w)).iface = iface ∧
      (res.2.mem (probe_msc E w)).scsi_buff = probe_scsi_buff E w ∧
      res.2.g_msc_conn_func = w.g_msc_conn_func ∧
      res.2.g_msc_disconn_func = w.g_msc_disconn_func := by
  rw [msc_probe_of_allocated E w iface hchk h1 h2, if_neg hrefs]
  obtain ⟨W2, hW2, gt, gm, gq, gg, gc, gd⟩ :=
    get_max_lun_eq E (probe_ready E w iface) (probe_msc E w) hbuf
  rw [hW2]
  refine ⟨_, rfl, ?_⟩
  show (umas_init_device E W2 (probe_msc E w)).1 = _ ∧
    (umas_init_device E W2 (probe_msc E w)).2.g_msc_list = _ ∧
    (umas_init_device E W2 (probe_msc E w)).2.trace = _ ∧
    (∀ q, q ≠ probe_msc E w → (umas_init_device E W2 (probe_msc E w)).2.mem q = w.mem q) ∧
    ((umas_init_device E W2 (probe_msc E w)).2.mem (probe_msc E w)).next = _ ∧
    ((umas_init_device E W2 (probe_msc E w)).2.mem (probe_msc E w)).iface = _ ∧
    ((umas_init_device E W2 (probe_msc E w)).2.mem (probe_msc E w)).scsi_buff = _ ∧
    (umas_init_device E W2 (probe_msc E w)).2.g_msc_conn_func = _ ∧
    (umas_init_device E W2 (probe_msc E w)).2.g_msc_disconn_func = _
  obtain ⟨rt, rg, rc, rd, rq, rm⟩ := probe_ready_eq E w iface
  have st := probe_scanned_trace E w iface
  have ssb := probe_scanned_scsi_buff E w iface
  generalize get_max_lun_events E (probe_ready E w iface) (probe_msc E w) = evs at gt ⊢
  generalize probe_scanned E w iface = W0 at rt rm st ssb
  generalize probe_ready E w iface = W1 at rt rg rc rd rq rm gt gm gq gg gc gd
  obtain ⟨u1, u2, u3, u4, u5, u6⟩ := umas_init_device_eq E W2 (probe_msc E w)
  obtain ⟨_, am, aq, _, _, _⟩ := msc_list_add_eq W2 (probe_msc E w)
  refine ⟨u1, u2, ?_, ?_, ?_, ?_, ?_, ?_, ?_⟩
  · rw [u4, gt, rt, st, gc, rc]
  · intro q hq
    rw [u3, aq q hq, gq q hq, rq q hq]
  · rw [u3, am]
    show W2.g_msc_list = _
    rw [gg, rg]
  · rw [u3, am, gm, rm]
  · rw [u3, am, gm, rm]
    exact ssb
  · rw [u5, gc, rc]
  · rw [u6, gd, rd]

/-- On the accepted path, when the GET MAX LUN transfer succeeds and the 2-byte allocation of
`get_max_lun` has failed, `msc_probe` does not return: `nbuff[0]` is read through the null
pointer. -/
theorem msc_probe_null_buffer (E : Env) (w : World) (iface : Ptr)
    (hchk : passes_checks E.K (E.ifmem iface).aif.ifd)
    (h1 : probe_msc E w ≠ NULL) (h2 : probe_scsi_buff E w ≠ NULL)
    (hrefs : ¬ (((probe_scanned E w iface).mem (probe_msc E w)).ep_bulk_in = none ∨
      ((probe_scanned E w iface).mem (probe_msc E w)).ep_bulk_out = none))
    (hbuf : ¬ max_lun_buffer_ok E (probe_ready E w iface) (probe_msc E w)) :
    msc_probe E w iface = .error .null_deref := by
  rw [msc_probe_of_allocated E w iface hchk h1 h2, if_neg hrefs,
    get_max_lun_null_buffer E _ _ hbuf]

/-- C5: for a mass-storage interface with a recognised subclass, bulk-only protocol and at
least one bulk-IN and one bulk-OUT endpoint, with both allocations successful (the record
being a block that is not a registered record) and with `get_max_lun` reading no byte
through a null pointer (its transfer fails or its own 2-byte allocation has succeeded),
`msc_probe` returns `USBH_OK`; afterwards the Registry is the new record followed by the old
Registry in its old order, the new record is the head returned by
`usbh_msc_get_device_list`, no other record is written, and the attach callback, if
installed, has been invoked exactly once, with the new record and status 0.  The result of
the GET MAX LUN transfer is arbitrary. -/
theorem msc_probe_registers (E : Env) (w : World) (iface : Ptr) (l : List Ptr)
    (hchk : passes_checks E.K (E.ifmem iface).aif.ifd)
    (h1 : probe_msc E w ≠ NULL) (h2 : probe_scsi_buff E w ≠ NULL)
    (hbuf : max_lun_buffer_ok E (probe_ready E w iface) (probe_msc E w))
    (hin : ∃ i, i < (E.ifmem iface).aif.ifd.bNumEndpoints ∧
      is_bulk_in E.K ((E.ifmem iface).aif.ep i))
    (hout : ∃ i, i < (E.ifmem iface).aif.ifd.bNumEndpoints ∧
      is_bulk_out E.K ((E.ifmem iface).aif.ep i))
    (hreg : registry w l) (hfresh : probe_msc E w ∉ l) :
    ∃ res, msc_probe E w iface = .ok res ∧
      res.1 = E.K.USBH_OK ∧
      registry res.2 (probe_msc E w :: l) ∧
      usbh_msc_get_device_list res.2 = probe_msc E w ∧
      conn_calls res.2.trace
        = conn_calls w.trace ++
            (if w.g_msc_conn_func ≠ NULL then [(w.g_msc_conn_func, probe_msc E w, 0)]
             else []) ∧
      (∀ q, q ≠ probe_msc E w → res.2.mem q = w.mem q) ∧
      (res.2.mem (probe_msc E w)).iface = iface := by
  obtain ⟨res, hrun, hst, hg, htr, hq, hn, hi, _, _, _⟩ :=
    msc_probe_refs_found E w iface hchk h1 h2 (probe_scanned_endpoints E w iface hin hout) hbuf
  have hcc : conn_calls (get_max_lun_events E (probe_ready E w iface) (probe_msc E w)) = [] := by
    unfold get_max_lun_events
    rw [conn_calls_append]
    split
    · split <;> simp [conn_calls]
    · simp [conn_calls]
  refine ⟨res, hrun, hst, registry_cons_of w res.2 _ l hreg h1 hfresh hg hn hq, hg, ?_, hq, hi⟩
  rw [htr, conn_calls_append, conn_calls_append, conn_calls_append, hcc]
  by_cases hc : w.g_msc_conn_func = NULL
  · simp [hc, conn_calls]
  · simp [hc, conn_calls]

/-- C5 on examples: one device is registered (record 48), the attach callback is `9`, the
probed interface has a bulk-IN and a bulk-OUT endpoint.  Whether GET MAX LUN stalls or
succeeds, the probe returns `USBH_OK`, the Registry becomes `[16, 48]` and the callback is
invoked once, with record 16 and status 0. -/
theorem msc_probe_registers_witness :
    (∃ res, msc_probe
        (example_env example_msc_iface 3 ( example_consts.USBH_ERR_STALL, []) (0, []))
        example_world_attached 100 = .ok res ∧
      res.1 = example_consts.USBH_OK ∧ registry res.2 [16, 48] ∧
      conn_calls res.2.trace = [(9, 16, 0)]) ∧
    (∃ res, msc_probe (example_env example_msc_iface 3 (0, [1]) (0, []))
        example_world_attached 100 = .ok res ∧
      res.1 = example_consts.USBH_OK ∧ registry res.2 [16, 48] ∧
      conn_calls res.2.trace = [(9, 16, 0)]) := by
  constructor
  · obtain ⟨res, hrun, h1, h2, _, h4, _⟩ := msc_probe_registers
      (example_env example_msc_iface 3 ( example_consts.USBH_ERR_STALL, []) (0, []))
      example_world_attached 100 [48] (by decide) (by decide) (by decide) (by decide)
      ⟨0, by decide, by decide⟩ ⟨1, by decide, by decide⟩ (by decide) (by decide)
    exact ⟨res, hrun, h1, h2, h4⟩
  · obtain ⟨res, hrun, h1, h2, _, h4, _⟩ := msc_probe_registers
      (example_env example_msc_iface 3 (0, [1]) (0, []))
      example_world_attached 100 [48] (by decide) (by decide) (by decide) (by decide)
      ⟨0, by decide, by decide⟩ ⟨1, by decide, by decide⟩ (by decide) (by decide)
    exact ⟨res, hrun, h1, h2, h4⟩

/-! ## Registry removal (`msc_list_remove`) -/

theorem is_chain_ne_null (w : World) (p : Ptr) (l : List Ptr) (h : is_chain w p l) :
    ∀ q, q ∈ l → q ≠ NULL := by
  induction l generalizing p with
  | nil => intro q hq; cases hq
  | cons a l ih =>
    obtain ⟨_, ha, hl⟩ := h
    intro q hq
    rcases List.mem_cons.mp hq with h | h
    · rw [h]; exact ha
    · exact ih _ hl q h

/-- The scan of `msc_list_remove`, started at the first record of a non-empty stretch `pre`
of the chain that is followed by `msc`: it stops at the record of `pre` whose `next` is
`msc`, and redirecting that `next` to `msc->next` cuts `msc` out of the chain. -/
theorem msc_list_remove_scan_found (w : World) (msc : Ptr) (post : List Ptr) :
    ∀ (pre : List Ptr) (p : Ptr) (fuel : Nat), pre ≠ [] →
      is_chain w p (pre ++ msc :: post) → (pre ++ msc :: post).Nodup → pre.length ≤ fuel →
      ∃ q, msc_list_remove_scan w msc fuel p = .ok q ∧ q ∈ pre ∧ (w.mem q).next = msc ∧
        is_chain (w.store q { w.mem q with next := (w.mem msc).next }) p (pre ++ post) := by
  intro pre
  induction pre with
  | nil => intro p fuel h; exact absurd rfl h
  | cons b pre ih =>
    intro p fuel _ hch hnd hfuel
    obtain ⟨hp, hb, hrest⟩ := hch
    subst hp
    have hnd' : (pre ++ msc :: post).Nodup := (List.nodup_cons.mp hnd).2
    have hbnot : p ∉ pre ++ msc :: post := (List.nodup_cons.mp hnd).1
    obtain ⟨fuel', rfl⟩ : ∃ f, fuel = f + 1 := ⟨fuel - 1, by simp at hfuel; omega⟩
    cases pre with
    | nil =>
      obtain ⟨hnext, hmsc, hpost⟩ := hrest
      refine ⟨p, ?_, List.mem_cons_self _ _, hnext, ?_⟩
      · simp only [msc_list_remove_scan]
        rw [if_neg hb, if_neg (by simp [hnext])]
      · refine ⟨rfl, hb, ?_⟩
        rw [World.store_mem_self]
        refine (is_chain_congr_on w _ post (fun q hq => ?_) _).mpr hpost
        have : q ≠ p := fun h => hbnot (by simp [← h, hq])
        rw [World.store_mem_of_ne _ _ _ _ this]
    | cons c pre2 =>
      have hc : (w.mem p).next = c := hrest.1
      have hcne : c ≠ NULL := hrest.2.1
      have hcmsc : c ≠ msc := by
        intro h
        have := (List.nodup_cons.mp hnd').1
        exact this (by simp [← h])
      have hrest' : is_chain w c ((c :: pre2) ++ msc :: post) := by
        have h := hrest
        rw [hc] at h
        exact h
      obtain ⟨q, hq1, hq2, hq3, hq4⟩ := ih c fuel' (by simp) hrest' hnd'
        (by simp at hfuel ⊢; omega)
      refine ⟨q, ?_, List.mem_cons_of_mem _ hq2, hq3, ?_⟩
      · simp only [msc_list_remove_scan]
        rw [if_neg hb, if_pos (by rw [hc]; exact ⟨hcmsc, hcne⟩), hc]
        exact hq1
      · have hqp : p ≠ q := fun h => hbnot (by rw [h]; exact List.mem_append_left _ hq2)
        refine ⟨rfl, hb, ?_⟩
        rw [World.store_mem_of_ne _ _ _ _ hqp, hc]
        exact hq4

/-- Removing a registered record from a duplicate-free Registry: the call returns, the
Registry loses exactly that record, and only `next` fields of other registered records and
the list head are written. -/
theorem msc_list_remove_registered (w : World) (msc : Ptr) (pre post : List Ptr) (fuel : Nat)
    (hreg : registry w (pre ++ msc :: post)) (hnd : (pre ++ msc :: post).Nodup)
    (hfuel : pre.length ≤ fuel) :
    ∃ w', msc_list_remove fuel w msc = .ok w' ∧ registry w' (pre ++ post) ∧
      w'.trace = w.trace ∧ w'.g_msc_conn_func = w.g_msc_conn_func ∧
      w'.g_msc_disconn_func = w.g_msc_disconn_func ∧
      (∀ q, (w'.mem q).data = (w.mem q).data) ∧
      (∀ q, q ∉ pre → w'.mem q = w.mem q) := by
  have hmsc : msc ≠ NULL :=
    is_chain_ne_null w _ _ hreg msc (List.mem_append_right _ (List.mem_cons_self _ _))
  cases pre with
  | nil =>
    obtain ⟨hhead, _, hpost⟩ := hreg
    have hhead' : w.g_msc_list = msc := hhead
    refine ⟨{ w with g_msc_list := (w.mem msc).next }, ?_, ?_, rfl, rfl, rfl,
      fun _ => rfl, fun _ _ => rfl⟩
    · simp only [msc_list_remove]
      rw [if_pos hhead', if_neg hmsc]
    · exact (is_chain_congr w { w with g_msc_list := (w.mem msc).next } (fun _ => rfl)
        (w.mem msc).next post).mpr hpost
  | cons b pre =>
    have hhead : w.g_msc_list = b := hreg.1
    have hbm : b ≠ msc := by
      intro h
      have := (List.nodup_cons.mp hnd).1
      exact this (by simp [h])
    obtain ⟨q, hq1, hq2, hq3, hq4⟩ := msc_list_remove_scan_found w msc post (b :: pre)
      w.g_msc_list fuel (by simp) hreg hnd hfuel
    refine ⟨w.store q { w.mem q with next := (w.mem msc).next }, ?_, hq4, rfl, rfl, rfl, ?_, ?_⟩
    · simp only [msc_list_remove]
      rw [if_neg (by rw [hhead]; exact hbm), hq1]
      simp only []
      rw [if_pos hq3, if_neg hmsc]
    · intro r
      by_cases hr : r = q
      · rw [hr, World.store_mem_self]
        rfl
      · rw [World.store_mem_of_ne _ _ _ _ hr]
    · intro r hr
      have : r ≠ q := fun h => hr (h ▸ hq2)
      rw [World.store_mem_of_ne _ _ _ _ this]

/-! ## Disconnect (`msc_disconnect`) -/

theorem data_iface (m m' : MSC_T) (h : m'.data = m.data) : m'.iface = m.iface := by
  show m'.data.iface = m.data.iface
  rw [h]

theorem data_scsi_buff (m m' : MSC_T) (h : m'.data = m.data) :
    m'.scsi_buff = m.scsi_buff := by
  show m'.data.scsi_buff = m.data.scsi_buff
  rw [h]

theorem disconnect_events_congr (E : Env) (w w' : World)
    (hd : w'.g_msc_disconn_func = w.g_msc_disconn_func)
    (hm : ∀ q, (w'.mem q).data = (w.mem q).data) (r : Ptr) :
    disconnect_events E w' r = disconnect_events E w r := by
  unfold disconnect_events
  rw [hd, data_scsi_buff _ _ (hm r)]

/-- One pass of the loop of `msc_disconnect` over the rest `rest` of the Registry, the
records `kept` before it having been kept. -/
theorem msc_disconnect_loop_spec (E : Env) (iface : Ptr) (inner : Nat) :
    ∀ (rest kept : List Ptr) (W : World) (msc : Ptr) (fuel : Nat),
      registry W (kept ++ rest) → is_chain W msc rest → (kept ++ rest).Nodup →
      rest.length < fuel → (kept ++ rest).length ≤ inner →
      ∃ W', msc_disconnect_loop E iface inner fuel W msc = .ok W' ∧
        registry W' (kept ++ rest.filter (fun r => decide ((W.mem r).iface ≠ iface))) ∧
        W'.trace = W.trace ++
          (rest.filter (fun r => decide ((W.mem r).iface = iface))).flatMap
            (disconnect_events E W) ∧
        W'.g_msc_conn_func = W.g_msc_conn_func ∧
        W'.g_msc_disconn_func = W.g_msc_disconn_func ∧
        (∀ q, (W'.mem q).data = (W.mem q).data) := by
  intro rest
  induction rest with
  | nil =>
    intro kept W msc fuel hreg hch _ hfuel _
    have hmsc : msc = NULL := hch
    obtain ⟨fuel', rfl⟩ : ∃ f, fuel = f + 1 := ⟨fuel - 1, by simp at hfuel; omega⟩
    refine ⟨W, ?_, by simpa using hreg, by simp, rfl, rfl, fun _ => rfl⟩
    simp only [msc_disconnect_loop]
    rw [if_pos hmsc]
  | cons a rest ih =>
    intro kept W msc fuel hreg hch hnd hfuel hinner
    obtain ⟨hmsc, ha, hnext⟩ := hch
    subst hmsc
    obtain ⟨fuel', rfl⟩ : ∃ f, fuel = f + 1 := ⟨fuel - 1, by simp at hfuel; omega⟩
    have hfuel' : rest.length < fuel' := by simp at hfuel; omega
    by_cases hif : (W.mem msc).iface = iface
    · -- the record is removed
      have hmk : msc ∉ kept := fun h =>
        (List.nodup_append.mp hnd).2.2 h (List.mem_cons_self _ _)
      have hdisj : ∀ q, q ∈ rest → q ∉ kept := fun q hq h =>
        (List.nodup_append.mp hnd).2.2 h (List.mem_cons_of_mem _ hq)
      obtain ⟨W1, hW1, m1, g1, t1, c1, d1⟩ : ∃ W1,
          W1 = (if W.g_msc_disconn_func ≠ NULL then
                  W.emit (Event.disconn W.g_msc_disconn_func msc 0) else W) ∧
          W1.mem = W.mem ∧ W1.g_msc_list = W.g_msc_list ∧
          W1.trace = W.trace ++ (if W.g_msc_disconn_func ≠ NULL then
              [Event.disconn W.g_msc_disconn_func msc 0] else []) ∧
          W1.g_msc_conn_func = W.g_msc_conn_func ∧
          W1.g_msc_disconn_func = W.g_msc_disconn_func := by
        refine ⟨_, rfl, ?_⟩
        split <;> simp
      have hreg1 : registry W1 (kept ++ msc :: rest) := by
        unfold registry usbh_msc_get_device_list
        rw [g1]
        exact (is_chain_congr W W1 (fun q => by rw [m1]) _ _).mpr hreg
      obtain ⟨W2, hrem, r2, t2, c2, d2, m2, q2⟩ :=
        msc_list_remove_registered W1 msc kept rest inner hreg1 hnd
          (by simp at hinner; omega)
      obtain ⟨W4, hW4, m4, g4, t4, c4, d4⟩ : ∃ W4,
          W4 = usbh_free_mem
                (if (W2.mem msc).scsi_buff ≠ NULL then
                  usbh_free_mem W2 (W2.mem msc).scsi_buff E.K.SCSI_BUFF_LEN else W2)
                msc E.K.sizeof_MSC_T ∧
          W4.mem = W2.mem ∧ W4.g_msc_list = W2.g_msc_list ∧
          W4.trace = W2.trace ++
            ((if (W2.mem msc).scsi_buff ≠ NULL then
                [Event.free (W2.mem msc).scsi_buff E.K.SCSI_BUFF_LEN] else []) ++
              [Event.free msc E.K.sizeof_MSC_T]) ∧
          W4.g_msc_conn_func = W2.g_msc_conn_func ∧
          W4.g_msc_disconn_func = W2.g_msc_disconn_func := by
        refine ⟨_, rfl, ?_⟩
        split <;> simp [usbh_free_mem]
      have hdata4 : ∀ q, (W4.mem q).data = (W.mem q).data := by
        intro q
        rw [m4, m2 q, m1]
      have hmem4 : ∀ q, q ∉ kept → W4.mem q = W.mem q := by
        intro q hq
        rw [m4, q2 q hq, m1]
      have hreg4 : registry W4 (kept ++ rest) := by
        unfold registry usbh_msc_get_device_list
        rw [g4]
        exact (is_chain_congr W2 W4 (fun q => by rw [m4]) _ _).mpr r2
      have hch4 : is_chain W4 (W.mem msc).next rest :=
        (is_chain_congr_on W W4 rest (fun q hq => by rw [hmem4 q (hdisj q hq)]) _).mpr hnext
      have hnd4 : (kept ++ rest).Nodup := by
        have h := hnd
        rw [List.nodup_append] at h ⊢
        exact ⟨h.1, (List.nodup_cons.mp h.2.1).2,
          fun x hx hxr => h.2.2 hx (List.mem_cons_of_mem _ hxr)⟩
      obtain ⟨W', h1, h2, h3, h4, h5, h6⟩ := ih kept W4 (W.mem msc).next fuel'
        hreg4 hch4 hnd4 hfuel' (by simp at hinner ⊢; omega)
      have hfilt : ∀ (c : Ptr → Prop) [DecidablePred c],
          rest.filter (fun r => decide (c (W4.mem r).iface))
            = rest.filter (fun r => decide (c (W.mem r).iface)) := by
        intro c _
        apply List.filter_congr
        intro x _
        rw [data_iface _ _ (hdata4 x)]
      refine ⟨W', ?_, ?_, ?_, ?_, ?_, ?_⟩
      · simp only [msc_disconnect_loop]
        rw [if_neg ha, if_pos hif, ← hW1, hrem]
        simp only []
        rw [← hW4]
        exact h1
      · have := hfilt (fun i => i ≠ iface)
        rw [this] at h2
        simpa [List.filter_cons, hif] using h2
      · have hf := hfilt (fun i => i = iface)
        rw [hf] at h3
        have hev : disconnect_events E W4 = disconnect_events E W := by
          funext r
          exact disconnect_events_congr E W W4 (by rw [d4, d2, d1]) hdata4 r
        rw [hev, t4, t2, t1] at h3
        rw [h3]
        have hsb : (W2.mem msc).scsi_buff = (W.mem msc).scsi_buff := by
          rw [q2 msc hmk, m1]
        simp [List.filter_cons, hif, disconnect_events, hsb]
      · rw [h4, c4, c2, c1]
      · rw [h5, d4, d2, d1]
      · intro q
        rw [h6 q, hdata4 q]
    · -- the record is kept
      have hreg' : registry W ((kept ++ [msc]) ++ rest) := by simpa using hreg
      have hnd' : ((kept ++ [msc]) ++ rest).Nodup := by simpa using hnd
      obtain ⟨W', h1, h2, h3, h4, h5, h6⟩ := ih (kept ++ [msc]) W (W.mem msc).next fuel'
        hreg' hnext hnd' hfuel' (by simpa using hinner)
      refine ⟨W', ?_, ?_, ?_, h4, h5, h6⟩
      · simp only [msc_disconnect_loop]
        rw [if_neg ha, if_neg hif]
        exact h1
      · simpa [List.filter_cons, hif] using h2
      · simpa [List.filter_cons, hif] using h3

theorem quit_xfer_all_eq (w : World) (iface : Ptr) (n : Nat) :
    (quit_xfer_all w iface n).mem = w.mem ∧
    (quit_xfer_all w iface n).g_msc_list = w.g_msc_list ∧
    (quit_xfer_all w iface n).g_msc_conn_func = w.g_msc_conn_func ∧
    (quit_xfer_all w iface n).g_msc_disconn_func = w.g_msc_disconn_func ∧
    (quit_xfer_all w iface n).trace
      = w.trace ++ (List.range n).map (fun i => Event.quit_xfer { iface := iface, idx := i }) := by
  unfold quit_xfer_all
  induction n with
  | zero => simp
  | succ n ih =>
    rw [List.range_succ, List.foldl_append, List.map_append]
    obtain ⟨h1, h2, h3, h4, h5⟩ := ih
    simp only [List.foldl_cons, List.foldl_nil, World.emit_mem, World.emit_g_msc_list,
      World.emit_g_msc_conn_func, World.emit_g_msc_disconn_func, World.emit_trace]
    refine ⟨h1, h2, h3, h4, ?_⟩
    rw [h5]
    simp

theorem freed_flatMap (l : List Ptr) (f : Ptr → List Event) :
    freed (l.flatMap f) = l.flatMap (fun r => freed (f r)) := by
  induction l with
  | nil => rfl
  | cons a l ih => simp [List.flatMap_cons, freed_append, ih]

theorem freed_quit_events (iface : Ptr) (l : List Nat) :
    freed (l.map (fun i => Event.quit_xfer { iface := iface, idx := i })) = [] := by
  induction l with
  | nil => rfl
  | cons a l ih => simpa [freed] using ih

theorem freed_disconnect_events (E : Env) (w : World) (r : Ptr) :
    freed (disconnect_events E w r) = disconnect_frees w r := by
  unfold disconnect_events disconnect_frees
  by_cases h1 : w.g_msc_disconn_func = NULL <;> by_cases h2 : (w.mem r).scsi_buff = NULL <;>
    simp [h1, h2, freed]

theorem mem_disconnect_frees (w : World) (r x : Ptr) :
    x ∈ disconnect_frees w r ↔ x = r ∨ (x = (w.mem r).scsi_buff ∧ (w.mem r).scsi_buff ≠ NULL) := by
  unfold disconnect_frees
  by_cases h : (w.mem r).scsi_buff = NULL
  · simp [h]
  · simp [h]
    tauto

/-- When the registered records and their working buffers are pairwise distinct blocks, the
frees made for a set of registered records hit each of those records and each of their
buffers once, and nothing else. -/
theorem disconnect_frees_exact (w : World) (L : List Ptr) (c : Ptr → Bool)
    (hown : (L ++ L.map (fun r => (w.mem r).scsi_buff)).Nodup) :
    ((L.filter c).flatMap (disconnect_frees w)).Nodup ∧
    (∀ r, r ∈ L → c r = true →
      r ∈ (L.filter c).flatMap (disconnect_frees w) ∧
      ((w.mem r).scsi_buff ≠ NULL →
        (w.mem r).scsi_buff ∈ (L.filter c).flatMap (disconnect_frees w))) ∧
    (∀ r, r ∈ L → c r ≠ true →
      r ∉ (L.filter c).flatMap (disconnect_frees w) ∧
      (w.mem r).scsi_buff ∉ (L.filter c).flatMap (disconnect_frees w)) := by
  obtain ⟨hL, hM, hdisj⟩ := List.nodup_append.mp hown
  have hsbL : ∀ r, r ∈ L → ∀ y, y ∈ L → (w.mem r).scsi_buff ≠ y := by
    intro r hr y hy h
    exact hdisj hy (List.mem_map.mpr ⟨r, hr, h⟩)
  have hinj : ∀ r, r ∈ L → ∀ y, y ∈ L → (w.mem r).scsi_buff = (w.mem y).scsi_buff → r = y :=
    fun r hr y hy h => List.inj_on_of_nodup_map hM hr hy h
  refine ⟨?_, ?_, ?_⟩
  · rw [List.nodup_flatMap]
    constructor
    · intro x hx
      have hxL : x ∈ L := (List.mem_filter.mp hx).1
      unfold disconnect_frees
      by_cases h : (w.mem x).scsi_buff = NULL
      · simp [h]
      · simp [h]
        exact hsbL x hxL x hxL
    · have hnd : (L.filter c).Nodup := hL.filter _
      refine List.Pairwise.imp_of_mem ?_ hnd
      intro a b ha hb hab
      have haL : a ∈ L := (List.mem_filter.mp ha).1
      have hbL : b ∈ L := (List.mem_filter.mp hb).1
      intro x hxa hxb
      rw [mem_disconnect_frees] at hxa hxb
      rcases hxa with h1 | ⟨h1, _⟩ <;> rcases hxb with h2 | ⟨h2, _⟩
      · exact hab (h1.symm.trans h2)
      · exact hsbL b hbL a haL (h2.symm.trans h1)
      · exact hsbL a haL b hbL (h1.symm.trans h2)
      · exact hab (hinj a haL b hbL (h1.symm.trans h2))
  · intro r hr hc
    have hrf : r ∈ L.filter c := List.mem_filter.mpr ⟨hr, hc⟩
    constructor
    · exact List.mem_flatMap.mpr ⟨r, hrf, (mem_disconnect_frees w r r).mpr (Or.inl rfl)⟩
    · intro hsb
      exact List.mem_flatMap.mpr ⟨r, hrf, (mem_disconnect_frees w r _).mpr (Or.inr ⟨rfl, hsb⟩)⟩
  · intro r hr hc
    constructor
    · intro h
      obtain ⟨a, ha, hx⟩ := List.mem_flatMap.mp h
      have haL : a ∈ L := (List.mem_filter.mp ha).1
      rcases (mem_disconnect_frees w a r).mp hx with h1 | ⟨h1, _⟩
      · rw [h1] at hc
        exact hc (List.mem_filter.mp ha).2
      · exact hsbL a haL r hr h1.symm
    · intro h
      obtain ⟨a, ha, hx⟩ := List.mem_flatMap.mp h
      have haL : a ∈ L := (List.mem_filter.mp ha).1
      rcases (mem_disconnect_frees w a _).mp hx with h1 | ⟨h1, _⟩
      · exact hsbL r hr a haL h1
      · have := hinj r hr a haL h1
        rw [this] at hc
        exact hc (List.mem_filter.mp ha).2

/-- What `msc_disconnect` does on a duplicate-free Registry `L`, given fuel beyond the length
of `L`: the world it returns, read off the world it starts in. -/
theorem msc_disconnect_eq (E : Env) (w : World) (iface : Ptr) (L : List Ptr) (fuel : Nat)
    (hreg : registry w L) (hnd : L.Nodup) (hfuel : L.length < fuel) :
    ∃ w', msc_disconnect E fuel w iface = .ok w' ∧
      registry w' (L.filter (fun r => decide ((w.mem r).iface ≠ iface))) ∧
      (∀ q, (w'.mem q).data = (w.mem q).data) ∧
      w'.trace = w.trace ++
        (List.range (E.ifmem iface).aif.ifd.bNumEndpoints).map
          (fun i => Event.quit_xfer { iface := iface, idx := i }) ++
        (L.filter (fun r => decide ((w.mem r).iface = iface))).flatMap
          (disconnect_events E w) ∧
      w'.g_msc_conn_func = w.g_msc_conn_func ∧
      w'.g_msc_disconn_func = w.g_msc_disconn_func := by
  obtain ⟨qm, qg, qc, qd, qt⟩ :=
    quit_xfer_all_eq w iface (E.ifmem iface).aif.ifd.bNumEndpoints
  simp only [msc_disconnect]
  generalize quit_xfer_all w iface (E.ifmem iface).aif.ifd.bNumEndpoints = W0
    at qm qg qc qd qt ⊢
  have hreg0 : registry W0 ([] ++ L) := by
    unfold registry usbh_msc_get_device_list
    rw [qg]
    exact (is_chain_congr w W0 (fun q => by rw [qm]) _ _).mpr hreg
  obtain ⟨w', h1, h2, h3, h4, h5, h6⟩ := msc_disconnect_loop_spec E iface fuel L [] W0
    W0.g_msc_list fuel hreg0 hreg0 (by simpa using hnd) hfuel (by simp; omega)
  have hev : disconnect_events E W0 = disconnect_events E w := by
    funext r
    exact disconnect_events_congr E w W0 qd (fun q => by rw [qm]) r
  rw [qm, hev, qt] at h3
  rw [qm] at h2 h6
  exact ⟨w', h1, by simpa using h2, h6, h3, h4.trans qc, h5.trans qd⟩

/-- C6: for a duplicate-free Registry `L` and any interface, `msc_disconnect` returns (given
fuel beyond the length of `L`); afterwards the Registry is `L` without the records whose
`iface` member is the interface, the others in their old order; no record is modified apart
from its `next` linkage; the external calls are the `quit_xfer` calls followed, for each
removed record in Registry order, by the detach callback (if installed), one free of its
working buffer (if it has one) and one free of the record.  When the registered records and
their buffers are pairwise distinct blocks, every removed record and every removed record's
buffer is thus freed exactly once and nothing of a kept record is freed. -/
theorem msc_disconnect_removes (E : Env) (w : World) (iface : Ptr) (L : List Ptr) (fuel : Nat)
    (hreg : registry w L) (hnd : L.Nodup) (hfuel : L.length < fuel) :
    ∃ w', msc_disconnect E fuel w iface = .ok w' ∧
      registry w' (L.filter (fun r => decide ((w.mem r).iface ≠ iface))) ∧
      (∀ q, (w'.mem q).data = (w.mem q).data) ∧
      w'.trace = w.trace ++
        (List.range (E.ifmem iface).aif.ifd.bNumEndpoints).map
          (fun i => Event.quit_xfer { iface := iface, idx := i }) ++
        (L.filter (fun r => decide ((w.mem r).iface = iface))).flatMap
          (disconnect_events E w) ∧
      freed w'.trace = freed w.trace ++
        (L.filter (fun r => decide ((w.mem r).iface = iface))).flatMap (disconnect_frees w) ∧
      ((L ++ L.map (fun r => (w.mem r).scsi_buff)).Nodup →
        ((L.filter (fun r => decide ((w.mem r).iface = iface))).flatMap
          (disconnect_frees w)).Nodup ∧
        (∀ r, r ∈ L → (w.mem r).iface = iface →
          r ∈ (L.filter (fun r => decide ((w.mem r).iface = iface))).flatMap
            (disconnect_frees w) ∧
          ((w.mem r).scsi_buff ≠ NULL →
            (w.mem r).scsi_buff ∈
              (L.filter (fun r => decide ((w.mem r).iface = iface))).flatMap
                (disconnect_frees w))) ∧
        (∀ r, r ∈ L → (w.mem r).iface ≠ iface →
          r ∉ (L.filter (fun r => decide ((w.mem r).iface = iface))).flatMap
            (disconnect_frees w) ∧
          (w.mem r).scsi_buff ∉
            (L.filter (fun r => decide ((w.mem r).iface = iface))).flatMap
              (disconnect_frees w))) := by
  obtain ⟨w', h1, h2, h3, htr, _, _⟩ := msc_disconnect_eq E w iface L fuel hreg hnd hfuel
  refine ⟨w', h1, h2, h3, htr, ?_, ?_⟩
  · rw [htr, freed_append, freed_append, freed_quit_events, freed_flatMap]
    simp only [freed_disconnect_events, List.append_nil]
  · intro hown
    obtain ⟨a, b, c⟩ := disconnect_frees_exact w L
      (fun r => decide ((w.mem r).iface = iface)) hown
    refine ⟨a, fun r hr hi => b r hr (by simpa using hi), fun r hr hi => c r hr (by simpa using hi)⟩

/-- C6 on an example: the Registry is `[16, 48, 80]`, records 16 and 80 belong to interface
100.  Disconnecting interface 100 leaves the Registry `[48]` and frees buffer 32, record
16, buffer 96 and record 80, once each, and nothing of record 48 (buffer 64). -/
theorem msc_disconnect_removes_witness :
    ∃ w', msc_disconnect (example_env example_msc_iface 0 (0, []) (0, [])) 4
        example_world_three 100 = .ok w' ∧
      registry w' [48] ∧ freed w'.trace = [32, 16, 96, 80] ∧
      (w'.mem 48).data = (example_world_three.mem 48).data := by
  obtain ⟨w', h1, h2, h3, _, h5, _⟩ :=
    msc_disconnect_removes (example_env example_msc_iface 0 (0, []) (0, []))
      example_world_three 100 [16, 48, 80] 4 (by decide) (by decide) (by decide)
  exact ⟨w', h1, h2, h5, h3 48⟩

/-! ## Outstanding blocks -/

theorem outstanding_append (t u : List Event) :
    outstanding (t ++ u) = u.foldl outstanding_step (outstanding t) := by
  unfold outstanding
  rw [List.foldl_append]

theorem outstanding_fold_keep (u : List Event) :
    ∀ (acc : List Ptr) (x : Ptr), x ∈ acc → x ∉ freed u → x ∈ u.foldl outstanding_step acc := by
  induction u with
  | nil => intro acc x h _; exact h
  | cons e u ih =>
    intro acc x h hf
    rw [List.foldl_cons]
    cases e with
    | alloc sz p =>
      apply ih _ x _ (by simpa [freed] using hf)
      simp only [outstanding_step]
      split
      · exact h
      · exact List.mem_cons_of_mem _ h
    | free p sz =>
      have hf' : x ≠ p ∧ x ∉ freed u := by simpa [freed] using hf
      apply ih _ x _ hf'.2
      simp only [outstanding_step]
      exact List.mem_filter.mpr ⟨h, by simpa using hf'.1⟩
    | ticks t => exact ih _ x h (by simpa [freed] using hf)
    | ctrl_xfer r ret => exact ih _ x h (by simpa [freed] using hf)
    | clear_halt a b => exact ih _ x h (by simpa [freed] using hf)
    | quit_xfer ep => exact ih _ x h (by simpa [freed] using hf)
    | conn a b c => exact ih _ x h (by simpa [freed] using hf)
    | disconn a b c => exact ih _ x h (by simpa [freed] using hf)
    | scsi c ret => exact ih _ x h (by simpa [freed] using hf)

/-- A block outstanding before a run of events that does not free it is outstanding after. -/
theorem outstanding_keep (t u : List Event) (x : Ptr) (h : x ∈ outstanding t)
    (hf : x ∉ freed u) : x ∈ outstanding (t ++ u) := by
  rw [outstanding_append]
  exact outstanding_fold_keep u _ x h hf

/-- A block allocated and not freed by the events that follow is outstanding. -/
theorem outstanding_new (t u : List Event) (sz : Nat) (p : Ptr) (hp : p ≠ NULL)
    (hf : p ∉ freed u) : p ∈ outstanding (t ++ Event.alloc sz p :: u) := by
  rw [outstanding_append, List.foldl_cons]
  apply outstanding_fold_keep u _ p _ hf
  simp only [outstanding_step]
  rw [if_neg hp]
  exact List.mem_cons_self _ _

theorem outstanding_alloc (t : List Event) (sz : Nat) (p : Ptr) (hp : p ≠ NULL) :
    outstanding (t ++ [Event.alloc sz p]) = p :: outstanding t := by
  rw [outstanding_append]
  simp [outstanding_step, hp]

theorem outstanding_fold_ne_null (u : List Event) :
    ∀ (acc : List Ptr), NULL ∉ acc → NULL ∉ u.foldl outstanding_step acc := by
  induction u with
  | nil => intro acc h; exact h
  | cons e u ih =>
    intro acc h
    rw [List.foldl_cons]
    apply ih
    cases e with
    | alloc sz p =>
      simp only [outstanding_step]
      split
      · exact h
      · rename_i hp
        intro hm
        rcases List.mem_cons.mp hm with h1 | h1
        · exact hp h1.symm
        · exact h h1
    | free p sz =>
      simp only [outstanding_step]
      intro hm
      exact h (List.mem_filter.mp hm).1
    | ticks t => exact h
    | ctrl_xfer r ret => exact h
    | clear_halt a b => exact h
    | quit_xfer ep => exact h
    | conn a b c => exact h
    | disconn a b c => exact h
    | scsi c ret => exact h

/-- The null pointer is never outstanding. -/
theorem outstanding_ne_null (t : List Event) (x : Ptr) (h : x ∈ outstanding t) : x ≠ NULL := by
  intro hx
  rw [hx] at h
  exact outstanding_fold_ne_null t [] (by simp) h

/-! ## The registry invariant -/

/-- The invariant survives any step that keeps the head, the registered records and the
outstanding state of the registered blocks. -/
theorem attached_inv_frame (w w' : World) (A : List (Ptr × Ptr)) (hinv : attached_inv w A)
    (hg : w'.g_msc_list = w.g_msc_list)
    (hm : ∀ q, q ∈ A.map Prod.fst → w'.mem q = w.mem q)
    (ho : ∀ x, x ∈ A.map Prod.fst ++ (A.map Prod.fst).map (fun r => (w.mem r).scsi_buff) →
      x ∈ outstanding w.trace → x ∈ outstanding w'.trace) :
    attached_inv w' A := by
  obtain ⟨i1, i2, i3, i4⟩ := hinv
  have hsb : (A.map Prod.fst).map (fun r => (w'.mem r).scsi_buff)
      = (A.map Prod.fst).map (fun r => (w.mem r).scsi_buff) := by
    apply List.map_congr_left
    intro r hr
    rw [hm r hr]
  refine ⟨?_, ?_, ?_, ?_⟩
  · unfold registry usbh_msc_get_device_list
    rw [hg]
    exact (is_chain_congr_on w w' _ (fun q hq => by rw [hm q hq]) _).mpr i1
  · intro x hx
    rw [hm x.1 (List.mem_map_of_mem _ hx)]
    exact i2 x hx
  · rw [hsb]
    exact i3
  · rw [hsb]
    intro x hx
    exact ho x hx (i4 x hx)

/-- Under the allocator contract, a block just allocated is neither a registered record
nor a registered record's buffer. -/
theorem fresh_not_attached (w : World) (A : List (Ptr × Ptr)) (hinv : attached_inv w A)
    (p : Ptr) (hp : p = NULL ∨ p ∉ outstanding w.trace) (hne : p ≠ NULL) :
    p ∉ A.map Prod.fst ++ (A.map Prod.fst).map (fun r => (w.mem r).scsi_buff) := by
  intro h
  rcases hp with hp | hp
  · exact hne hp
  · exact hp (hinv.2.2.2 p h)

theorem freed_get_max_lun_events (E : Env) (w : World) (msc : Ptr) (x : Ptr)
    (h : x ∈ freed (get_max_lun_events E w msc)) : x = E.usbh_alloc_mem w.trace 2 := by
  unfold get_max_lun_events at h
  rw [freed_append] at h
  split at h
  · split at h <;> simp [freed] at h
  · simpa [freed] using h

theorem probe_msc_sane (E : Env) (hsane : alloc_sane E) (w : World) :
    probe_msc E w = NULL ∨ probe_msc E w ∉ outstanding w.trace :=
  hsane w.trace E.K.sizeof_MSC_T

theorem probe_scsi_buff_sane (E : Env) (hsane : alloc_sane E) (w : World) :
    probe_scsi_buff E w = NULL ∨
    probe_scsi_buff E w ∉ outstanding (w.trace ++ [Event.alloc E.K.sizeof_MSC_T (probe_msc E w)]) :=
  hsane (w.trace ++ [Event.alloc E.K.sizeof_MSC_T (probe_msc E w)]) E.K.SCSI_BUFF_LEN

/-- The invariant is kept by a probe that registers nothing: the head and every record but
the freshly allocated one are as before, and the calls made free at most the two fresh
blocks. -/
theorem attached_inv_probe_failed (E : Env) (hsane : alloc_sane E) (w : World)
    (A : List (Ptr × Ptr)) (hinv : attached_inv w A) (w' : World) (u : List Event)
    (hp : probe_msc E w ≠ NULL)
    (htr : w'.trace = w.trace ++ Event.alloc E.K.sizeof_MSC_T (probe_msc E w) :: u)
    (hu : ∀ x, x ∈ freed u → x = probe_msc E w ∨
      (x = probe_scsi_buff E w ∧ probe_scsi_buff E w ≠ NULL))
    (hg : w'.g_msc_list = w.g_msc_list)
    (hm : ∀ q, q ≠ probe_msc E w → w'.mem q = w.mem q) :
    attached_inv w' A := by
  have hfresh := fresh_not_attached w A hinv _ (probe_msc_sane E hsane w) hp
  apply attached_inv_frame w w' A hinv hg
  · intro q hq
    exact hm q (fun h => hfresh (List.mem_append_left _ (h ▸ hq)))
  · intro x hx hox
    rw [htr]
    apply outstanding_keep _ _ _ hox
    intro hf
    have hf' : x ∈ freed u := by simpa [freed] using hf
    rcases hu x hf' with h | ⟨h, hne⟩
    · exact hfresh (h ▸ hx)
    · rcases probe_scsi_buff_sane E hsane w with h0 | h0
      · exact hne h0
      · rw [outstanding_alloc _ _ _ hp] at h0
        exact h0 (List.mem_cons_of_mem _ (h ▸ hox))

/-- The invariant after a probe that registers: the new record, attached for the probed
interface, is in front. -/
theorem attached_inv_probe_ok (E : Env) (hsane : alloc_sane E) (w : World)
    (A : List (Ptr × Ptr)) (hinv : attached_inv w A) (iface : Ptr)
    (hchk : passes_checks E.K (E.ifmem iface).aif.ifd)
    (h1 : probe_msc E w ≠ NULL) (h2 : probe_scsi_buff E w ≠ NULL)
    (hrefs : ¬ (((probe_scanned E w iface).mem (probe_msc E w)).ep_bulk_in = none ∨
      ((probe_scanned E w iface).mem (probe_msc E w)).ep_bulk_out = none))
    (hbuf : max_lun_buffer_ok E (probe_ready E w iface) (probe_msc E w)) :
    ∃ res, msc_probe E w iface = .ok res ∧ res.1 = E.K.USBH_OK ∧
      res.2.g_msc_list = probe_msc E w ∧
      attached_inv res.2 ((probe_msc E w, iface) :: A) := by
  obtain ⟨res, hrun, hst, hg, htr, hq, hn, hi, hsb, _, _⟩ :=
    msc_probe_refs_found E w iface hchk h1 h2 hrefs hbuf
  have hfreshp := fresh_not_attached w A hinv _ (probe_msc_sane E hsane w) h1
  have hsane2 : probe_scsi_buff E w ∉ probe_msc E w :: outstanding w.trace := by
    rcases probe_scsi_buff_sane E hsane w with h0 | h0
    · exact absurd h0 h2
    · rw [outstanding_alloc _ _ _ h1] at h0
      exact h0
  have hpsb : probe_msc E w ≠ probe_scsi_buff E w := fun h =>
    hsane2 (h ▸ List.mem_cons_self _ _)
  have hfreshsb : probe_scsi_buff E w ∉
      A.map Prod.fst ++ (A.map Prod.fst).map (fun r => (w.mem r).scsi_buff) := fun h =>
    hsane2 (List.mem_cons_of_mem _ (hinv.2.2.2 _ h))
  have hnb : E.usbh_alloc_mem (probe_ready E w iface).trace 2 = NULL ∨
      E.usbh_alloc_mem (probe_ready E w iface).trace 2 ∉
        outstanding (probe_ready E w iface).trace := hsane _ 2
  have hfev := freed_get_max_lun_events E (probe_ready E w iface) (probe_msc E w)
  have hrt : (probe_ready E w iface).trace
      = w.trace ++ [Event.alloc E.K.sizeof_MSC_T (probe_msc E w),
                    Event.alloc E.K.SCSI_BUFF_LEN (probe_scsi_buff E w),
                    Event.ticks (probe_ticks E w)] := by
    rw [(probe_ready_eq E w iface).1, probe_scanned_trace]
  generalize E.usbh_alloc_mem (probe_ready E w iface).trace 2 = nb at hnb hfev
  rw [hrt] at hnb
  generalize get_max_lun_events E (probe_ready E w iface) (probe_msc E w) = evs at htr hfev
  obtain ⟨i1, i2, i3, i4⟩ := hinv
  have hmemL : ∀ r, r ∈ A.map Prod.fst → res.2.mem r = w.mem r := fun r hr =>
    hq r (fun h => hfreshp (List.mem_append_left _ (h ▸ hr)))
  have hsbL : (A.map Prod.fst).map (fun r => (res.2.mem r).scsi_buff)
      = (A.map Prod.fst).map (fun r => (w.mem r).scsi_buff) := by
    apply List.map_congr_left
    intro r hr
    rw [hmemL r hr]
  -- every block of interest is outstanding once the three first calls are made
  have hout3 : ∀ x, (x = probe_msc E w ∨ x = probe_scsi_buff E w ∨
        x ∈ A.map Prod.fst ++ (A.map Prod.fst).map (fun r => (w.mem r).scsi_buff)) →
      x ∈ outstanding (w.trace ++ [Event.alloc E.K.sizeof_MSC_T (probe_msc E w),
                    Event.alloc E.K.SCSI_BUFF_LEN (probe_scsi_buff E w),
                    Event.ticks (probe_ticks E w)]) := by
    intro x hx
    rcases hx with hx | hx | hx
    · rw [hx]
      apply outstanding_new _ _ _ _ h1
      simp [freed]
    · rw [hx]
      have := outstanding_new (w.trace ++ [Event.alloc E.K.sizeof_MSC_T (probe_msc E w)])
        [Event.ticks (probe_ticks E w)] E.K.SCSI_BUFF_LEN (probe_scsi_buff E w) h2
        (by simp [freed])
      simpa using this
    · apply outstanding_keep _ _ _ (i4 x hx)
      simp [freed]
  have hout : ∀ x, (x = probe_msc E w ∨ x = probe_scsi_buff E w ∨
        x ∈ A.map Prod.fst ++ (A.map Prod.fst).map (fun r => (w.mem r).scsi_buff)) →
      x ∈ outstanding res.2.trace := by
    intro x hx
    have h3 := hout3 x hx
    rw [htr, List.append_assoc]
    apply outstanding_keep _ _ _ h3
    rw [freed_append]
    intro hf
    rcases List.mem_append.mp hf with hf | hf
    · have hxnb := hfev x hf
      rcases hnb with h0 | h0
      · exact outstanding_ne_null _ x h3 (hxnb.trans h0)
      · exact h0 (hxnb ▸ h3)
    · split at hf <;> simp [freed] at hf
  refine ⟨res, hrun, hst, hg, ?_, ?_, ?_, ?_⟩
  · exact registry_cons_of w res.2 _ _ i1 h1
      (fun h => hfreshp (List.mem_append_left _ h)) hg hn hq
  · intro x hx
    rcases List.mem_cons.mp hx with h | h
    · rw [h]
      exact hi
    · rw [hmemL x.1 (List.mem_map_of_mem _ h)]
      exact i2 x h
  · simp only [List.map_cons]
    rw [hsb, hsbL]
    have hnd : (probe_msc E w :: probe_scsi_buff E w ::
        (A.map Prod.fst ++ (A.map Prod.fst).map (fun r => (w.mem r).scsi_buff))).Nodup := by
      refine List.nodup_cons.mpr ⟨?_, List.nodup_cons.mpr ⟨hfreshsb, i3⟩⟩
      intro h
      rcases List.mem_cons.mp h with h | h
      · exact hpsb h
      · exact hfreshp h
    refine hnd.perm ?_
    simp only [List.cons_append]
    refine List.Perm.cons _ ?_
    exact (List.perm_middle).symm
  · simp only [List.map_cons]
    rw [hsb, hsbL]
    intro x hx
    apply hout
    simp only [List.cons_append, List.mem_cons, List.mem_append] at hx
    rcases hx with hx | hx | hx | hx
    · exact Or.inl hx
    · exact Or.inr (Or.inr (List.mem_append_left _ hx))
    · exact Or.inr (Or.inl hx)
    · exact Or.inr (Or.inr (List.mem_append_right _ hx))

/-- Every `msc_probe` call that returns keeps the invariant; it attaches the head it leaves
exactly when it returns `USBH_OK`.  A call that does not return has read `nbuff[0]` through
the null pointer in `get_max_lun`. -/
theorem attached_inv_probe (E : Env) (hsane : alloc_sane E) (hK : ok_distinct E.K) (w : World)
    (A : List (Ptr × Ptr)) (iface : Ptr) (hinv : attached_inv w A) :
    (msc_probe E w iface = .error .null_deref ∧
      ¬ max_lun_buffer_ok E (probe_ready E w iface) (probe_msc E w)) ∨
    ∃ res, msc_probe E w iface = .ok res ∧
      attached_inv res.2
        (attach_step E.K A (LogEntry.probed iface res.1 (usbh_msc_get_device_list res.2))) ∧
      (attach_step E.K A
        (LogEntry.probed iface res.1 (usbh_msc_get_device_list res.2))).length
          ≤ A.length + 1 := by
  obtain ⟨k1, k2, k3, k4⟩ := hK
  by_cases hchk : passes_checks E.K (E.ifmem iface).aif.ifd
  · by_cases h1 : probe_msc E w = NULL
    · right
      refine ⟨_, msc_probe_record_alloc_fails E w iface hchk h1, ?_⟩
      simp only [attach_step]
      rw [if_neg (Ne.symm k3)]
      refine ⟨attached_inv_frame w _ A hinv rfl (fun _ _ => rfl) (fun x _ hx => ?_), by omega⟩
      exact outstanding_keep _ _ _ hx (by simp [freed])
    · by_cases h2 : probe_scsi_buff E w = NULL
      · right
        obtain ⟨res, hrun, hst, htr, hg, hq⟩ := msc_probe_buffer_alloc_fails E w iface hchk h1 h2
        refine ⟨res, hrun, ?_⟩
        simp only [attach_step]
        rw [hst, if_neg (Ne.symm k3)]
        refine ⟨attached_inv_probe_failed E hsane w A hinv _
          [Event.alloc E.K.SCSI_BUFF_LEN NULL] h1 htr (fun x hx => ?_) hg hq, by omega⟩
        simp [freed] at hx
      · by_cases hrefs : ((probe_scanned E w iface).mem (probe_msc E w)).ep_bulk_in = none ∨
            ((probe_scanned E w iface).mem (probe_msc E w)).ep_bulk_out = none
        · right
          obtain ⟨res, hrun, hst, htr, hg, _, hq⟩ :=
            msc_probe_refs_missing E w iface hchk h1 h2 hrefs
          refine ⟨res, hrun, ?_⟩
          simp only [attach_step]
          rw [hst, if_neg (Ne.symm k4)]
          refine ⟨attached_inv_probe_failed E hsane w A hinv _
            [Event.alloc E.K.SCSI_BUFF_LEN (probe_scsi_buff E w),
             Event.ticks (probe_ticks E w),
             Event.free (probe_scsi_buff E w) E.K.SCSI_BUFF_LEN,
             Event.free (probe_msc E w) E.K.sizeof_MSC_T] h1 htr (fun x hx => ?_) hg hq,
            by omega⟩
          simp [freed] at hx
          rcases hx with hx | hx
          · exact Or.inr ⟨hx, h2⟩
          · exact Or.inl hx
        · by_cases hbuf : max_lun_buffer_ok E (probe_ready E w iface) (probe_msc E w)
          · right
            obtain ⟨res, hrun, hst, hg, hok⟩ :=
              attached_inv_probe_ok E hsane w A hinv iface hchk h1 h2 hrefs hbuf
            refine ⟨res, hrun, ?_⟩
            simp only [attach_step, usbh_msc_get_device_list]
            rw [hst, if_pos rfl, hg]
            exact ⟨hok, by simp⟩
          · left
            exact ⟨msc_probe_null_buffer E w iface hchk h1 h2 hrefs hbuf, hbuf⟩
  · right
    refine ⟨_, msc_probe_of_failed_checks E w iface hchk, ?_⟩
    simp only [attach_step]
    have hne : ¬ (if (E.ifmem iface).aif.ifd.bInterfaceClass ≠ E.K.USB_CLASS_MASS_STORAGE
        then E.K.USBH_ERR_NOT_MATCHED else E.K.USBH_ERR_NOT_SUPPORTED) = E.K.USBH_OK := by
      split
      · exact Ne.symm k1
      · exact Ne.symm k2
    rw [if_neg hne]
    exact ⟨hinv, by omega⟩

theorem filter_map_fst (A : List (Ptr × Ptr)) (f : Ptr → Ptr) (c : Ptr → Bool)
    (h : ∀ x, x ∈ A → f x.1 = x.2) :
    (A.filter (fun x => c x.2)).map Prod.fst = (A.map Prod.fst).filter (fun r => c (f r)) := by
  induction A with
  | nil => rfl
  | cons a A ih =>
    have ha : f a.1 = a.2 := h a (List.mem_cons_self _ _)
    have ih' := ih (fun x hx => h x (List.mem_cons_of_mem _ hx))
    simp only [List.filter_cons, List.map_cons, ha]
    split
    · simp only [List.map_cons, ih']
    · exact ih'

/-- Every `msc_disconnect` call returns and keeps the invariant; it detaches the records
attached for the interface. -/
theorem attached_inv_disconnect (E : Env) (w : World) (A : List (Ptr × Ptr)) (iface : Ptr)
    (fuel : Nat) (hinv : attached_inv w A) (hfuel : A.length < fuel) :
    ∃ w1, msc_disconnect E fuel w iface = .ok w1 ∧
      attached_inv w1 (A.filter (fun x => decide (x.2 ≠ iface))) := by
  obtain ⟨i1, i2, i3, i4⟩ := hinv
  have hnd : (A.map Prod.fst).Nodup := (List.nodup_append.mp i3).1
  obtain ⟨w1, h1, h2, h3, htr, _, _⟩ := msc_disconnect_eq E w iface (A.map Prod.fst) fuel i1 hnd
    (by simpa using hfuel)
  have hL : (A.filter (fun x => decide (x.2 ≠ iface))).map Prod.fst
      = (A.map Prod.fst).filter (fun r => decide ((w.mem r).iface ≠ iface)) :=
    filter_map_fst A (fun r => (w.mem r).iface) (fun j => decide (j ≠ iface)) i2
  have hsb : ∀ l : List Ptr, l.map (fun r => (w1.mem r).scsi_buff)
      = l.map (fun r => (w.mem r).scsi_buff) := by
    intro l
    apply List.map_congr_left
    intro r _
    exact data_scsi_buff _ _ (h3 r)
  have hsub : ((A.map Prod.fst).filter (fun r => decide ((w.mem r).iface ≠ iface))).Sublist
      (A.map Prod.fst) := List.filter_sublist _
  obtain ⟨_, _, hkept⟩ := disconnect_frees_exact w (A.map Prod.fst)
    (fun r => decide ((w.mem r).iface = iface)) i3
  refine ⟨w1, h1, ?_, ?_, ?_, ?_⟩
  · rw [hL]
    exact h2
  · intro x hx
    rw [data_iface _ _ (h3 x.1)]
    exact i2 x (List.mem_filter.mp hx).1
  · rw [hL, hsb]
    exact i3.sublist (List.Sublist.append hsub (hsub.map _))
  · rw [hL, hsb]
    intro x hx
    have hx' : x ∈ A.map Prod.fst ++ (A.map Prod.fst).map (fun r => (w.mem r).scsi_buff) :=
      (List.Sublist.append hsub (hsub.map _)).subset hx
    rw [htr, List.append_assoc]
    apply outstanding_keep _ _ _ (i4 x hx')
    rw [freed_append, freed_quit_events, freed_flatMap]
    simp only [freed_disconnect_events, List.nil_append]
    rcases List.mem_append.mp hx with hm | hm
    · obtain ⟨hxl, hxc⟩ := List.mem_filter.mp hm
      exact (hkept x hxl (by simpa using hxc)).1
    · obtain ⟨r, hr, hrx⟩ := List.mem_map.mp hm
      obtain ⟨hrl, hrc⟩ := List.mem_filter.mp hr
      rw [← hrx]
      exact (hkept r hrl (by simpa using hrc)).2

/-- Every sequence of calls, given fuel beyond the number of attached records plus the number
of calls, either returns and keeps the invariant, or stops in a `msc_probe` call whose
`get_max_lun` reads `nbuff[0]` through the null pointer. -/
theorem run_calls_inv (E : Env) (hsane : alloc_sane E) (hK : ok_distinct E.K) (fuel : Nat) :
    ∀ (cs : List Call) (w : World) (A : List (Ptr × Ptr)), attached_inv w A →
      A.length + cs.length < fuel →
      (run_calls E fuel cs w = .error .null_deref ∧
        ∃ w1 msc, ¬ max_lun_buffer_ok E w1 msc) ∨
      ∃ w' log, run_calls E fuel cs w = .ok (w', log) ∧
        attached_inv w' (log.foldl (attach_step E.K) A) := by
  intro cs
  induction cs with
  | nil =>
    intro w A hinv _
    exact Or.inr ⟨w, [], rfl, hinv⟩
  | cons c cs ih =>
    intro w A hinv hfuel
    simp only [List.length_cons] at hfuel
    cases c with
    | probe i =>
      rcases attached_inv_probe E hsane hK w A i hinv with ⟨hf, hb⟩ | ⟨res, hres, hinv', hlen⟩
      · left
        refine ⟨?_, _, _, hb⟩
        simp only [run_calls, hf]
      · obtain ⟨status, w1⟩ := res
        rcases ih _ _ hinv' (by omega) with ⟨hf, hb⟩ | ⟨w', log, hrun, hfin⟩
        · left
          refine ⟨?_, hb⟩
          simp only [run_calls, hres, hf]
        · right
          refine ⟨w', LogEntry.probed i status (usbh_msc_get_device_list w1) :: log, ?_, ?_⟩
          · simp only [run_calls, hres, hrun]
          · rw [List.foldl_cons]
            exact hfin
    | disconnect i =>
      obtain ⟨w1, hd, hinv'⟩ := attached_inv_disconnect E w A i fuel hinv (by omega)
      have hlen : (A.filter (fun x => decide (x.2 ≠ i))).length ≤ A.length :=
        List.length_filter_le _ _
      rcases ih _ _ hinv' (by omega) with ⟨hf, hb⟩ | ⟨w', log, hrun, hfin⟩
      · left
        refine ⟨?_, hb⟩
        simp only [run_calls, hd, hf]
      · right
        refine ⟨w', LogEntry.disconnected i :: log, ?_, ?_⟩
        · simp only [run_calls, hd, hrun]
        · rw [List.foldl_cons]
          exact hfin
    | install c d =>
      have hinv' : attached_inv (usbh_install_msc_conn_callback w c d) A :=
        attached_inv_frame w _ A hinv rfl (fun _ _ => rfl) (fun _ _ hx => hx)
      rcases ih _ _ hinv' (by omega) with ⟨hf, hb⟩ | ⟨w', log, hrun, hfin⟩
      · left
        refine ⟨?_, hb⟩
        simp only [run_calls, hf]
      · right
        refine ⟨w', LogEntry.installed c d :: log, ?_, ?_⟩
        · simp only [run_calls, hrun]
        · rw [List.foldl_cons]
          exact hfin

/-- A pair is attached after a log exactly when it was attached before and its interface
was not disconnected, or a probe of the log that returned `USBH_OK` attached it and its
interface was not disconnected afterwards. -/
theorem mem_attached_fold (K : Consts) (log : List LogEntry) :
    ∀ (A : List (Ptr × Ptr)) (r i : Ptr),
      (r, i) ∈ log.foldl (attach_step K) A ↔
        ((r, i) ∈ A ∧ LogEntry.disconnected i ∉ log) ∨
        ∃ pre post, log = pre ++ LogEntry.probed i K.USBH_OK r :: post ∧
          LogEntry.disconnected i ∉ post := by
  induction log with
  | nil =>
    intro A r i
    simp
  | cons e log ih =>
    intro A r i
    rw [List.foldl_cons, ih]
    constructor
    · rintro (⟨hm, hd⟩ | ⟨pre, post, hlog, hd⟩)
      · cases e with
        | probed i' s r' =>
          simp only [attach_step] at hm
          split at hm
          · rename_i hs
            rcases List.mem_cons.mp hm with h | h
            · right
              refine ⟨[], log, ?_, hd⟩
              have h1 : r = r' := congrArg Prod.fst h
              have h2 : i = i' := congrArg Prod.snd h
              rw [h1, h2, hs]
              rfl
            · left
              exact ⟨h, by simpa using hd⟩
          · left
            exact ⟨hm, by simpa using hd⟩
        | disconnected i' =>
          simp only [attach_step] at hm
          obtain ⟨hA, hne⟩ := List.mem_filter.mp hm
          left
          refine ⟨hA, ?_⟩
          intro hin
          rcases List.mem_cons.mp hin with h | h
          · have : i = i' := by injection h
            simp [this] at hne
          · exact hd h
        | installed c d =>
          left
          exact ⟨hm, by simpa using hd⟩
      · right
        exact ⟨e :: pre, post, by rw [hlog]; rfl, hd⟩
    · rintro (⟨hm, hd⟩ | ⟨pre, post, hlog, hd⟩)
      · left
        have hd1 : LogEntry.disconnected i ≠ e := fun h => hd (h ▸ List.mem_cons_self _ _)
        have hd2 : LogEntry.disconnected i ∉ log := fun h => hd (List.mem_cons_of_mem _ h)
        refine ⟨?_, hd2⟩
        cases e with
        | probed i' s r' =>
          simp only [attach_step]
          split
          · exact List.mem_cons_of_mem _ hm
          · exact hm
        | disconnected i' =>
          simp only [attach_step]
          refine List.mem_filter.mpr ⟨hm, ?_⟩
          have : i ≠ i' := fun h => hd1 (by rw [h])
          simpa using this
        | installed c d => exact hm
      · rcases List.cons_eq_append_iff.mp hlog with ⟨hpre, h⟩ | ⟨pre', hpre, h⟩
        · left
          have he : e = LogEntry.probed i K.USBH_OK r := (List.cons_eq_cons.mp h).1.symm
          have hpost : log = post := (List.cons_eq_cons.mp h).2.symm
          refine ⟨?_, hpost ▸ hd⟩
          rw [he]
          simp [attach_step]
        · right
          exact ⟨pre', post, h, hd⟩

theorem run_calls_log (E : Env) (fuel : Nat) :
    ∀ (cs : List Call) (w w' : World) (log : List LogEntry),
      run_calls E fuel cs w = .ok (w', log) → log.map LogEntry.call = cs := by
  intro cs
  induction cs with
  | nil =>
    intro w w' log h
    simp only [run_calls, Except.ok.injEq, Prod.mk.injEq] at h
    rw [← h.2]
    rfl
  | cons c cs ih =>
    intro w w' log h
    cases c with
    | probe i =>
      simp only [run_calls] at h
      split at h
      · cases h
      · split at h
        · cases h
        · rename_i w2 log2 hrun
          simp only [Except.ok.injEq, Prod.mk.injEq] at h
          rw [← h.2]
          simp [LogEntry.call, ih _ _ _ hrun]
    | disconnect i =>
      simp only [run_calls] at h
      split at h
      · cases h
      · split at h
        · cases h
        · rename_i w2 log2 hrun
          simp only [Except.ok.injEq, Prod.mk.injEq] at h
          rw [← h.2]
          simp [LogEntry.call, ih _ _ _ hrun]
    | install c d =>
      simp only [run_calls] at h
      split at h
      · cases h
      · rename_i w2 log2 hrun
        simp only [Except.ok.injEq, Prod.mk.injEq] at h
        rw [← h.2]
        simp [LogEntry.call, ih _ _ _ hrun]

theorem attached_inv_init (w0 : World) : attached_inv (usbh_umas_init w0) [] := by
  refine ⟨rfl, ?_, ?_, ?_⟩
  · intro x hx
    cases hx
  · simp
  · intro x hx
    simp at hx

/-- C7: start from `usbh_umas_init` and make any finite sequence of `msc_probe`,
`msc_disconnect` (and callback installation) calls, the allocator returning on success a
block that is not outstanding and `USBH_OK` differing from the error statuses.  Given fuel
beyond the number of calls, the sequence stops early only in a `msc_probe` call whose
`get_max_lun` reads `nbuff[0]` through a null pointer (which needs an environment where that
happens).  Otherwise every call returns, and afterwards a device record is in the Registry
if and only if some `msc_probe` call returned `USBH_OK` with that record as the new head and
no later `msc_disconnect` call was made on the interface of that probe; the Registry has no
record twice. -/
theorem registry_iff_probed_not_disconnected (E : Env) (hsane : alloc_sane E)
    (hK : ok_distinct E.K) (calls : List Call) (w0 : World) (fuel : Nat)
    (hfuel : calls.length < fuel) :
    (run_calls E fuel calls (usbh_umas_init w0) = .error .null_deref ∧
      ∃ w1 msc, ¬ max_lun_buffer_ok E w1 msc) ∨
    ∃ w log L, run_calls E fuel calls (usbh_umas_init w0) = .ok (w, log) ∧
      log.map LogEntry.call = calls ∧ registry w L ∧ L.Nodup ∧
      ∀ r, r ∈ L ↔
        ∃ i pre post, log = pre ++ LogEntry.probed i E.K.USBH_OK r :: post ∧
          LogEntry.disconnected i ∉ post := by
  rcases run_calls_inv E hsane hK fuel calls (usbh_umas_init w0) [] (attached_inv_init w0)
    (by simpa using hfuel) with hfault | ⟨w, log, hrun, hreg, _, hnd, _⟩
  · exact Or.inl hfault
  right
  refine ⟨w, log, _, hrun, run_calls_log E fuel calls _ _ _ hrun, hreg,
    (List.nodup_append.mp hnd).1, fun r => ?_⟩
  constructor
  · intro hr
    obtain ⟨x, hx, hxr⟩ := List.mem_map.mp hr
    have hx' : (r, x.2) ∈ log.foldl (attach_step E.K) [] := by
      rw [← hxr]
      exact hx
    rcases (mem_attached_fold E.K log [] r x.2).mp hx' with ⟨h, _⟩ | ⟨pre, post, h1, h2⟩
    · cases h
    · exact ⟨x.2, pre, post, h1, h2⟩
  · rintro ⟨i, pre, post, h1, h2⟩
    have := (mem_attached_fold E.K log [] r i).mpr (Or.inr ⟨pre, post, h1, h2⟩)
    exact List.mem_map.mpr ⟨(r, i), this, rfl⟩

theorem le_sum_of_mem_ptrs (l : List Ptr) (x : Ptr) (h : x ∈ l) : x ≤ l.sum := by
  induction l with
  | nil => cases h
  | cons a l ih =>
    rw [List.sum_cons]
    rcases List.mem_cons.mp h with h | h
    · rw [h]
      exact Nat.le_add_right _ _
    · exact Nat.le_trans (ih h) (Nat.le_add_left _ _)

theorem outstanding_fold_subset (u : List Event) :
    ∀ (acc : List Ptr) (x : Ptr), x ∈ u.foldl outstanding_step acc →
      x ∈ acc ∨ x ∈ allocated u := by
  induction u with
  | nil => intro acc x h; exact Or.inl h
  | cons e u ih =>
    intro acc x h
    rw [List.foldl_cons] at h
    rcases ih _ x h with h1 | h1
    · cases e with
      | alloc sz p =>
        simp only [outstanding_step] at h1
        simp only [allocated]
        split at h1
        · exact Or.inl h1
        · rename_i hp
          rw [if_neg hp]
          rcases List.mem_cons.mp h1 with h2 | h2
          · exact Or.inr (h2 ▸ List.mem_cons_self _ _)
          · exact Or.inl h2
      | free p sz =>
        simp only [outstanding_step] at h1
        exact Or.inl (List.mem_filter.mp h1).1
      | ticks t => exact Or.inl h1
      | ctrl_xfer r ret => exact Or.inl h1
      | clear_halt a b => exact Or.inl h1
      | quit_xfer ep => exact Or.inl h1
      | conn a b c => exact Or.inl h1
      | disconn a b c => exact Or.inl h1
      | scsi c ret => exact Or.inl h1
    · right
      cases e with
      | alloc sz p =>
        simp only [allocated]
        split
        · exact h1
        · exact List.mem_cons_of_mem _ h1
      | free p sz => exact h1
      | ticks t => exact h1
      | ctrl_xfer r ret => exact h1
      | clear_halt a b => exact h1
      | quit_xfer ep => exact h1
      | conn a b c => exact h1
      | disconn a b c => exact h1
      | scsi c ret => exact h1

/-- The example allocator satisfies the allocator contract. -/
theorem example_env_fresh_sane : alloc_sane example_env_fresh := by
  intro t size
  right
  intro h
  rcases outstanding_fold_subset t [] _ h with h1 | h1
  · cases h1
  · have h2 : (allocated t).sum + 1 ≤ (allocated t).sum := le_sum_of_mem_ptrs _ _ h1
    exact absurd h2 (Nat.not_succ_le_self _)

/-- C7 on an example: with the example allocator, which never fails, probing interfaces
100 and 200 and then disconnecting interface 100 returns, and the Registry holds, once each,
exactly the records that a probe returning `USBH_OK` registered and whose interface was not
disconnected afterwards. -/
theorem registry_iff_probed_not_disconnected_witness :
    ∃ w log L,
      run_calls example_env_fresh 4 [Call.probe 100, Call.probe 200, Call.disconnect 100]
        (usbh_umas_init example_world) = .ok (w, log) ∧
      log.map LogEntry.call = [Call.probe 100, Call.probe 200, Call.disconnect 100] ∧
      registry w L ∧ L.Nodup ∧
      ∀ r, r ∈ L ↔
        ∃ i pre post, log = pre ++ LogEntry.probed i example_consts.USBH_OK r :: post ∧
          LogEntry.disconnected i ∉ post := by
  rcases registry_iff_probed_not_disconnected example_env_fresh example_env_fresh_sane
    (by unfold ok_distinct; decide)
    [Call.probe 100, Call.probe 200, Call.disconnect 100] example_world 4 (by decide)
    with ⟨_, w1, msc, hb⟩ | h
  · exact absurd (Or.inr (Nat.succ_ne_zero _)) hb
  · exact h

/-! ## Sector read / write: transfer length against data length -/

/-- The two transfer-length bytes of the READ(10) and WRITE(10) command blocks, for a
non-negative count. -/
theorem rw10_transfer_length (K : Consts) (lun sec_no n : Nat) :
    (read_cmd_blk K lun sec_no (n : Int)).CDB.getD 7 0 = n / 256 % 256 ∧
    (read_cmd_blk K lun sec_no (n : Int)).CDB.getD 8 0 = n % 256 ∧
    (write_cmd_blk K lun sec_no (n : Int)).CDB.getD 7 0 = n / 256 % 256 ∧
    (write_cmd_blk K lun sec_no (n : Int)).CDB.getD 8 0 = n % 256 := by
  simp only [read_cmd_blk, write_cmd_blk, rw10_fields, bulk_cb_wrap.zero, List.replicate,
    List.set, int_shiftRight_ofNat, int_land_0xFF_ofNat, store8_int_ofNat,
    Nat.shiftRight_eq_div_pow, List.getD_cons_succ, List.getD_cons_zero]
  simp only [Nat.mod_mod]
  norm_num

/-- C17: for a non-null device record and a count with `0 ≤ count < 2^22`, both
`usbh_umas_read` and `usbh_umas_write` request `count * 512` bytes from the Executor while
the transfer length encoded in CDB[7..8] is `count` modulo `2^16`; the requested data
length equals 512 times the encoded transfer length if and only if `count ≤ 65535`. -/
theorem usbh_umas_length_agrees_iff (E : Env) (w : World) (msc : Ptr) (sec_no : Nat)
    (sec_cnt : Int) (buff : Ptr) (hmsc : msc ≠ NULL) (h0 : 0 ≤ sec_cnt)
    (h1 : sec_cnt < 2 ^ 22) :
    ∃ cr cw : ScsiCall,
      scsi_calls (usbh_umas_read E w msc sec_no sec_cnt buff).2.trace
        = scsi_calls w.trace ++ [cr] ∧
      scsi_calls (usbh_umas_write E w msc sec_no sec_cnt buff).2.trace
        = scsi_calls w.trace ++ [cw] ∧
      cr.data_len = sec_cnt * 512 ∧ cw.data_len = sec_cnt * 512 ∧
      ((cr.cmd_blk.CDB.getD 7 0 * 256 + cr.cmd_blk.CDB.getD 8 0 : Nat) : Int)
        = sec_cnt % 65536 ∧
      ((cw.cmd_blk.CDB.getD 7 0 * 256 + cw.cmd_blk.CDB.getD 8 0 : Nat) : Int)
        = sec_cnt % 65536 ∧
      (cr.data_len
          = 512 * ((cr.cmd_blk.CDB.getD 7 0 * 256 + cr.cmd_blk.CDB.getD 8 0 : Nat) : Int)
        ↔ sec_cnt ≤ 65535) ∧
      (cw.data_len
          = 512 * ((cw.cmd_blk.CDB.getD 7 0 * 256 + cw.cmd_blk.CDB.getD 8 0 : Nat) : Int)
        ↔ sec_cnt ≤ 65535) := by
  obtain ⟨n, rfl⟩ := Int.eq_ofNat_of_zero_le h0
  have hn : n < 2 ^ 22 := by exact_mod_cast h1
  obtain ⟨r7, r8, w7, w8⟩ := rw10_transfer_length E.K (w.mem msc).lun sec_no n
  have hlen : wrap_int32 ((n : Int) * 512) = (n : Int) * 512 := by
    simp only [wrap_int32]
    omega
  refine ⟨{ msc := msc, cmd_blk := read_cmd_blk E.K (w.mem msc).lun sec_no n, buff := buff,
            data_len := wrap_int32 ((n : Int) * 512), bIsDataIn := 1, timeout_ticks := 500 },
          { msc := msc, cmd_blk := write_cmd_blk E.K (w.mem msc).lun sec_no n, buff := buff,
            data_len := wrap_int32 ((n : Int) * 512), bIsDataIn := 0, timeout_ticks := 500 },
          ?_, ?_, hlen, hlen, ?_, ?_, ?_, ?_⟩
  · rw [(usbh_umas_read_eq E w msc sec_no n buff hmsc).1, scsi_calls_append]
    rfl
  · rw [(usbh_umas_write_eq E w msc sec_no n buff hmsc).1, scsi_calls_append]
    rfl
  · simp only [r7, r8]
    omega
  · simp only [w7, w8]
    omega
  · simp only [r7, r8, hlen]
    omega
  · simp only [w7, w8, hlen]
    omega

/-- C17 on two counts: with `count = 65536` the CDB encodes transfer length 0 while
33554432 bytes are requested; with `count = 3` both agree (1536 bytes, length 3). -/
theorem usbh_umas_length_agrees_iff_witness :
    (∃ cr cw : ScsiCall,
      scsi_calls (usbh_umas_read (example_env example_msc_iface 0 (0, []) (0, []))
        example_world 16 0 65536 0).2.trace = [cr] ∧
      scsi_calls (usbh_umas_write (example_env example_msc_iface 0 (0, []) (0, []))
        example_world 16 0 65536 0).2.trace = [cw] ∧
      cr.data_len = 33554432 ∧ cr.cmd_blk.CDB.getD 7 0 * 256 + cr.cmd_blk.CDB.getD 8 0 = 0 ∧
      cw.data_len = 33554432 ∧ cw.cmd_blk.CDB.getD 7 0 * 256 + cw.cmd_blk.CDB.getD 8 0 = 0) ∧
    (∃ cr cw : ScsiCall,
      scsi_calls (usbh_umas_read (example_env example_msc_iface 0 (0, []) (0, []))
        example_world 16 0 3 0).2.trace = [cr] ∧
      scsi_calls (usbh_umas_write (example_env example_msc_iface 0 (0, []) (0, []))
        example_world 16 0 3 0).2.trace = [cw] ∧
      cr.data_len = 1536 ∧ cr.cmd_blk.CDB.getD 7 0 * 256 + cr.cmd_blk.CDB.getD 8 0 = 3 ∧
      cw.data_len = 1536 ∧ cw.cmd_blk.CDB.getD 7 0 * 256 + cw.cmd_blk.CDB.getD 8 0 = 3) := by
  constructor
  · obtain ⟨cr, cw, h1, h2, h3, h4, h5, h6, _, _⟩ :=
      usbh_umas_length_agrees_iff (example_env example_msc_iface 0 (0, []) (0, []))
        example_world 16 0 65536 0 (by decide) (by norm_num) (by norm_num)
    refine ⟨cr, cw, ?_, ?_, ?_, ?_, ?_, ?_⟩
    · simpa [example_world, scsi_calls] using h1
    · simpa [example_world, scsi_calls] using h2
    · rw [h3]; norm_num
    · have : ((cr.cmd_blk.CDB.getD 7 0 * 256 + cr.cmd_blk.CDB.getD 8 0 : Nat) : Int) = 0 := by
        rw [h5]; norm_num
      exact_mod_cast this
    · rw [h4]; norm_num
    · have : ((cw.cmd_blk.CDB.getD 7 0 * 256 + cw.cmd_blk.CDB.getD 8 0 : Nat) : Int) = 0 := by
        rw [h6]; norm_num
      exact_mod_cast this
  · obtain ⟨cr, cw, h1, h2, h3, h4, h5, h6, _, _⟩ :=
      usbh_umas_length_agrees_iff (example_env example_msc_iface 0 (0, []) (0, []))
        example_world 16 0 3 0 (by decide) (by norm_num) (by norm_num)
    refine ⟨cr, cw, ?_, ?_, ?_, ?_, ?_, ?_⟩
    · simpa [example_world, scsi_calls] using h1
    · simpa [example_world, scsi_calls] using h2
    · rw [h3]; norm_num
    · have : ((cr.cmd_blk.CDB.getD 7 0 * 256 + cr.cmd_blk.CDB.getD 8 0 : Nat) : Int) = 3 := by
        rw [h5]; norm_num
      exact_mod_cast this
    · rw [h4]; norm_num
    · have : ((cw.cmd_blk.CDB.getD 7 0 * 256 + cw.cmd_blk.CDB.getD 8 0 : Nat) : Int) = 3 := by
        rw [h6]; norm_num
      exact_mod_cast this

/-! ## Registry removal of a record that is not registered -/

/-- On an empty Registry, `msc_list_remove` of a non-null record reads `p->next` through the
null list head. -/
theorem msc_list_remove_empty (w : World) (msc : Ptr) (fuel : Nat) (hreg : registry w [])
    (hmsc : msc ≠ NULL) : msc_list_remove (fuel + 1) w msc = .error Fault.null_deref := by
  have hhead : w.g_msc_list = NULL := hreg
  simp only [msc_list_remove]
  rw [if_neg (by rw [hhead]; exact Ne.symm hmsc), hhead]
  simp only [msc_list_remove_scan, if_true]

/-- The scan of `msc_list_remove` over a chain that does not contain `msc`: it stops at the
last record, whose `next` is null. -/
theorem msc_list_remove_scan_absent (w : World) (msc : Ptr) :
    ∀ (l : List Ptr) (p : Ptr) (fuel : Nat), l ≠ [] → is_chain w p l → msc ∉ l →
      l.length ≤ fuel →
      ∃ q, msc_list_remove_scan w msc fuel p = .ok q ∧ (w.mem q).next = NULL := by
  intro l
  induction l with
  | nil => intro p fuel h; exact absurd rfl h
  | cons a l ih =>
    intro p fuel _ hch hnot hfuel
    obtain ⟨hp, ha, hrest⟩ := hch
    subst hp
    obtain ⟨fuel', rfl⟩ : ∃ f, fuel = f + 1 := ⟨fuel - 1, by simp at hfuel; omega⟩
    cases l with
    | nil =>
      have hnext : (w.mem p).next = NULL := hrest
      refine ⟨p, ?_, hnext⟩
      simp only [msc_list_remove_scan]
      rw [if_neg ha, if_neg (by simp [hnext])]
    | cons b l2 =>
      have hb : (w.mem p).next = b := hrest.1
      have hbne : b ≠ NULL := hrest.2.1
      have hbmsc : b ≠ msc := fun h => hnot (by simp [h])
      have hrest' : is_chain w b (b :: l2) := by
        have h := hrest
        rw [hb] at h
        exact h
      obtain ⟨q, hq1, hq2⟩ := ih b fuel' (by simp) hrest'
        (fun h => hnot (List.mem_cons_of_mem _ h)) (by simp at hfuel ⊢; omega)
      refine ⟨q, ?_, hq2⟩
      simp only [msc_list_remove_scan]
      rw [if_neg ha, if_pos (by rw [hb]; exact ⟨hbmsc, hbne⟩), hb]
      exact hq1

/-- On a non-empty Registry, `msc_list_remove` of a non-null record that is not registered
returns and changes nothing. -/
theorem msc_list_remove_not_registered (w : World) (msc : Ptr) (l : List Ptr) (fuel : Nat)
    (hreg : registry w l) (hl : l ≠ []) (hmsc : msc ≠ NULL) (hnot : msc ∉ l)
    (hfuel : l.length ≤ fuel) : msc_list_remove fuel w msc = .ok w := by
  have hhead : w.g_msc_list ≠ msc := by
    cases l with
    | nil => exact absurd rfl hl
    | cons a l =>
      have h : w.g_msc_list = a := hreg.1
      rw [h]
      exact fun h2 => hnot (by simp [h2])
  obtain ⟨q, hq1, hq2⟩ := msc_list_remove_scan_absent w msc l w.g_msc_list fuel hl hreg
    hnot hfuel
  simp only [msc_list_remove]
  rw [if_neg hhead, hq1]
  simp only []
  rw [if_neg (by rw [hq2]; exact Ne.symm hmsc)]

/-- C12 as stated fails: the Registry is empty and the record at address 16 is (hence) not
in it, and `msc_list_remove` does not complete: it reads `p->next` through the null list
head. -/
theorem msc_list_remove_faults_on_empty :
    registry example_world [] ∧ (16 : Ptr) ≠ NULL ∧
    msc_list_remove 8 example_world 16 = .error Fault.null_deref :=
  ⟨by decide, by decide, msc_list_remove_empty example_world 16 7 (by decide) (by decide)⟩

/-- C12, amended: for every non-empty Registry `l` and every device record that is not in
it, `msc_list_remove` returns (given fuel for the scan) without fault and leaves the world,
hence the Registry, unchanged; for a record that is in a duplicate-free Registry it returns
with exactly that record unlinked, the others in their order, and no record's contents
changed. -/
theorem msc_list_remove_nonempty (w : World) (msc : Ptr) (l : List Ptr) (fuel : Nat)
    (hreg : registry w l) (hmsc : msc ≠ NULL) (hfuel : l.length ≤ fuel) :
    (l ≠ [] → msc ∉ l → msc_list_remove fuel w msc = .ok w ∧ registry w l) ∧
    (l.Nodup → ∀ pre post, l = pre ++ msc :: post →
      ∃ w', msc_list_remove fuel w msc = .ok w' ∧ registry w' (pre ++ post) ∧
        w'.trace = w.trace ∧ (∀ q, (w'.mem q).data = (w.mem q).data)) := by
  constructor
  · intro hl hnot
    exact ⟨msc_list_remove_not_registered w msc l fuel hreg hl hmsc hnot hfuel, hreg⟩
  · intro hnd pre post hlp
    subst hlp
    obtain ⟨w', h1, h2, h3, _, _, h6, _⟩ :=
      msc_list_remove_registered w msc pre post fuel hreg hnd
        (by simp at hfuel; omega)
    exact ⟨w', h1, h2, h3, h6⟩

/-- C12 amended, on the example Registry `[16, 48, 80]`: removing the absent record 99
changes nothing, removing record 48 leaves `[16, 80]`. -/
theorem msc_list_remove_nonempty_witness :
    (msc_list_remove 8 example_world_three 99 = .ok example_world_three ∧
      registry example_world_three [16, 48, 80]) ∧
    (∃ w', msc_list_remove 8 example_world_three 48 = .ok w' ∧ registry w' [16, 80]) := by
  constructor
  · exact (msc_list_remove_nonempty example_world_three 99 [16, 48, 80] 8 (by decide)
      (by decide) (by decide)).1 (by decide) (by decide)
  · obtain ⟨w', h1, h2, _⟩ :=
      (msc_list_remove_nonempty example_world_three 48 [16, 48, 80] 8 (by decide)
        (by decide) (by decide)).2 (by decide) [16] [80] rfl
    exact ⟨w', h1, h2⟩

/-! ## `get_max_lun`: a best-effort request -/

/-- The record `msc_probe` registers on the accepted path: the record `get_max_lun` left,
linked to the old head. -/
theorem msc_probe_refs_found_record (E : Env) (w : World) (iface : Ptr)
    (hchk : passes_checks E.K (E.ifmem iface).aif.ifd)
    (h1 : probe_msc E w ≠ NULL) (h2 : probe_scsi_buff E w ≠ NULL)
    (hrefs : ¬ (((probe_scanned E w iface).mem (probe_msc E w)).ep_bulk_in = none ∨
      ((probe_scanned E w iface).mem (probe_msc E w)).ep_bulk_out = none))
    (hbuf : max_lun_buffer_ok E (probe_ready E w iface) (probe_msc E w)) :
    ∃ res W2, msc_probe E w iface = .ok res ∧
      get_max_lun E (probe_ready E w iface) (probe_msc E w) = .ok W2 ∧
      res.2.mem (probe_msc E w) = { W2.mem (probe_msc E w) with next := w.g_msc_list } := by
  rw [msc_probe_of_allocated E w iface hchk h1 h2, if_neg hrefs]
  obtain ⟨W2, hW2, _, _, _, gg, _, _⟩ :=
    get_max_lun_eq E (probe_ready E w iface) (probe_msc E w) hbuf
  rw [hW2]
  refine ⟨_, W2, rfl, rfl, ?_⟩
  show (umas_init_device E W2 (probe_msc E w)).2.mem (probe_msc E w) = _
  obtain ⟨_, rg, _, _, _, _⟩ := probe_ready_eq E w iface
  generalize probe_ready E w iface = W1 at rg gg
  obtain ⟨_, _, u3, _, _, _⟩ := umas_init_device_eq E W2 (probe_msc E w)
  obtain ⟨_, am, _, _, _, _⟩ := msc_list_add_eq W2 (probe_msc E w)
  rw [u3, am, gg, rg]

theorem clear_halts_append (t u : List Event) :
    clear_halts (t ++ u) = clear_halts t ++ clear_halts u := by
  induction t with
  | nil => rfl
  | cons e t ih => cases e <;> simp [clear_halts, ih]

/-- The `usbh_clear_halt` calls of `get_max_lun`: one, on endpoint 0, exactly when the
transfer fails with a stall. -/
theorem clear_halts_get_max_lun_events (E : Env) (w : World) (msc : Ptr) :
    clear_halts (get_max_lun_events E w msc)
      = if (max_lun_result E w msc).1 < 0 ∧ (max_lun_result E w msc).1 = E.K.USBH_ERR_STALL
        then [((E.ifmem (w.mem msc).iface).udev, 0)] else [] := by
  unfold get_max_lun_events
  rw [clear_halts_append]
  by_cases h1 : (max_lun_result E w msc).1 < 0
  · by_cases h2 : (max_lun_result E w msc).1 = E.K.USBH_ERR_STALL
    · rw [if_pos h1, if_pos h2, if_pos ⟨h1, h2⟩]
      rfl
    · rw [if_pos h1, if_neg h2, if_neg (fun h => h2 h.2)]
      rfl
  · rw [if_neg h1, if_neg (fun h => h1 h.1)]
    rfl

/-- C13: for every device record, when `get_max_lun` reads no byte through a null pointer
(its transfer fails, or its 2-byte buffer has been allocated), it returns after the calls
`get_max_lun_events`; if the GET MAX LUN transfer reports a failure (a negative status)
then `max_lun` is 0 afterwards and `usbh_clear_halt` is called, once and on endpoint 0,
exactly when the status is `USBH_ERR_STALL`; if the transfer succeeds then `max_lun` is the
first byte left in the buffer and the halt is not cleared.  Whatever the transfer reports,
a probe that has passed the checks, obtained its two blocks and found both bulk endpoints
returns `USBH_OK` and registers the record, with the `max_lun` that `get_max_lun` stored. -/
theorem get_max_lun_best_effort (E : Env) (w : World) (msc : Ptr)
    (hbuf : max_lun_buffer_ok E w msc) :
    ∃ w', get_max_lun E w msc = .ok w' ∧
      w'.trace = w.trace ++ get_max_lun_events E w msc ∧
      ((max_lun_result E w msc).1 < 0 →
        (w'.mem msc).max_lun = 0 ∧
        clear_halts (get_max_lun_events E w msc)
          = (if (max_lun_result E w msc).1 = E.K.USBH_ERR_STALL
             then [((E.ifmem (w.mem msc).iface).udev, 0)] else [])) ∧
      (¬ (max_lun_result E w msc).1 < 0 →
        (w'.mem msc).max_lun = ((max_lun_result E w msc).2.getD 0 0) % 256 ∧
        (∀ b rest, (max_lun_result E w msc).2 = b :: rest → b < 256 →
          (w'.mem msc).max_lun = b) ∧
        clear_halts (get_max_lun_events E w msc) = []) ∧
      (∀ (w0 : World) (iface : Ptr) (l : List Ptr),
        passes_checks E.K (E.ifmem iface).aif.ifd →
        probe_msc E w0 ≠ NULL → probe_scsi_buff E w0 ≠ NULL →
        max_lun_buffer_ok E (probe_ready E w0 iface) (probe_msc E w0) →
        (∃ i, i < (E.ifmem iface).aif.ifd.bNumEndpoints ∧
          is_bulk_in E.K ((E.ifmem iface).aif.ep i)) →
        (∃ i, i < (E.ifmem iface).aif.ifd.bNumEndpoints ∧
          is_bulk_out E.K ((E.ifmem iface).aif.ep i)) →
        registry w0 l → probe_msc E w0 ∉ l →
        ∃ res W2, msc_probe E w0 iface = .ok res ∧
          res.1 = E.K.USBH_OK ∧
          registry res.2 (probe_msc E w0 :: l) ∧
          get_max_lun E (probe_ready E w0 iface) (probe_msc E w0) = .ok W2 ∧
          (res.2.mem (probe_msc E w0)).max_lun = (W2.mem (probe_msc E w0)).max_lun) := by
  obtain ⟨w', hrun, gt, gm, _, _, _, _⟩ := get_max_lun_eq E w msc hbuf
  have hch := clear_halts_get_max_lun_events E w msc
  refine ⟨w', hrun, gt, ?_, ?_, ?_⟩
  · intro hneg
    constructor
    · rw [gm]
      simp [hneg]
    · rw [hch]
      by_cases hst : (max_lun_result E w msc).1 = E.K.USBH_ERR_STALL
      · rw [if_pos ⟨hneg, hst⟩, if_pos hst]
      · rw [if_neg (fun h => hst h.2), if_neg hst]
  · intro hpos
    have hml : (w'.mem msc).max_lun = ((max_lun_result E w msc).2.getD 0 0) % 256 := by
      rw [gm]
      simp [hpos, store8]
    refine ⟨hml, ?_, ?_⟩
    · intro b rest hb hlt
      rw [hml, hb]
      simpa using Nat.mod_eq_of_lt hlt
    · rw [hch, if_neg (fun h => hpos h.1)]
  · intro w0 iface l hchk h1 h2 hb0 hin hout hreg hfresh
    have hrefs := probe_scanned_endpoints E w0 iface hin hout
    obtain ⟨res, hres, hst, hg, _, hq, hn, _⟩ :=
      msc_probe_refs_found E w0 iface hchk h1 h2 hrefs hb0
    obtain ⟨res', W2, hres', hW2, hrec⟩ :=
      msc_probe_refs_found_record E w0 iface hchk h1 h2 hrefs hb0
    have hrr : res' = res := Except.ok.inj (hres'.symm.trans hres)
    subst hrr
    refine ⟨res', W2, hres, hst, registry_cons_of w0 _ _ l hreg h1 hfresh hg hn hq, hW2, ?_⟩
    rw [hrec]

/-- C13 on examples: when GET MAX LUN stalls, `max_lun` of record 48 is 0 and the halt on
endpoint 0 of device 7 is cleared once, and a probe in the same environment still returns
`USBH_OK` and registers record 16; when the transfer succeeds and leaves the byte 3,
`max_lun` is 3 and no halt is cleared. -/
theorem get_max_lun_best_effort_witness :
    (∃ w', get_max_lun
        (example_env example_msc_iface 3 ( example_consts.USBH_ERR_STALL, []) (0, []))
        example_world_attached 48 = .ok w' ∧ (w'.mem 48).max_lun = 0) ∧
    clear_halts (get_max_lun_events
        (example_env example_msc_iface 3 ( example_consts.USBH_ERR_STALL, []) (0, []))
        example_world_attached 48) = [(7, 0)] ∧
    (∃ res, msc_probe
        (example_env example_msc_iface 3 ( example_consts.USBH_ERR_STALL, []) (0, []))
        example_world_attached 100 = .ok res ∧
      res.1 = example_consts.USBH_OK ∧ registry res.2 [16, 48]) ∧
    (∃ w', get_max_lun (example_env example_msc_iface 3 (0, [3]) (0, []))
        example_world_attached 48 = .ok w' ∧ (w'.mem 48).max_lun = 3) ∧
    clear_halts (get_max_lun_events (example_env example_msc_iface 3 (0, [3]) (0, []))
        example_world_attached 48) = [] := by
  obtain ⟨w1, hw1, _, hfail, _, hprobe⟩ := get_max_lun_best_effort
    (example_env example_msc_iface 3 ( example_consts.USBH_ERR_STALL, []) (0, []))
    example_world_attached 48 (by decide)
  obtain ⟨w2, hw2, _, _, hsucc, _⟩ := get_max_lun_best_effort
    (example_env example_msc_iface 3 (0, [3]) (0, [])) example_world_attached 48 (by decide)
  obtain ⟨f1, f2⟩ := hfail (by decide)
  obtain ⟨_, s2, s3⟩ := hsucc (by decide)
  obtain ⟨res, _, p0, p1, p2, _⟩ := hprobe example_world_attached 100 [48] (by decide)
    (by decide) (by decide) (by decide) ⟨0, by decide, by decide⟩ ⟨1, by decide, by decide⟩
    (by decide) (by decide)
  refine ⟨⟨w1, hw1, f1⟩, ?_, ⟨res, p0, p1, p2⟩, ⟨w2, hw2, s2 3 [] rfl (by decide)⟩, s3⟩
  rw [f2]
  decide

/-! ## Probe: the endpoint references of a registered record -/

/-- A probe that returns `USBH_OK` went down the accepted path. -/
theorem msc_probe_ok_path (E : Env) (w : World) (iface : Ptr) (hK : ok_distinct E.K)
    (res : Int × World) (hrun : msc_probe E w iface = .ok res) (hok : res.1 = E.K.USBH_OK) :
    passes_checks E.K (E.ifmem iface).aif.ifd ∧ probe_msc E w ≠ NULL ∧
    probe_scsi_buff E w ≠ NULL ∧
    ¬ (((probe_scanned E w iface).mem (probe_msc E w)).ep_bulk_in = none ∨
      ((probe_scanned E w iface).mem (probe_msc E w)).ep_bulk_out = none) ∧
    max_lun_buffer_ok E (probe_ready E w iface) (probe_msc E w) := by
  obtain ⟨k1, k2, k3, k4⟩ := hK
  by_cases hchk : passes_checks E.K (E.ifmem iface).aif.ifd
  · by_cases h1 : probe_msc E w = NULL
    · rw [msc_probe_record_alloc_fails E w iface hchk h1] at hrun
      cases hrun
      exact absurd hok.symm k3
    · by_cases h2 : probe_scsi_buff E w = NULL
      · obtain ⟨res', hr', hst, _⟩ := msc_probe_buffer_alloc_fails E w iface hchk h1 h2
        have hrr : res' = res := Except.ok.inj (hr'.symm.trans hrun)
        subst hrr
        exact absurd (hok.symm.trans hst) k3
      · by_cases hrefs : ((probe_scanned E w iface).mem (probe_msc E w)).ep_bulk_in = none ∨
            ((probe_scanned E w iface).mem (probe_msc E w)).ep_bulk_out = none
        · obtain ⟨res', hr', hst, _⟩ := msc_probe_refs_missing E w iface hchk h1 h2 hrefs
          have hrr : res' = res := Except.ok.inj (hr'.symm.trans hrun)
          subst hrr
          exact absurd (hok.symm.trans hst) k4
        · refine ⟨hchk, h1, h2, hrefs, ?_⟩
          by_contra hbuf
          rw [msc_probe_null_buffer E w iface hchk h1 h2 hrefs hbuf] at hrun
          cases hrun
  · rw [msc_probe_of_failed_checks E w iface hchk] at hrun
    cases hrun
    exfalso
    simp only at hok
    split at hok
    · exact k1 hok.symm
    · exact k2 hok.symm

/-- The endpoint references of the record registered on the accepted path are those the
endpoint loop left. -/
theorem msc_probe_refs_found_endpoints (E : Env) (w : World) (iface : Ptr)
    (hchk : passes_checks E.K (E.ifmem iface).aif.ifd)
    (h1 : probe_msc E w ≠ NULL) (h2 : probe_scsi_buff E w ≠ NULL)
    (hrefs : ¬ (((probe_scanned E w iface).mem (probe_msc E w)).ep_bulk_in = none ∨
      ((probe_scanned E w iface).mem (probe_msc E w)).ep_bulk_out = none))
    (hbuf : max_lun_buffer_ok E (probe_ready E w iface) (probe_msc E w)) :
    ∃ res, msc_probe E w iface = .ok res ∧
      (res.2.mem (probe_msc E w)).ep_bulk_in
        = ((probe_scanned E w iface).mem (probe_msc E w)).ep_bulk_in ∧
      (res.2.mem (probe_msc E w)).ep_bulk_out
        = ((probe_scanned E w iface).mem (probe_msc E w)).ep_bulk_out := by
  obtain ⟨res, W2, hres, hW2, hrec⟩ :=
    msc_probe_refs_found_record E w iface hchk h1 h2 hrefs hbuf
  obtain ⟨W2', hW2', _, gm, _⟩ := get_max_lun_eq E (probe_ready E w iface) (probe_msc E w) hbuf
  have hww : W2' = W2 := Except.ok.inj (hW2'.symm.trans hW2)
  subst hww
  refine ⟨res, hres, ?_⟩
  rw [hrec, gm, (probe_ready_eq E w iface).2.2.2.2.2]
  exact ⟨rfl, rfl⟩

/-- C18: after a `msc_probe` call that returns `USBH_OK`, on a fresh record whose endpoint
references were null, the registered record's `ep_bulk_in` refers to an endpoint of the
probed interface that is bulk with direction IN, its `ep_bulk_out` to an endpoint of the
probed interface that is bulk with the other direction (OUT), and each is the endpoint of
highest index among the `bNumEndpoints` endpoints that qualify. -/
theorem msc_probe_endpoint_refs (E : Env) (w : World) (iface : Ptr) (hK : ok_distinct E.K)
    (res : Int × World) (hrun : msc_probe E w iface = .ok res) (hok : res.1 = E.K.USBH_OK)
    (hin : (w.mem (probe_msc E w)).ep_bulk_in = none)
    (hout : (w.mem (probe_msc E w)).ep_bulk_out = none) :
    ∃ i o,
      i < (E.ifmem iface).aif.ifd.bNumEndpoints ∧
      is_bulk_in E.K ((E.ifmem iface).aif.ep i) ∧
      (res.2.mem (usbh_msc_get_device_list res.2)).ep_bulk_in
        = some { iface := iface, idx := i } ∧
      (∀ k, i < k → k < (E.ifmem iface).aif.ifd.bNumEndpoints →
        ¬ is_bulk_in E.K ((E.ifmem iface).aif.ep k)) ∧
      o < (E.ifmem iface).aif.ifd.bNumEndpoints ∧
      is_bulk_out E.K ((E.ifmem iface).aif.ep o) ∧
      (res.2.mem (usbh_msc_get_device_list res.2)).ep_bulk_out
        = some { iface := iface, idx := o } ∧
      (∀ k, o < k → k < (E.ifmem iface).aif.ifd.bNumEndpoints →
        ¬ is_bulk_out E.K ((E.ifmem iface).aif.ep k)) := by
  obtain ⟨hchk, h1, h2, hrefs, hbuf⟩ := msc_probe_ok_path E w iface hK res hrun hok
  obtain ⟨res1, hr1, ein, eout⟩ := msc_probe_refs_found_endpoints E w iface hchk h1 h2 hrefs hbuf
  have e1 : res1 = res := Except.ok.inj (hr1.symm.trans hrun)
  subst e1
  obtain ⟨res2, hr2, _, hg, _⟩ := msc_probe_refs_found E w iface hchk h1 h2 hrefs hbuf
  have e2 : res2 = res1 := Except.ok.inj (hr2.symm.trans hrun)
  subst e2
  have hself := probe_scanned_mem_self E w iface
  unfold usbh_msc_get_device_list
  rw [hg, ein, eout]
  rw [hself] at hrefs ⊢
  unfold probe_scan at hrefs ⊢
  rcases probe_scan_upto_in E.K iface (E.ifmem iface).aif
      { w.mem (probe_msc E w) with scsi_buff := probe_scsi_buff E w, uid := probe_ticks E w }
      (E.ifmem iface).aif.ifd.bNumEndpoints with ⟨hi, _⟩ | ⟨i, hi1, hi2, hi3, hi4⟩
  · exact absurd (Or.inl (hi.trans hin)) hrefs
  · rcases probe_scan_upto_out E.K iface (E.ifmem iface).aif
        { w.mem (probe_msc E w) with scsi_buff := probe_scsi_buff E w, uid := probe_ticks E w }
        (E.ifmem iface).aif.ifd.bNumEndpoints with ⟨ho, _⟩ | ⟨o, ho1, ho2, ho3, ho4⟩
    · exact absurd (Or.inr (ho.trans hout)) hrefs
    · exact ⟨i, o, hi1, hi2, hi3, hi4, ho1, ho2, ho3, ho4⟩

/-- C18 on an example: on the interface with endpoints bulk-IN, bulk-OUT, interrupt-IN,
bulk-IN, bulk-OUT (indices 0 to 4) the probe returns `USBH_OK` and the registered record
(16) refers to endpoint 3 for IN and endpoint 4 for OUT. -/
theorem msc_probe_endpoint_refs_witness :
    ∃ res, msc_probe (example_env example_multi_iface 3 (0, [0]) (0, [])) example_world 100
        = .ok res ∧
      res.1 = example_consts.USBH_OK ∧
      (∃ i o, i < 5 ∧ o < 5 ∧
        (res.2.mem (usbh_msc_get_device_list res.2)).ep_bulk_in
          = some { iface := 100, idx := i } ∧
        (res.2.mem (usbh_msc_get_device_list res.2)).ep_bulk_out
          = some { iface := 100, idx := o } ∧
        (∀ k, i < k → k < 5 → ¬ is_bulk_in example_consts (example_multi_iface.aif.ep k)) ∧
        (∀ k, o < k → k < 5 → ¬ is_bulk_out example_consts (example_multi_iface.aif.ep k))) ∧
      usbh_msc_get_device_list res.2 = 16 ∧
      (res.2.mem 16).ep_bulk_in = some { iface := 100, idx := 3 } ∧
      (res.2.mem 16).ep_bulk_out = some { iface := 100, idx := 4 } := by
  obtain ⟨res, hrun, hst, hg, _⟩ := msc_probe_refs_found
    (example_env example_multi_iface 3 (0, [0]) (0, [])) example_world 100
    (by decide) (by decide) (by decide) (by decide) (by decide)
  obtain ⟨i, o, h1, _, h3, h4, h5, _, h7, h8⟩ := msc_probe_endpoint_refs
    (example_env example_multi_iface 3 (0, [0]) (0, [])) example_world 100
    (by unfold ok_distinct; decide) res hrun hst (by decide) (by decide)
  have hv : (msc_probe (example_env example_multi_iface 3 (0, [0]) (0, []))
      example_world 100).toOption.map
        (fun r => ((r.2.mem 16).ep_bulk_in, (r.2.mem 16).ep_bulk_out))
      = some (some { iface := 100, idx := 3 }, some { iface := 100, idx := 4 }) := by decide
  rw [hrun] at hv
  simp only [Except.toOption, Option.map_some', Option.some.injEq, Prod.mk.injEq] at hv
  exact ⟨res, hrun, hst, ⟨i, o, h1, h5, h3, h7, h4, h8⟩, hg, hv.1, hv.2⟩

/-! ## Probe: blocks outstanding after a successful probe -/

/-- The frees made by `get_max_lun`: the temporary buffer when the transfer succeeds,
nothing when it fails. -/
theorem freed_get_max_lun_events_eq (E : Env) (w : World) (msc : Ptr) :
    freed (get_max_lun_events E w msc)
      = if (max_lun_result E w msc).1 < 0 then [] else [E.usbh_alloc_mem w.trace 2] := by
  unfold get_max_lun_events
  rw [freed_append]
  split
  · split <;> rfl
  · rfl

/-- The frees made by a probe on the accepted path are those of `get_max_lun`. -/
theorem freed_msc_probe_refs_found (E : Env) (w : World) (iface : Ptr)
    (hchk : passes_checks E.K (E.ifmem iface).aif.ifd)
    (h1 : probe_msc E w ≠ NULL) (h2 : probe_scsi_buff E w ≠ NULL)
    (hrefs : ¬ (((probe_scanned E w iface).mem (probe_msc E w)).ep_bulk_in = none ∨
      ((probe_scanned E w iface).mem (probe_msc E w)).ep_bulk_out = none))
    (hbuf : max_lun_buffer_ok E (probe_ready E w iface) (probe_msc E w)) :
    ∃ res, msc_probe E w iface = .ok res ∧ res.1 = E.K.USBH_OK ∧
      freed res.2.trace
        = freed w.trace ++
          (if (max_lun_result E (probe_ready E w iface) (probe_msc E w)).1 < 0 then []
           else [E.usbh_alloc_mem (probe_ready E w iface).trace 2]) := by
  obtain ⟨res, hrun, hst, _, htr, _⟩ := msc_probe_refs_found E w iface hchk h1 h2 hrefs hbuf
  refine ⟨res, hrun, hst, ?_⟩
  rw [htr, freed_append, freed_append, freed_append, freed_get_max_lun_events_eq]
  have h3 : freed [Event.alloc E.K.sizeof_MSC_T (probe_msc E w),
      Event.alloc E.K.SCSI_BUFF_LEN (probe_scsi_buff E w), Event.ticks (probe_ticks E w)]
      = [] := rfl
  have h4 : freed (if w.g_msc_conn_func ≠ NULL then
      [Event.conn w.g_msc_conn_func (probe_msc E w) 0] else []) = [] := by
    split <;> rfl
  rw [h3, h4]
  simp

/-- C19, the failing input: a probe that returns `USBH_OK` while the GET MAX LUN transfer
stalls.  The blocks allocated during the call are the record (16), the working buffer (32)
and the temporary buffer of `get_max_lun` (48); nothing is freed, so three blocks are
outstanding on return, the temporary buffer among them.  When the transfer succeeds the
temporary buffer is freed and the record and its working buffer are what remains. -/
theorem msc_probe_leaks_temp_buffer :
    (∃ res, msc_probe
        (example_env example_msc_iface 3 ( example_consts.USBH_ERR_STALL, []) (0, []))
        example_world 100 = .ok res ∧
      res.1 = example_consts.USBH_OK ∧
      allocated res.2.trace = [16, 32, 48] ∧
      freed res.2.trace = [] ∧
      outstanding res.2.trace = [48, 32, 16]) ∧
    (∃ res, msc_probe (example_env example_msc_iface 3 (0, [0]) (0, [])) example_world 100
        = .ok res ∧
      res.1 = example_consts.USBH_OK ∧
      outstanding res.2.trace = [32, 16]) := by
  constructor
  · obtain ⟨res, hrun, hst, _, htr, _⟩ := msc_probe_refs_found
      (example_env example_msc_iface 3 ( example_consts.USBH_ERR_STALL, []) (0, []))
      example_world 100 (by decide) (by decide) (by decide) (by decide) (by decide)
    refine ⟨res, hrun, hst, ?_, ?_, ?_⟩
    · rw [htr]; decide
    · rw [htr]; decide
    · rw [htr]; decide
  · obtain ⟨res, hrun, hst, _, htr, _⟩ := msc_probe_refs_found
      (example_env example_msc_iface 3 (0, [0]) (0, [])) example_world 100
      (by decide) (by decide) (by decide) (by decide) (by decide)
    refine ⟨res, hrun, hst, ?_⟩
    rw [htr]; decide

/-! ## Request sense (`msc_request_sense`) -/

/-- The command block of `msc_request_sense`, byte by byte. -/
theorem request_sense_cmd_blk_eq (K : Consts) (lun : Nat) (hop : K.REQUEST_SENSE < 256) :
    request_sense_cmd_blk K lun
      = { Signature := 0, Tag := 0, DataTransferLength := 0, Flags := 0x80, Lun := 0,
          Length := 6,
          CDB := [K.REQUEST_SENSE, (lun <<< 5) % 256, 0, 0, 18, 0, 0, 0, 0, 0, 0, 0, 0, 0, 0,
            0] } := by
  simp [request_sense_cmd_blk, bulk_cb_wrap.zero, store8, List.replicate, Nat.mod_eq_of_lt hop]

/-- On a record with both endpoint references set, `msc_reset` returns and runs no command
through the executor. -/
theorem msc_reset_ok (E : Env) (w : World) (msc : Ptr)
    (hin : (w.mem msc).ep_bulk_in ≠ none) (hout : (w.mem msc).ep_bulk_out ≠ none) :
    ∃ w', msc_reset E w msc = .ok w' ∧ scsi_calls w'.trace = scsi_calls w.trace := by
  obtain ⟨ei, hei⟩ := Option.ne_none_iff_exists'.mp hin
  obtain ⟨eo, heo⟩ := Option.ne_none_iff_exists'.mp hout
  simp only [msc_reset, usbh_ctrl_xfer, usbh_clear_halt, World.emit_mem, heo, hei]
  refine ⟨_, rfl, ?_⟩
  simp [scsi_calls_append, scsi_calls]

/-- The call `msc_request_sense` hands to the executor. -/
theorem msc_request_sense_cases (E : Env) (w : World) (msc : Ptr)
    (hin : (w.mem msc).ep_bulk_in ≠ none) (hout : (w.mem msc).ep_bulk_out ≠ none) :
    ∃ (ret : Int) (w' : World),
      msc_request_sense E w msc = .ok (ret, w') ∧
      scsi_calls w'.trace = scsi_calls w.trace ++
        [ScsiCall.mk msc (request_sense_cmd_blk E.K (w.mem msc).lun) (w.mem msc).scsi_buff
          18 1 100] ∧
      ret = (if (E.run_scsi_command w.trace (ScsiCall.mk msc
                (request_sense_cmd_blk E.K (w.mem msc).lun) (w.mem msc).scsi_buff
                18 1 100)).1 < 0
             then (E.run_scsi_command w.trace (ScsiCall.mk msc
                (request_sense_cmd_blk E.K (w.mem msc).lun) (w.mem msc).scsi_buff
                18 1 100)).1
             else if byte_at (E.run_scsi_command w.trace (ScsiCall.mk msc
                (request_sense_cmd_blk E.K (w.mem msc).lun) (w.mem msc).scsi_buff
                18 1 100)).2 2 ≠ 0x6 then -1
             else (E.run_scsi_command w.trace (ScsiCall.mk msc
                (request_sense_cmd_blk E.K (w.mem msc).lun) (w.mem msc).scsi_buff
                18 1 100)).1) := by
  simp only [msc_request_sense, run_scsi_command, World.store_mem_self, World.store_trace]
  generalize hc : ScsiCall.mk msc (request_sense_cmd_blk E.K (w.mem msc).lun)
    (w.mem msc).scsi_buff 18 1 100 = c
  generalize hr : E.run_scsi_command w.trace c = r
  by_cases hneg : r.1 < 0
  · by_cases hst : r.1 = E.K.USBH_ERR_STALL
    · obtain ⟨w2, hw2, ht2⟩ := msc_reset_ok E
        ((w.store msc { w.mem msc with
            cmd_blk := request_sense_cmd_blk E.K (w.mem msc).lun }).emit (Event.scsi c r.1))
        msc (by simpa using hin) (by simpa using hout)
      rw [if_pos hneg, if_pos hst, if_pos hneg, hw2]
      refine ⟨r.1, w2, rfl, ?_, rfl⟩
      rw [ht2]; simp [scsi_calls_append, scsi_calls]
    · rw [if_pos hneg, if_neg hst, if_pos hneg]
      refine ⟨r.1, _, rfl, ?_, rfl⟩
      simp [scsi_calls_append, scsi_calls]
  · by_cases hb : byte_at r.2 2 = 0x6
    · rw [if_neg hneg, if_neg (not_not.mpr hb), if_neg hneg, if_neg (not_not.mpr hb)]
      refine ⟨r.1, _, rfl, ?_, rfl⟩
      simp [scsi_calls_append, scsi_calls]
    · rw [if_neg hneg, if_pos hb, if_neg hneg, if_pos hb]
      refine ⟨-1, _, rfl, ?_, rfl⟩
      simp [scsi_calls_append, scsi_calls]

/-- C16: on every device record whose two endpoint references are set, `msc_request_sense`
returns; it runs exactly one command through the executor, with a command block that is zero
except for the read direction flag `0x80`, CDB length 6, the REQUEST SENSE opcode in
`CDB[0]`, `lun << 5` in `CDB[1]` and allocation length 18 in `CDB[4]`, asking for 18 bytes
into the record's working buffer.  The result is non-negative if and only if the executor
status is non-negative and byte 2 of the sense data is `0x6`; with a non-negative status and
another byte 2 the result is `-1`, and a negative status is returned as it is. -/
theorem msc_request_sense_result (E : Env) (w : World) (msc : Ptr)
    (hop : E.K.REQUEST_SENSE < 256)
    (hin : (w.mem msc).ep_bulk_in ≠ none) (hout : (w.mem msc).ep_bulk_out ≠ none) :
    ∃ (c : ScsiCall) (ret : Int) (w' : World),
      msc_request_sense E w msc = .ok (ret, w') ∧
      scsi_calls w'.trace = scsi_calls w.trace ++ [c] ∧
      c = { msc := msc,
            cmd_blk := { Signature := 0, Tag := 0, DataTransferLength := 0, Flags := 0x80,
                         Lun := 0, Length := 6,
                         CDB := [E.K.REQUEST_SENSE, ((w.mem msc).lun <<< 5) % 256, 0, 0, 18,
                           0, 0, 0, 0, 0, 0, 0, 0, 0, 0, 0] },
            buff := (w.mem msc).scsi_buff, data_len := 18, bIsDataIn := 1,
            timeout_ticks := 100 } ∧
      (0 ≤ ret ↔ 0 ≤ (E.run_scsi_command w.trace c).1 ∧
        byte_at (E.run_scsi_command w.trace c).2 2 = 0x6) ∧
      (0 ≤ (E.run_scsi_command w.trace c).1 →
        byte_at (E.run_scsi_command w.trace c).2 2 ≠ 0x6 → ret = -1) ∧
      (0 ≤ (E.run_scsi_command w.trace c).1 →
        byte_at (E.run_scsi_command w.trace c).2 2 = 0x6 →
        ret = (E.run_scsi_command w.trace c).1) ∧
      ((E.run_scsi_command w.trace c).1 < 0 → ret = (E.run_scsi_command w.trace c).1) := by
  obtain ⟨ret, w', h1, h2, h3⟩ := msc_request_sense_cases E w msc hin hout
  rw [request_sense_cmd_blk_eq E.K (w.mem msc).lun hop] at h2 h3
  refine ⟨_, ret, w', h1, h2, rfl, ?_, ?_, ?_, ?_⟩
  · rw [h3]; split
    · constructor
      · intro h; omega
      · intro h; omega
    · split
      · rename_i hb
        constructor
        · intro h; omega
        · intro h; exact absurd h.2 hb
      · rename_i hn hb
        exact ⟨fun _ => ⟨not_lt.mp hn, not_not.mp hb⟩, fun h => h.1⟩
  · intro h0 hb
    rw [h3, if_neg (not_lt.mpr h0), if_pos hb]
  · intro h0 hb
    rw [h3, if_neg (not_lt.mpr h0), if_neg (not_not.mpr hb)]
  · intro hn
    rw [h3, if_pos hn]

/-- C16 on the example record 48 (lun 1, buffer 64, both endpoint references set): sense data
with byte 2 equal to `0x6` gives the executor's status 0, sense data with byte 2 equal to
`0x2` gives `-1`, and a stall (`-258`) is returned as it is after the reset. -/
theorem msc_request_sense_result_witness :
    (∃ w', msc_request_sense (example_env example_msc_iface 0 (0, []) (0, [0x70, 0, 0x6]))
        example_world_ready 48 = .ok (0, w') ∧
      scsi_calls w'.trace
        = [{ msc := 48,
             cmd_blk := { Signature := 0, Tag := 0, DataTransferLength := 0, Flags := 0x80,
                          Lun := 0, Length := 6,
                          CDB := [0x03, 0x20, 0, 0, 18, 0, 0, 0, 0, 0, 0, 0, 0, 0, 0, 0] },
             buff := 64, data_len := 18, bIsDataIn := 1, timeout_ticks := 100 }]) ∧
    (∃ w', msc_request_sense (example_env example_msc_iface 0 (0, []) (0, [0x70, 0, 0x2]))
        example_world_ready 48 = .ok (-1, w')) ∧
    (∃ w', msc_request_sense (example_env example_msc_iface 0 (0, []) (-258, []))
        example_world_ready 48 = .ok (-258, w')) := by
  refine ⟨?_, ?_, ?_⟩
  · obtain ⟨c, ret, w', h1, h2, hc, _, _, hok, _⟩ :=
      msc_request_sense_result (example_env example_msc_iface 0 (0, []) (0, [0x70, 0, 0x6]))
        example_world_ready 48 (by decide) (by decide) (by decide)
    have hr : ret = 0 := hok (le_refl (0 : Int)) (show byte_at [0x70, 0, 0x6] 2 = 0x6 by decide)
    rw [hr] at h1
    refine ⟨w', h1, ?_⟩
    rw [h2, hc]
    decide
  · obtain ⟨c, ret, w', h1, _, _, _, hno, _, _⟩ :=
      msc_request_sense_result (example_env example_msc_iface 0 (0, []) (0, [0x70, 0, 0x2]))
        example_world_ready 48 (by decide) (by decide) (by decide)
    have hr : ret = -1 :=
      hno (le_refl (0 : Int)) (show byte_at [0x70, 0, 0x2] 2 ≠ 0x6 by decide)
    rw [hr] at h1
    exact ⟨w', h1⟩
  · obtain ⟨c, ret, w', h1, _, _, _, _, _, hneg⟩ :=
      msc_request_sense_result (example_env example_msc_iface 0 (0, []) (-258, []))
        example_world_ready 48 (by decide) (by decide) (by decide)
    have hr : ret = -258 := hneg (show (-258 : Int) < 0 by decide)
    rw [hr] at h1
    exact ⟨w', h1⟩


/-! ## Capacity query (`msc_connection_callback`) -/

/-- On bytes, the `int` expression `(b0 << 24) | (b1 << 16) | (b2 << 8) | b3` converted to
`uint32_t` is the big-endian value of the four bytes. -/
theorem be32_pattern_eq (b0 b1 b2 b3 : Nat) (h0 : b0 < 256) (h1 : b1 < 256) (h2 : b2 < 256)
    (h3 : b3 < 256) :
    be32_pattern b0 b1 b2 b3 = b0 * 2 ^ 24 + b1 * 2 ^ 16 + b2 * 2 ^ 8 + b3 := by
  have e0 : (b0 <<< 24) % 2 ^ 32 = 2 ^ 24 * b0 := by
    rw [Nat.shiftLeft_eq]; omega
  have e1 : (b1 <<< 16) % 2 ^ 32 = 2 ^ 16 * b1 := by rw [Nat.shiftLeft_eq]; omega
  have e2 : (b2 <<< 8) % 2 ^ 32 = 2 ^ 8 * b2 := by rw [Nat.shiftLeft_eq]; omega
  have c2 := Nat.mul_add_lt_is_or (show b3 < 2 ^ 8 by omega) b2
  have c1 := Nat.mul_add_lt_is_or (show 2 ^ 8 * b2 + b3 < 2 ^ 16 by omega) b1
  have c0 := Nat.mul_add_lt_is_or (show 2 ^ 16 * b1 + (2 ^ 8 * b2 + b3) < 2 ^ 24 by omega) b0
  unfold be32_pattern
  rw [e0, e1, e2, Nat.or_assoc, Nat.or_assoc, ← c2, ← c1, ← c0]
  omega

theorem byte_at_lt (data : List Nat) (i : Nat) : byte_at data i < 256 :=
  Nat.mod_lt _ (by norm_num)

/-- The capacity query when its 8-byte buffer has been allocated and the executor reports
`USBH_OK`: it returns; the calls it makes, the record fields it writes and the locals it
derives. -/
theorem msc_connection_callback_query_ok (E : Env) (w : World) (msc_dev : Ptr) (status : Int)
    (hbuf : (capacity_call E w msc_dev).buff ≠ NULL)
    (hok : (capacity_response E w msc_dev).1 = E.K.USBH_OK) :
    ∃ (loc : CapacityLocals) (w' : World),
      msc_connection_callback_query E w msc_dev status = .ok (loc, w') ∧
      w'.trace = w.trace ++
        [Event.alloc 8 (usbh_alloc_mem E w 8).1,
         Event.scsi (capacity_call E w msc_dev) (capacity_response E w msc_dev).1,
         Event.free (usbh_alloc_mem E w 8).1 8] ∧
      (w'.mem msc_dev).lun = 0 ∧
      (w'.mem msc_dev).uTotalSectorN
        = be32_pattern (byte_at (capacity_response E w msc_dev).2 0)
            (byte_at (capacity_response E w msc_dev).2 1)
            (byte_at (capacity_response E w msc_dev).2 2)
            (byte_at (capacity_response E w msc_dev).2 3) ∧
      (w'.mem msc_dev).nSectorSize
        = be32_pattern (byte_at (capacity_response E w msc_dev).2 4)
            (byte_at (capacity_response E w msc_dev).2 5)
            (byte_at (capacity_response E w msc_dev).2 6)
            (byte_at (capacity_response E w msc_dev).2 7) ∧
      loc.num_sectors = (w'.mem msc_dev).uTotalSectorN % 2 ^ E.K.size_t_bits ∧
      loc.capacity = (loc.num_sectors * 512) % 2 ^ E.K.size_t_bits / 1024 ∧
      loc.sector_size = (w'.mem msc_dev).nSectorSize % 2 ^ E.K.size_t_bits := by
  have hok2 : ¬ (E.run_scsi_command (w.trace ++ [Event.alloc 8 (E.usbh_alloc_mem w.trace 8)])
      { msc := msc_dev, cmd_blk := capacity_cmd_blk E.K, buff := E.usbh_alloc_mem w.trace 8,
        data_len := 8, bIsDataIn := 1, timeout_ticks := 100 }).1 ≠ E.K.USBH_OK :=
    not_not.mpr hok
  have hbuf2 : ¬ E.usbh_alloc_mem w.trace 8 = NULL := hbuf
  simp only [msc_connection_callback_query, usbh_alloc_mem, run_scsi_command, usbh_free_mem,
    World.store_mem_self, World.store_trace, World.emit_mem, World.emit_trace]
  have hlen : ((capacity_cmd_blk E.K).Length : Int) = 8 := rfl
  rw [hlen, if_neg hok2, if_neg hbuf2]
  refine ⟨_, _, rfl, ?_, ?_, ?_, ?_, ?_, ?_, ?_⟩
  · simp [capacity_call, capacity_response, usbh_alloc_mem]
  all_goals simp [capacity_call, capacity_response, usbh_alloc_mem]

/-- The capacity query when the executor reports anything but `USBH_OK`: the assertion
fails. -/
theorem msc_connection_callback_query_failed (E : Env) (w : World) (msc_dev : Ptr)
    (status : Int) (hfail : (capacity_response E w msc_dev).1 ≠ E.K.USBH_OK) :
    msc_connection_callback_query E w msc_dev status = .error .assert_failed := by
  have hfail2 : (E.run_scsi_command (w.trace ++ [Event.alloc 8 (E.usbh_alloc_mem w.trace 8)])
      { msc := msc_dev, cmd_blk := capacity_cmd_blk E.K, buff := E.usbh_alloc_mem w.trace 8,
        data_len := 8, bIsDataIn := 1, timeout_ticks := 100 }).1 ≠ E.K.USBH_OK := hfail
  simp only [msc_connection_callback_query, usbh_alloc_mem, run_scsi_command,
    World.store_mem_self, World.store_trace, World.emit_mem, World.emit_trace]
  have hlen : ((capacity_cmd_blk E.K).Length : Int) = 8 := rfl
  rw [hlen, if_pos hfail2]

/-- The capacity query when the 8-byte allocation has failed and the executor reports
`USBH_OK`: `scsi_buff[0]` is read through the null pointer. -/
theorem msc_connection_callback_query_null_buffer (E : Env) (w : World) (msc_dev : Ptr)
    (status : Int) (hbuf : (capacity_call E w msc_dev).buff = NULL)
    (hok : (capacity_response E w msc_dev).1 = E.K.USBH_OK) :
    msc_connection_callback_query E w msc_dev status = .error .null_deref := by
  have hok2 : ¬ (E.run_scsi_command (w.trace ++ [Event.alloc 8 (E.usbh_alloc_mem w.trace 8)])
      { msc := msc_dev, cmd_blk := capacity_cmd_blk E.K, buff := E.usbh_alloc_mem w.trace 8,
        data_len := 8, bIsDataIn := 1, timeout_ticks := 100 }).1 ≠ E.K.USBH_OK :=
    not_not.mpr hok
  have hbuf2 : E.usbh_alloc_mem w.trace 8 = NULL := hbuf
  simp only [msc_connection_callback_query, usbh_alloc_mem, run_scsi_command,
    World.store_mem_self, World.store_trace, World.emit_mem, World.emit_trace]
  have hlen : ((capacity_cmd_blk E.K).Length : Int) = 8 := rfl
  rw [hlen, if_neg hok2, if_pos hbuf2]

/-- C14: for every device record and every 8-byte response `b0 .. b7` that the executor
leaves in the (allocated) buffer with status `USBH_OK`, the capacity query of
`msc_connection_callback` completes, asks for 8 bytes with the READ CAPACITY command block,
and leaves in the record `uTotalSectorN = b0 * 2^24 + b1 * 2^16 + b2 * 2^8 + b3` (no `+ 1`)
and `nSectorSize = b4 * 2^24 + b5 * 2^16 + b6 * 2^8 + b7`, both below `2^32`, whatever the
values of `b0` and `b4`. -/
theorem capacity_query_big_endian (E : Env) (w : World) (msc_dev : Ptr) (status : Int)
    (b0 b1 b2 b3 b4 b5 b6 b7 : Nat)
    (h0 : b0 < 256) (h1 : b1 < 256) (h2 : b2 < 256) (h3 : b3 < 256)
    (h4 : b4 < 256) (h5 : b5 < 256) (h6 : b6 < 256) (h7 : b7 < 256)
    (hbuf : (capacity_call E w msc_dev).buff ≠ NULL)
    (hresp : capacity_response E w msc_dev = (E.K.USBH_OK, [b0, b1, b2, b3, b4, b5, b6, b7])) :
    ∃ (loc : CapacityLocals) (w' : World),
      msc_connection_callback_query E w msc_dev status = .ok (loc, w') ∧
      scsi_calls w'.trace = scsi_calls w.trace ++ [capacity_call E w msc_dev] ∧
      (capacity_call E w msc_dev).data_len = 8 ∧
      (w'.mem msc_dev).uTotalSectorN = b0 * 2 ^ 24 + b1 * 2 ^ 16 + b2 * 2 ^ 8 + b3 ∧
      (w'.mem msc_dev).nSectorSize = b4 * 2 ^ 24 + b5 * 2 ^ 16 + b6 * 2 ^ 8 + b7 ∧
      (w'.mem msc_dev).uTotalSectorN < 2 ^ 32 ∧ (w'.mem msc_dev).nSectorSize < 2 ^ 32 := by
  obtain ⟨loc, w', hq, ht, _, hN, hS, _, _, _⟩ :=
    msc_connection_callback_query_ok E w msc_dev status hbuf (by rw [hresp])
  rw [hresp] at hN hS
  have hN' : (w'.mem msc_dev).uTotalSectorN = b0 * 2 ^ 24 + b1 * 2 ^ 16 + b2 * 2 ^ 8 + b3 := by
    rw [hN, be32_pattern_eq _ _ _ _ (byte_at_lt _ _) (byte_at_lt _ _) (byte_at_lt _ _)
      (byte_at_lt _ _)]
    simp [byte_at, Nat.mod_eq_of_lt, h0, h1, h2, h3]
  have hS' : (w'.mem msc_dev).nSectorSize = b4 * 2 ^ 24 + b5 * 2 ^ 16 + b6 * 2 ^ 8 + b7 := by
    rw [hS, be32_pattern_eq _ _ _ _ (byte_at_lt _ _) (byte_at_lt _ _) (byte_at_lt _ _)
      (byte_at_lt _ _)]
    simp [byte_at, Nat.mod_eq_of_lt, h4, h5, h6, h7]
  refine ⟨loc, w', hq, ?_, rfl, hN', hS', ?_, ?_⟩
  · rw [ht]; simp [scsi_calls_append, scsi_calls]
  · rw [hN']; omega
  · rw [hS']; omega

/-- C14 on the response `80 00 00 01 80 00 02 00` for the example record 48: the record
ends with `uTotalSectorN = 2147483649` and `nSectorSize = 2147484160`. -/
theorem capacity_query_big_endian_witness :
    ∃ (loc : CapacityLocals) (w' : World),
      msc_connection_callback_query
        (example_env example_msc_iface 1 (0, []) (0, [0x80, 0, 0, 1, 0x80, 0, 2, 0]))
        example_world_ready 48 0 = .ok (loc, w') ∧
      (w'.mem 48).uTotalSectorN = 2147483649 ∧ (w'.mem 48).nSectorSize = 2147484160 := by
  obtain ⟨loc, w', hq, _, _, hN, hS, _, _⟩ :=
    capacity_query_big_endian
      (example_env example_msc_iface 1 (0, []) (0, [0x80, 0, 0, 1, 0x80, 0, 2, 0]))
      example_world_ready 48 0 0x80 0 0 1 0x80 0 2 0
      (by decide) (by decide) (by decide) (by decide) (by decide) (by decide) (by decide)
      (by decide) (by decide) rfl
  exact ⟨loc, w', hq, hN, hS⟩

/-- C15, counterexamples on the example record 48 with a 32-bit `size_t` and the buffer
allocated (address 16).  The response `00 00 00 02 00 00 00 00` is accepted (status
`USBH_OK`) and leaves `nSectorSize = 0`.  The response `00 00 00 02 00 00 04 00` leaves
`uTotalSectorN = 2`, `nSectorSize = 1024` and the derived capacity is 1 kB, while
`uTotalSectorN * nSectorSize / 1024` is 2. -/
theorem capacity_query_sector_size_unchecked :
    (msc_connection_callback_query
        (example_env example_msc_iface 1 (0, []) (0, [0, 0, 0, 2, 0, 0, 0, 0]))
        example_world_ready 48 0).toOption.map
      (fun r => ((r.2.mem 48).uTotalSectorN, (r.2.mem 48).nSectorSize, r.1.capacity))
      = some (2, 0, 1) ∧
    (msc_connection_callback_query
        (example_env example_msc_iface 1 (0, []) (0, [0, 0, 0, 2, 0, 0, 4, 0]))
        example_world_ready 48 0).toOption.map
      (fun r => ((r.2.mem 48).uTotalSectorN, (r.2.mem 48).nSectorSize, r.1.capacity))
      = some (2, 1024, 1) ∧
    2 * 1024 / 1024 ≠ 1 := by
  decide

/-- C15, amended: for every device record and every 8-byte response `b0 .. b7` that the
executor leaves in the (allocated) buffer with status `USBH_OK`, after the capacity query
`nSectorSize` is the big-endian value of `b4 .. b7`, which is greater than 0 exactly when
these four bytes are not all zero, and the capacity the application derives is
`uTotalSectorN * 512 / 1024` in `size_t` arithmetic; this equals
`uTotalSectorN * nSectorSize / 1024` when `nSectorSize` is 512 and `uTotalSectorN * 512`
fits a `size_t`. -/
theorem capacity_query_derived (E : Env) (w : World) (msc_dev : Ptr) (status : Int)
    (b0 b1 b2 b3 b4 b5 b6 b7 : Nat)
    (h0 : b0 < 256) (h1 : b1 < 256) (h2 : b2 < 256) (h3 : b3 < 256)
    (h4 : b4 < 256) (h5 : b5 < 256) (h6 : b6 < 256) (h7 : b7 < 256)
    (hbuf : (capacity_call E w msc_dev).buff ≠ NULL)
    (hresp : capacity_response E w msc_dev = (E.K.USBH_OK, [b0, b1, b2, b3, b4, b5, b6, b7])) :
    ∃ (loc : CapacityLocals) (w' : World),
      msc_connection_callback_query E w msc_dev status = .ok (loc, w') ∧
      (w'.mem msc_dev).uTotalSectorN = b0 * 2 ^ 24 + b1 * 2 ^ 16 + b2 * 2 ^ 8 + b3 ∧
      (w'.mem msc_dev).nSectorSize = b4 * 2 ^ 24 + b5 * 2 ^ 16 + b6 * 2 ^ 8 + b7 ∧
      (0 < (w'.mem msc_dev).nSectorSize ↔ ¬ (b4 = 0 ∧ b5 = 0 ∧ b6 = 0 ∧ b7 = 0)) ∧
      loc.capacity
        = ((w'.mem msc_dev).uTotalSectorN % 2 ^ E.K.size_t_bits * 512)
            % 2 ^ E.K.size_t_bits / 1024 ∧
      ((w'.mem msc_dev).nSectorSize = 512 →
        (w'.mem msc_dev).uTotalSectorN * 512 < 2 ^ E.K.size_t_bits →
        loc.capacity = (w'.mem msc_dev).uTotalSectorN * (w'.mem msc_dev).nSectorSize / 1024) := by
  obtain ⟨loc, w', hq, _, _, hN, hS, hn, hc, _⟩ :=
    msc_connection_callback_query_ok E w msc_dev status hbuf (by rw [hresp])
  rw [hresp] at hN hS
  have hN' : (w'.mem msc_dev).uTotalSectorN = b0 * 2 ^ 24 + b1 * 2 ^ 16 + b2 * 2 ^ 8 + b3 := by
    rw [hN, be32_pattern_eq _ _ _ _ (byte_at_lt _ _) (byte_at_lt _ _) (byte_at_lt _ _)
      (byte_at_lt _ _)]
    simp [byte_at, Nat.mod_eq_of_lt, h0, h1, h2, h3]
  have hS' : (w'.mem msc_dev).nSectorSize = b4 * 2 ^ 24 + b5 * 2 ^ 16 + b6 * 2 ^ 8 + b7 := by
    rw [hS, be32_pattern_eq _ _ _ _ (byte_at_lt _ _) (byte_at_lt _ _) (byte_at_lt _ _)
      (byte_at_lt _ _)]
    simp [byte_at, Nat.mod_eq_of_lt, h4, h5, h6, h7]
  have hcap : loc.capacity
      = ((w'.mem msc_dev).uTotalSectorN % 2 ^ E.K.size_t_bits * 512)
          % 2 ^ E.K.size_t_bits / 1024 := by
    rw [hc, hn]
  refine ⟨loc, w', hq, hN', hS', ?_, hcap, ?_⟩
  · rw [hS']; constructor
    · intro h hz; omega
    · intro h
      by_contra hz
      apply h
      omega
  · intro h512 hfit
    have hlt : (w'.mem msc_dev).uTotalSectorN < 2 ^ E.K.size_t_bits :=
      lt_of_le_of_lt (Nat.le_mul_of_pos_right _ (by norm_num)) hfit
    rw [hcap, h512, Nat.mod_eq_of_lt hlt, Nat.mod_eq_of_lt hfit]

/-- C15 amended, on the response `00 00 00 02 00 00 04 00` for the example record 48: the
sector size is 1024 and the derived capacity is `2 * 512 / 1024 = 1`. -/
theorem capacity_query_derived_witness :
    ∃ (loc : CapacityLocals) (w' : World),
      msc_connection_callback_query
        (example_env example_msc_iface 1 (0, []) (0, [0, 0, 0, 2, 0, 0, 4, 0]))
        example_world_ready 48 0 = .ok (loc, w') ∧
      (w'.mem 48).uTotalSectorN = 2 ∧ (w'.mem 48).nSectorSize = 1024 ∧
      0 < (w'.mem 48).nSectorSize ∧ loc.capacity = 1 := by
  obtain ⟨loc, w', hq, hN, hS, hpos, hcap, _⟩ :=
    capacity_query_derived
      (example_env example_msc_iface 1 (0, []) (0, [0, 0, 0, 2, 0, 0, 4, 0]))
      example_world_ready 48 0 0 0 0 2 0 0 4 0
      (by decide) (by decide) (by decide) (by decide) (by decide) (by decide) (by decide)
      (by decide) (by decide) rfl
  refine ⟨loc, w', hq, hN, hS, hpos.mpr (by decide), ?_⟩
  rw [hcap, hN]
  decide

/-! ## Disconnect: the order of notification, removal and free -/

/-- Forgetting the moments gives the run of `msc_disconnect_loop`. -/
theorem msc_disconnect_loop_moments_erase (E : Env) (iface : Ptr) (inner : Nat) :
    ∀ (fuel : Nat) (w : World) (msc : Ptr),
      (msc_disconnect_loop_moments E iface inner fuel w msc).map Prod.snd
        = msc_disconnect_loop E iface inner fuel w msc := by
  intro fuel
  induction fuel with
  | zero => intro w msc; rfl
  | succ fuel ih =>
    intro w msc
    simp only [msc_disconnect_loop_moments, msc_disconnect_loop]
    by_cases hn : msc = NULL
    · rw [if_pos hn, if_pos hn]; rfl
    · rw [if_neg hn, if_neg hn]
      by_cases hi : (w.mem msc).iface = iface
      · rw [if_pos hi, if_pos hi]
        cases hrem : msc_list_remove inner
            (if w.g_msc_disconn_func ≠ NULL then
              w.emit (Event.disconn w.g_msc_disconn_func msc 0) else w) msc with
        | error f => rfl
        | ok w2 =>
          simp only []
          rw [← ih]
          cases msc_disconnect_loop_moments E iface inner fuel
            (usbh_free_mem
              (if (w2.mem msc).scsi_buff ≠ NULL then
                usbh_free_mem w2 (w2.mem msc).scsi_buff E.K.SCSI_BUFF_LEN else w2)
              msc E.K.sizeof_MSC_T) (w.mem msc).next with
          | error f => rfl
          | ok r => rfl
      · rw [if_neg hi, if_neg hi]
        exact ih w (w.mem msc).next

/-- The function `msc_list_remove` makes no external call. -/
theorem msc_list_remove_trace (fuel : Nat) (w w' : World) (msc : Ptr)
    (h : msc_list_remove fuel w msc = .ok w') : w'.trace = w.trace := by
  unfold msc_list_remove at h
  split at h
  · split at h
    · cases h
    · cases h; rfl
  · split at h
    · cases h
    · split at h
      · split at h
        · cases h
        · cases h; rfl
      · cases h; rfl

theorem moments_from_append (t : List Event) (a b : List Moment)
    (ha : moments_from t a) (hb : moments_from (t ++ a.map Moment.event) b) :
    moments_from t (a ++ b) := by
  induction a generalizing t with
  | nil => simpa using hb
  | cons mo a ih =>
    obtain ⟨h1, h2⟩ := ha
    refine ⟨h1, ih _ h2 ?_⟩
    simpa using hb

/-- The moments of a run of the loop are consecutive and make up what the run appends to the
trace. -/
theorem msc_disconnect_loop_moments_trace (E : Env) (iface : Ptr) (inner : Nat) :
    ∀ (fuel : Nat) (w : World) (msc : Ptr) (ms : List Moment) (w' : World),
      msc_disconnect_loop_moments E iface inner fuel w msc = .ok (ms, w') →
      moments_from w.trace ms ∧ w'.trace = w.trace ++ ms.map Moment.event := by
  intro fuel
  induction fuel with
  | zero => intro w msc ms w' h; cases h
  | succ fuel ih =>
    intro w msc ms w' h
    simp only [msc_disconnect_loop_moments] at h
    by_cases hn : msc = NULL
    · rw [if_pos hn] at h
      cases h
      exact ⟨trivial, by simp⟩
    · rw [if_neg hn] at h
      by_cases hi : (w.mem msc).iface = iface
      · rw [if_pos hi] at h
        cases hrem : msc_list_remove inner
            (if w.g_msc_disconn_func ≠ NULL then
              w.emit (Event.disconn w.g_msc_disconn_func msc 0) else w) msc with
        | error f => rw [hrem] at h; cases h
        | ok w2 =>
          rw [hrem] at h
          simp only [] at h
          cases hrec : msc_disconnect_loop_moments E iface inner fuel
            (usbh_free_mem
              (if (w2.mem msc).scsi_buff ≠ NULL then
                usbh_free_mem w2 (w2.mem msc).scsi_buff E.K.SCSI_BUFF_LEN else w2)
              msc E.K.sizeof_MSC_T) (w.mem msc).next with
          | error f => rw [hrec] at h; cases h
          | ok r =>
            obtain ⟨ms', w''⟩ := r
            rw [hrec] at h
            simp only [Except.ok.injEq, Prod.mk.injEq] at h
            obtain ⟨hms, hw⟩ := h
            subst hw
            obtain ⟨ih1, ih2⟩ := ih _ _ _ _ hrec
            have ht2 := msc_list_remove_trace _ _ _ _ hrem
            rw [← hms]
            constructor
            · refine moments_from_append _ _ _ ?_ ?_
              · by_cases hd : w.g_msc_disconn_func = NULL <;>
                  by_cases hb : (w2.mem msc).scsi_buff = NULL <;>
                  simp [hd, hb, moments_from, usbh_free_mem] at ht2 ⊢ <;> simp [ht2]
              · by_cases hd : w.g_msc_disconn_func = NULL <;>
                  by_cases hb : (w2.mem msc).scsi_buff = NULL <;>
                  simp [hd, hb, usbh_free_mem] at ht2 ih1 ⊢ <;> simpa [ht2] using ih1
            · rw [ih2]
              by_cases hd : w.g_msc_disconn_func = NULL <;>
                by_cases hb : (w2.mem msc).scsi_buff = NULL <;>
                simp [hd, hb, usbh_free_mem] at ht2 ⊢ <;> simp [ht2]
      · rw [if_neg hi] at h
        exact ih _ _ _ _ h

theorem is_chain_unique (w : World) : ∀ (l1 l2 : List Ptr) (p : Ptr),
    is_chain w p l1 → is_chain w p l2 → l1 = l2 := by
  intro l1
  induction l1 with
  | nil =>
    intro l2 p h1 h2
    cases l2 with
    | nil => rfl
    | cons b l2 =>
      have hp : p = NULL := h1
      exact absurd (h2.1.symm.trans hp) h2.2.1
  | cons a l1 ih =>
    intro l2 p h1 h2
    cases l2 with
    | nil =>
      have hp : p = NULL := h2
      exact absurd (h1.1.symm.trans hp) h1.2.1
    | cons b l2 =>
      have hab : a = b := h1.1.symm.trans h2.1
      subst hab
      rw [ih l2 _ h1.2.2 h2.2.2]

/-- The Registry of a world is one list. -/
theorem registry_unique (w : World) (l1 l2 : List Ptr) (h1 : registry w l1)
    (h2 : registry w l2) : l1 = l2 :=
  is_chain_unique w l1 l2 _ h1 h2

/-- One pass of the loop of `msc_disconnect` over the rest `rest` of the Registry, with its
moments: for every record of the disconnecting interface the three calls made for it, the
world `wa` of its notification, in which it is registered, and the world `wb` that
`msc_list_remove` returns, in which it is not. -/
theorem msc_disconnect_loop_moments_spec (E : Env) (iface : Ptr) (inner : Nat) :
    ∀ (rest kept : List Ptr) (W : World) (msc : Ptr) (fuel : Nat),
      registry W (kept ++ rest) → is_chain W msc rest → (kept ++ rest).Nodup →
      rest.length < fuel → (kept ++ rest).length ≤ inner →
      ∃ ms W', msc_disconnect_loop_moments E iface inner fuel W msc = .ok (ms, W') ∧
        ∀ r, r ∈ rest → (W.mem r).iface = iface →
          ∃ (pre post : List Moment) (wa wb : World) (S : List Ptr),
            ms = pre ++ record_moments E wa wb r ++ post ∧
            S.Sublist rest ∧ r ∉ S ∧
            wa.trace = W.trace ++ S.flatMap (disconnect_events E W) ∧
            (∀ q, (wa.mem q).data = (W.mem q).data) ∧
            (∃ l, registry wa l ∧ r ∈ l) ∧
            msc_list_remove inner (after_notify wa r) r = .ok wb ∧
            (∃ l, registry wb l ∧ r ∉ l) ∧
            wa.g_msc_disconn_func = W.g_msc_disconn_func := by
  intro rest
  induction rest with
  | nil =>
    intro kept W msc fuel _ hch _ hfuel _
    have hmsc : msc = NULL := hch
    obtain ⟨fuel', rfl⟩ : ∃ f, fuel = f + 1 := ⟨fuel - 1, by simp at hfuel; omega⟩
    refine ⟨[], W, ?_, ?_⟩
    · simp only [msc_disconnect_loop_moments]
      rw [if_pos hmsc]
    · intro r hr; cases hr
  | cons a rest ih =>
    intro kept W msc fuel hreg hch hnd hfuel hinner
    obtain ⟨hmsc, ha, hnext⟩ := hch
    subst hmsc
    obtain ⟨fuel', rfl⟩ : ∃ f, fuel = f + 1 := ⟨fuel - 1, by simp at hfuel; omega⟩
    have hfuel' : rest.length < fuel' := by simp at hfuel; omega
    by_cases hif : (W.mem msc).iface = iface
    · -- the record is removed
      have hmk : msc ∉ kept := fun h =>
        (List.nodup_append.mp hnd).2.2 h (List.mem_cons_self _ _)
      have hmr : msc ∉ rest := (List.nodup_cons.mp (List.nodup_append.mp hnd).2.1).1
      have hdisj : ∀ q, q ∈ rest → q ∉ kept := fun q hq h =>
        (List.nodup_append.mp hnd).2.2 h (List.mem_cons_of_mem _ hq)
      obtain ⟨W1, hW1, m1, g1, t1, c1, d1⟩ : ∃ W1,
          W1 = (if W.g_msc_disconn_func ≠ NULL then
                  W.emit (Event.disconn W.g_msc_disconn_func msc 0) else W) ∧
          W1.mem = W.mem ∧ W1.g_msc_list = W.g_msc_list ∧
          W1.trace = W.trace ++ (if W.g_msc_disconn_func ≠ NULL then
              [Event.disconn W.g_msc_disconn_func msc 0] else []) ∧
          W1.g_msc_conn_func = W.g_msc_conn_func ∧
          W1.g_msc_disconn_func = W.g_msc_disconn_func := by
        refine ⟨_, rfl, ?_⟩
        split <;> simp
      have hreg1 : registry W1 (kept ++ msc :: rest) := by
        unfold registry usbh_msc_get_device_list
        rw [g1]
        exact (is_chain_congr W W1 (fun q => by rw [m1]) _ _).mpr hreg
      obtain ⟨W2, hrem, r2, t2, c2, d2, m2, q2⟩ :=
        msc_list_remove_registered W1 msc kept rest inner hreg1 hnd
          (by simp at hinner; omega)
      obtain ⟨W4, hW4, m4, g4, t4, c4, d4⟩ : ∃ W4,
          W4 = usbh_free_mem
                (if (W2.mem msc).scsi_buff ≠ NULL then
                  usbh_free_mem W2 (W2.mem msc).scsi_buff E.K.SCSI_BUFF_LEN else W2)
                msc E.K.sizeof_MSC_T ∧
          W4.mem = W2.mem ∧ W4.g_msc_list = W2.g_msc_list ∧
          W4.trace = W2.trace ++
            ((if (W2.mem msc).scsi_buff ≠ NULL then
                [Event.free (W2.mem msc).scsi_buff E.K.SCSI_BUFF_LEN] else []) ++
              [Event.free msc E.K.sizeof_MSC_T]) ∧
          W4.g_msc_conn_func = W2.g_msc_conn_func ∧
          W4.g_msc_disconn_func = W2.g_msc_disconn_func := by
        refine ⟨_, rfl, ?_⟩
        split <;> simp [usbh_free_mem]
      have hdata4 : ∀ q, (W4.mem q).data = (W.mem q).data := by
        intro q
        rw [m4, m2 q, m1]
      have hmem4 : ∀ q, q ∉ kept → W4.mem q = W.mem q := by
        intro q hq
        rw [m4, q2 q hq, m1]
      have hreg4 : registry W4 (kept ++ rest) := by
        unfold registry usbh_msc_get_device_list
        rw [g4]
        exact (is_chain_congr W2 W4 (fun q => by rw [m4]) _ _).mpr r2
      have hch4 : is_chain W4 (W.mem msc).next rest :=
        (is_chain_congr_on W W4 rest (fun q hq => by rw [hmem4 q (hdisj q hq)]) _).mpr hnext
      have hnd4 : (kept ++ rest).Nodup := by
        have h := hnd
        rw [List.nodup_append] at h ⊢
        exact ⟨h.1, (List.nodup_cons.mp h.2.1).2,
          fun x hx hxr => h.2.2 hx (List.mem_cons_of_mem _ hxr)⟩
      obtain ⟨ms', W', h1, h2⟩ := ih kept W4 (W.mem msc).next fuel'
        hreg4 hch4 hnd4 hfuel' (by simp at hinner ⊢; omega)
      have hsb : (W2.mem msc).scsi_buff = (W.mem msc).scsi_buff := by
        rw [q2 msc hmk, m1]
      have hrun : msc_disconnect_loop_moments E iface inner (fuel' + 1) W msc
          = .ok (record_moments E W W2 msc ++ ms', W') := by
        simp only [msc_disconnect_loop_moments]
        rw [if_neg ha, if_pos hif, ← hW1, hrem]
        simp only []
        rw [← hW4, h1]
        simp [record_moments, after_buffer_free]
      refine ⟨_, W', hrun, ?_⟩
      intro r hr hri
      by_cases hrm : r = msc
      · subst hrm
        refine ⟨[], ms', W, W2, [], by simp, List.nil_sublist _, by simp, by simp,
          fun _ => rfl, ⟨_, hreg, by simp⟩, ?_, ⟨_, r2, ?_⟩, rfl⟩
        · unfold after_notify
          rw [← hW1]
          exact hrem
        · intro h
          rcases List.mem_append.mp h with h | h
          · exact hmk h
          · exact hmr h
      · have hr' : r ∈ rest := by
          rcases List.mem_cons.mp hr with h | h
          · exact absurd h hrm
          · exact h
        obtain ⟨pre, post, wa, wb, S, e1, e2, e3, e4, e5, e6, e7, e8, e9⟩ :=
          h2 r hr' (by rw [data_iface _ _ (hdata4 r)]; exact hri)
        have hev : disconnect_events E W4 = disconnect_events E W := by
          funext x
          exact disconnect_events_congr E W W4 (by rw [d4, d2, d1]) hdata4 x
        refine ⟨record_moments E W W2 msc ++ pre, post, wa, wb, msc :: S, ?_,
          List.Sublist.cons₂ _ e2, ?_, ?_, ?_, e6, e7, e8, by rw [e9, d4, d2, d1]⟩
        · rw [e1]; simp
        · intro h
          rcases List.mem_cons.mp h with h | h
          · exact hrm h
          · exact e3 h
        · rw [e4, hev, t4, t2, t1]
          simp [List.flatMap_cons, disconnect_events, hsb]
        · intro q
          rw [e5 q, hdata4 q]
    · -- the record is kept
      have hreg' : registry W ((kept ++ [msc]) ++ rest) := by simpa using hreg
      have hnd' : ((kept ++ [msc]) ++ rest).Nodup := by simpa using hnd
      obtain ⟨ms', W', h1, h2⟩ := ih (kept ++ [msc]) W (W.mem msc).next fuel'
        hreg' hnext hnd' hfuel' (by simpa using hinner)
      refine ⟨ms', W', ?_, ?_⟩
      · simp only [msc_disconnect_loop_moments]
        rw [if_neg ha, if_neg hif]
        exact h1
      · intro r hr hri
        have hr' : r ∈ rest := by
          rcases List.mem_cons.mp hr with h | h
          · exact absurd (h ▸ hri) hif
          · exact h
        obtain ⟨pre, post, wa, wb, S, e1, e2, e3, e4, e5, e6, e7, e8, e9⟩ := h2 r hr' hri
        exact ⟨pre, post, wa, wb, S, e1, List.Sublist.cons _ e2, e3, e4, e5, e6, e7, e8, e9⟩


/-- The function `msc_list_remove` writes nothing but `next` members. -/
theorem msc_list_remove_data (fuel : Nat) (w w' : World) (msc : Ptr)
    (h : msc_list_remove fuel w msc = .ok w') : ∀ q, (w'.mem q).data = (w.mem q).data := by
  unfold msc_list_remove at h
  split at h
  · split at h
    · cases h
    · cases h; intro q; rfl
  · split at h
    · cases h
    · rename_i p _
      split at h
      · split at h
        · cases h
        · cases h
          intro q
          by_cases hq : q = p
          · rw [hq, World.store_mem_self]
            rfl
          · rw [World.store_mem_of_ne _ _ _ _ hq]
      · cases h; intro q; rfl

/-- When the registered records and their working buffers are pairwise distinct blocks, the
frees made for registered records other than `r` hit neither `r` nor its working buffer. -/
theorem not_mem_frees_of_others (w : World) (L S : List Ptr) (r : Ptr)
    (hown : (L ++ L.map (fun r => (w.mem r).scsi_buff)).Nodup)
    (hr : r ∈ L) (hS : ∀ x, x ∈ S → x ∈ L) (hrS : r ∉ S) :
    r ∉ S.flatMap (disconnect_frees w) ∧
    (w.mem r).scsi_buff ∉ S.flatMap (disconnect_frees w) := by
  obtain ⟨_, hM, hdisj⟩ := List.nodup_append.mp hown
  have hsbL : ∀ a, a ∈ L → ∀ y, y ∈ L → (w.mem a).scsi_buff ≠ y := by
    intro a ha y hy h
    exact hdisj hy (List.mem_map.mpr ⟨a, ha, h⟩)
  have hinj : ∀ a, a ∈ L → ∀ y, y ∈ L → (w.mem a).scsi_buff = (w.mem y).scsi_buff → a = y :=
    fun a ha y hy h => List.inj_on_of_nodup_map hM ha hy h
  constructor
  · intro hm
    obtain ⟨r', hr', hx⟩ := List.mem_flatMap.mp hm
    rcases (mem_disconnect_frees w r' r).mp hx with h | ⟨h, _⟩
    · exact hrS (h ▸ hr')
    · exact hsbL r' (hS r' hr') r hr h.symm
  · intro hm
    obtain ⟨r', hr', hx⟩ := List.mem_flatMap.mp hm
    rcases (mem_disconnect_frees w r' _).mp hx with h | ⟨h, _⟩
    · exact hsbL r hr r' (hS r' hr') h
    · exact hrS ((hinj r hr r' (hS r' hr') h) ▸ hr')

/-- C11: let the Registry hold the records `L`, these records and their working buffers
being pairwise distinct blocks that are outstanding: allocated and not freed since (the
invariant `attached_inv` that every sequence of driver calls keeps).  Then
`msc_disconnect(iface)` returns, and for every registered record `r` of the disconnecting
interface its external calls contain, in this order and next to each other, the detach
notification `(r, 0)` (when a detach callback is installed), the free of the working buffer
and the free of `r`, with `msc_list_remove(r)` run between the notification and the frees.
In the world `wa` in which the notification is made, `r` is in the Registry `la` and both
`r` and its working buffer are still outstanding; the worlds in which the buffer and the
record are freed have the Registry `lb`, and `r` is not in it. -/
theorem msc_disconnect_order (E : Env) (w : World) (iface : Ptr) (L : List Ptr) (fuel : Nat)
    (hreg : registry w L)
    (hown : (L ++ L.map (fun r => (w.mem r).scsi_buff)).Nodup)
    (hlive : ∀ x, x ∈ L ++ L.map (fun r => (w.mem r).scsi_buff) → x ∈ outstanding w.trace)
    (hfuel : L.length < fuel) :
    ∃ (ms : List Moment) (w' : World),
      msc_disconnect_moments E fuel w iface = .ok (ms, w') ∧
      msc_disconnect E fuel w iface = .ok w' ∧
      moments_from (quit_xfer_all w iface (E.ifmem iface).aif.ifd.bNumEndpoints).trace ms ∧
      w'.trace = (quit_xfer_all w iface (E.ifmem iface).aif.ifd.bNumEndpoints).trace
        ++ ms.map Moment.event ∧
      ∀ r, r ∈ L → (w.mem r).iface = iface →
        ∃ (pre post : List Moment) (wa wb : World) (la lb : List Ptr),
          ms = pre ++ record_moments E wa wb r ++ post ∧
          wa.g_msc_disconn_func = w.g_msc_disconn_func ∧
          registry wa la ∧ r ∈ la ∧
          r ∈ outstanding wa.trace ∧ (wa.mem r).scsi_buff ∈ outstanding wa.trace ∧
          msc_list_remove fuel (after_notify wa r) r = .ok wb ∧
          (wb.mem r).scsi_buff = (wa.mem r).scsi_buff ∧
          registry wb lb ∧ registry (after_buffer_free E wb r) lb ∧ r ∉ lb := by
  have hnd : L.Nodup := (List.nodup_append.mp hown).1
  obtain ⟨qm, qg, _, qd, qt⟩ :=
    quit_xfer_all_eq w iface (E.ifmem iface).aif.ifd.bNumEndpoints
  generalize hW0 : quit_xfer_all w iface (E.ifmem iface).aif.ifd.bNumEndpoints = W0
    at qm qg qd qt ⊢
  have hreg0 : registry W0 ([] ++ L) := by
    unfold registry usbh_msc_get_device_list
    rw [qg]
    exact (is_chain_congr w W0 (fun q => by rw [qm]) _ _).mpr hreg
  have hch0 : is_chain W0 W0.g_msc_list L := hreg0
  obtain ⟨ms, w', hrun, hrec⟩ := msc_disconnect_loop_moments_spec E iface fuel L [] W0
    W0.g_msc_list fuel hreg0 hch0 (by simpa using hnd) hfuel (by simp; omega)
  obtain ⟨hmf, htr⟩ := msc_disconnect_loop_moments_trace E iface fuel fuel W0 _ ms w' hrun
  have hfr : ∀ x, disconnect_frees W0 x = disconnect_frees w x := by
    intro x; unfold disconnect_frees; rw [qm]
  have hrun' : msc_disconnect_moments E fuel w iface = .ok (ms, w') := by
    simp only [msc_disconnect_moments]
    rw [hW0]
    exact hrun
  refine ⟨ms, w', hrun', ?_, hmf, htr, ?_⟩
  · simp only [msc_disconnect]
    rw [hW0, ← msc_disconnect_loop_moments_erase, hrun]
    rfl
  · intro r hr hri
    obtain ⟨pre, post, wa, wb, S, e1, e2, e3, e4, e5, ⟨la, hla, hrla⟩, e7, ⟨lb, hlb, hrlb⟩, e9⟩ :=
      hrec r hr (by rw [qm]; exact hri)
    obtain ⟨hnr, hnsb⟩ := not_mem_frees_of_others w L S r hown hr (fun x hx => e2.subset hx) e3
    have hkeep : ∀ x, x ∈ outstanding w.trace → x ∉ S.flatMap (disconnect_frees w) →
        x ∈ outstanding wa.trace := by
      intro x hx hnx
      rw [e4, qt, List.append_assoc]
      apply outstanding_keep _ _ _ hx
      rw [freed_append, freed_quit_events, freed_flatMap]
      simp only [freed_disconnect_events, List.nil_append]
      have hflat : S.flatMap (disconnect_frees W0) = S.flatMap (disconnect_frees w) := by
        congr 1
        funext x
        exact hfr x
      rw [hflat]
      exact hnx
    have hsb : (wa.mem r).scsi_buff = (w.mem r).scsi_buff := by
      rw [data_scsi_buff _ _ (e5 r), qm]
    have hsbb : (wb.mem r).scsi_buff = (wa.mem r).scsi_buff := by
      rw [data_scsi_buff _ _ (msc_list_remove_data _ _ _ _ e7 r)]
      unfold after_notify
      split <;> rfl
    have hlb' : registry (after_buffer_free E wb r) lb := by
      unfold registry usbh_msc_get_device_list at hlb ⊢
      unfold after_buffer_free
      split
      · exact (is_chain_congr wb
          (usbh_free_mem wb (wb.mem r).scsi_buff E.K.SCSI_BUFF_LEN) (fun _ => rfl) _ _).mpr hlb
      · exact hlb
    refine ⟨pre, post, wa, wb, la, lb, e1, by rw [e9, qd], hla, hrla, ?_, ?_, e7, hsbb,
      hlb, hlb', hrlb⟩
    · exact hkeep r (hlive r (List.mem_append_left _ hr)) hnr
    · rw [hsb]
      exact hkeep _ (hlive _ (List.mem_append_right _ (List.mem_map_of_mem _ hr))) hnsb

/-- The invariant `attached_inv` gives the hypotheses of the order theorem. -/
theorem attached_inv_blocks (w : World) (A : List (Ptr × Ptr)) (hinv : attached_inv w A) :
    registry w (A.map Prod.fst) ∧
    (A.map Prod.fst ++ (A.map Prod.fst).map (fun r => (w.mem r).scsi_buff)).Nodup ∧
    (∀ x, x ∈ A.map Prod.fst ++ (A.map Prod.fst).map (fun r => (w.mem r).scsi_buff) →
      x ∈ outstanding w.trace) :=
  ⟨hinv.1, hinv.2.2.1, hinv.2.2.2⟩

/-- C11 on two examples.  On the Registry `[16, 48, 80]` (buffers 32, 64, 96; records 16
and 80 on interface 100, blocks allocated once) and on the Registry `[16]` of a device that
was attached, detached and attached again at the same addresses, so that 16 and 32 have
been freed before: the disconnect of interface 100 returns, and the record (80, and 16) is
registered and outstanding with its buffer when its detach notification is made, and
unregistered when its blocks are freed. -/
theorem msc_disconnect_order_witness :
    (∃ (ms : List Moment) (w' : World),
      msc_disconnect_moments (example_env example_msc_iface 0 (0, []) (0, [])) 4
        example_world_three_live 100 = .ok (ms, w') ∧
      ∃ (pre post : List Moment) (wa wb : World) (la lb : List Ptr),
        ms = pre ++ record_moments (example_env example_msc_iface 0 (0, []) (0, [])) wa wb 80
          ++ post ∧
        wa.g_msc_disconn_func = 10 ∧ registry wa la ∧ 80 ∈ la ∧
        80 ∈ outstanding wa.trace ∧ (wa.mem 80).scsi_buff ∈ outstanding wa.trace ∧
        registry wb lb ∧ 80 ∉ lb) ∧
    (16 ∈ freed example_world_reattached.trace ∧ 32 ∈ freed example_world_reattached.trace ∧
     ∃ (ms : List Moment) (w' : World),
      msc_disconnect_moments (example_env example_msc_iface 0 (0, []) (0, [])) 4
        example_world_reattached 100 = .ok (ms, w') ∧
      ∃ (pre post : List Moment) (wa wb : World) (la lb : List Ptr),
        ms = pre ++ record_moments (example_env example_msc_iface 0 (0, []) (0, [])) wa wb 16
          ++ post ∧
        wa.g_msc_disconn_func = 10 ∧ registry wa la ∧ 16 ∈ la ∧
        16 ∈ outstanding wa.trace ∧ (wa.mem 16).scsi_buff ∈ outstanding wa.trace ∧
        registry wb lb ∧ 16 ∉ lb) := by
  constructor
  · obtain ⟨ms, w', h1, _, _, _, h5⟩ :=
      msc_disconnect_order (example_env example_msc_iface 0 (0, []) (0, []))
        example_world_three_live 100 [16, 48, 80] 4 (by decide) (by decide) (by decide)
        (by decide)
    obtain ⟨pre, post, wa, wb, la, lb, e1, e2, e3, e4, e5, e6, _, _, e9, _, e11⟩ :=
      h5 80 (by decide) (by decide)
    exact ⟨ms, w', h1, pre, post, wa, wb, la, lb, e1, e2, e3, e4, e5, e6, e9, e11⟩
  · refine ⟨by decide, by decide, ?_⟩
    obtain ⟨ms, w', h1, _, _, _, h5⟩ :=
      msc_disconnect_order (example_env example_msc_iface 0 (0, []) (0, []))
        example_world_reattached 100 [16] 4 (by decide) (by decide) (by decide)
        (by decide)
    obtain ⟨pre, post, wa, wb, la, lb, e1, e2, e3, e4, e5, e6, _, _, e9, _, e11⟩ :=
      h5 16 (by decide) (by decide)
    exact ⟨ms, w', h1, pre, post, wa, wb, la, lb, e1, e2, e3, e4, e5, e6, e9, e11⟩

end XMU
